import Mathlib

/-!
# CloudEvents SDK (n3wscott/sdk-go): verification development

Shallow embedding of the receiver-signature validator and invoker
(`pkg/cloudevents/client/receiver.go`), the v0.4 context with its validation,
extensions and conversion to v0.3 (`pkg/cloudevents/eventcontext_v04.go`),
message-to-event conversion (`pkg/binding/to_event.go`), HTTP encoding
selection (`pkg/cloudevents/transport/http/encoding.go`) and the v2 client's
`Send` (`v2/client/client.go`), followed by the theorems about them.

Conventions.
* A Go `error` is an `Option String`: `none` is `nil`, `some msg` an error
  whose `Error()` text is `msg`.
* A Go call that may panic returns a `GoResult`.
* Go strings are modelled by Lean strings (valid UTF-8 only).
-/

namespace CloudEvents

/-! ## Go runtime: results and `reflect` -/

/-- Outcome of a Go call: it returns normally, or it panics. -/
inductive GoResult (α : Type) where
  | returned (a : α)
  | panicked (msg : String)
  deriving Repr

/-- The values of `reflect.Kind`. -/
inductive Kind where
  | Invalid | Bool | Int | Int8 | Int16 | Int32 | Int64
  | Uint | Uint8 | Uint16 | Uint32 | Uint64 | Uintptr
  | Float32 | Float64 | Complex64 | Complex128
  | Array | Chan | Func | Interface | Map | Ptr | Slice | String | Struct
  | UnsafePointer
  deriving DecidableEq, Repr

/-- The six package-level `reflect.Type` variables of `receiver.go`
(lines 37-44), the only targets of `ConvertibleTo` in the package. -/
inductive PkgType where
  | contextType
  | eventType
  | eventPtrType
  | eventResponseType
  | eventResponsePtrType
  | errorType
  deriving DecidableEq, Repr

export PkgType (contextType eventType eventPtrType eventResponseType
  eventResponsePtrType errorType)

/-- A `reflect.Type` as the validator observes a parameter or result type:
its `String()` rendering, its `Kind()`, and the answer of `ConvertibleTo`
for each of the six package-level types. Go's convertibility relation is
part of the language, so it is carried by the type rather than recomputed. -/
structure ReflectType where
  name : String
  kind : Kind
  toContext : Bool
  toEvent : Bool
  toEventPtr : Bool
  toEventResponse : Bool
  toEventResponsePtr : Bool
  toError : Bool
  deriving DecidableEq, Repr

/-- The method `t.ConvertibleTo(u)` for `u` one of the package-level types. -/
def ReflectType.ConvertibleTo (t : ReflectType) : PkgType → Bool
  | .contextType => t.toContext
  | .eventType => t.toEvent
  | .eventPtrType => t.toEventPtr
  | .eventResponseType => t.toEventResponse
  | .eventResponsePtrType => t.toEventResponsePtr
  | .errorType => t.toError

/-- The `reflect.Type` denoted by each package-level variable. Each is
convertible to itself and to none of the other five (the table of
`TestReceiverUnconvertibleTo*` in `receiver_test.go`). -/
def PkgType.rtype : PkgType → ReflectType
  | .contextType => ⟨"context.Context", .Interface, true, false, false, false, false, false⟩
  | .eventType => ⟨"cloudevents.Event", .Struct, false, true, false, false, false, false⟩
  | .eventPtrType => ⟨"*cloudevents.Event", .Ptr, false, false, true, false, false, false⟩
  | .eventResponseType =>
      ⟨"cloudevents.EventResponse", .Struct, false, false, false, true, false, false⟩
  | .eventResponsePtrType =>
      ⟨"*cloudevents.EventResponse", .Ptr, false, false, false, false, true, false⟩
  | .errorType => ⟨"error", .Interface, false, false, false, false, false, true⟩

/-- The Go type `string`. -/
def stringType : ReflectType :=
  ⟨"string", .String, false, false, false, false, false, false⟩

/-- The Go type `int`. -/
def intType : ReflectType :=
  ⟨"int", .Int, false, false, false, false, false, false⟩

/-- The Go type `map[string]string`. -/
def mapStringStringType : ReflectType :=
  ⟨"map[string]string", .Map, false, false, false, false, false, false⟩

/-- The Go type `interface {}`. -/
def emptyInterfaceType : ReflectType :=
  ⟨"interface {}", .Interface, false, false, false, false, false, false⟩

/-- The `reflect.Type` of the value handed to `receiver`, seen through
`Kind`, `NumIn`, `In`, `NumOut` and `Out`. For a kind other than `Func` the
two lists are unused (Go panics on `NumIn` there; `receiver` never asks). -/
structure FnType where
  kind : Kind
  ins : List ReflectType
  outs : List ReflectType
  deriving DecidableEq, Repr

/-- The method `fnType.NumIn()`. -/
def FnType.NumIn (t : FnType) : Nat := t.ins.length

/-- The method `fnType.NumOut()`. -/
def FnType.NumOut (t : FnType) : Nat := t.outs.length

/-- The type `func(ins...) (outs...)`. -/
def funcType (ins outs : List ReflectType) : FnType := ⟨.Func, ins, outs⟩

/-- A non-nil `interface{}` value: its dynamic type and an identity. -/
structure Value where
  typ : FnType
  addr : Nat
  deriving DecidableEq, Repr

/-- An `interface{}` value; `none` is the untyped nil. -/
abbrev Iface := Option Value

/-- The function `reflect.TypeOf`: the dynamic type, nil for a nil interface. -/
def TypeOf (fn : Iface) : Option FnType := fn.map (·.typ)

/-- The function `reflect.ValueOf`: the zero `reflect.Value` for a nil interface. -/
def ValueOf (fn : Iface) : Option Value := fn

/-! ## `pkg/cloudevents/client/receiver.go` -/

namespace client

/-- The struct `receiverFn` (lines 18-30). -/
structure receiverFn where
  numIn : Nat
  fnValue : Option Value
  hasContextIn : Bool
  hasEventIn : Bool
  hasDataIn : Bool
  hasEventResponseIn : Bool
  dataType : Option ReflectType
  hasErrorOut : Bool
  deriving DecidableEq, Repr

def inParamUsage : String :=
  "expected a function taking either no parameters, one or more of (context.Context, cloudevents.Event, *cloudevents.EventResponse) ordered"

def outParamUsage : String :=
  "expected a function returning either nothing or an error"

def unconvertibleToEventResponseType (t : ReflectType) : Bool :=
  !t.ConvertibleTo eventResponsePtrType

def unconvertibleToEventType (t : ReflectType) : Bool :=
  !t.ConvertibleTo eventType

def unconvertibleToContextType (t : ReflectType) : Bool :=
  !t.ConvertibleTo contextType

def unconvertibleToAny (t : ReflectType) : Bool :=
  t.ConvertibleTo contextType ||
    t.ConvertibleTo eventType || t.ConvertibleTo eventPtrType ||
    t.ConvertibleTo eventResponseType || t.ConvertibleTo eventResponsePtrType

/-- The `case 1:` arm of `validateInParamSignature` (lines 196-217), entered
directly or by fallthrough; `t` is `fnType.In(0)`. -/
def validateInParamSignature.case1 (r : receiverFn) (t : ReflectType) :
    receiverFn × Option String :=
  if unconvertibleToContextType t then
    if unconvertibleToEventResponseType t then
      if unconvertibleToEventType t then
        (r, some (inParamUsage ++ "; cannot convert parameter 0 from " ++ t.name ++
          " to context.Context, cloudevents.Event or *cloudevents.EventResponse"))
      else if r.hasEventIn then
        (r, some (inParamUsage ++ "; duplicate parameter of type cloudevents.Event"))
      else
        ({ r with hasEventIn := true }, none)
    else if r.hasEventResponseIn then
      (r, some (inParamUsage ++ "; duplicate parameter of type *cloudevents.EventResponse"))
    else if r.hasEventIn then
      (r, some (inParamUsage ++ "; out of order parameter 0 for " ++ t.name))
    else
      ({ r with hasEventResponseIn := true }, none)
  else
    ({ r with hasContextIn := true }, none)

/-- The `case 2:` arm (lines 181-195); `t0`, `t1` are `fnType.In(0)`,
`fnType.In(1)`. It falls through to `case 1:`. -/
def validateInParamSignature.case2 (r : receiverFn) (t0 t1 : ReflectType) :
    receiverFn × Option String :=
  if unconvertibleToEventResponseType t1 then
    if unconvertibleToEventType t1 then
      (r, some (inParamUsage ++ "; cannot convert parameter 1 from " ++ t1.name ++
        " to cloudevents.Event or *cloudevents.EventResponse"))
    else
      validateInParamSignature.case1 { r with hasEventIn := true } t0
  else if r.hasEventResponseIn then
    (r, some (inParamUsage ++ "; duplicate parameter of type *cloudevents.EventResponse"))
  else
    validateInParamSignature.case1 { r with hasEventResponseIn := true } t0

/-- The `case 3:` arm (lines 172-180). It falls through to `case 2:`. -/
def validateInParamSignature.case3 (r : receiverFn) (t0 t1 t2 : ReflectType) :
    receiverFn × Option String :=
  if unconvertibleToEventResponseType t2 then
    (r, some (inParamUsage ++ "; cannot convert parameter 2 from " ++ t2.name ++
      " to *cloudevents.EventResponse"))
  else
    validateInParamSignature.case2 { r with hasEventResponseIn := true } t0 t1

/-- The `case 4:` arm (lines 141-170). -/
def validateInParamSignature.case4 (r : receiverFn) (t0 t1 t2 t3 : ReflectType) :
    receiverFn × Option String :=
  if unconvertibleToEventResponseType t3 then
    (r, some (inParamUsage ++ "; cannot convert parameter 4 from " ++ t3.name ++
      " to *cloudevents.EventResponse"))
  else
    let r := { r with hasEventResponseIn := true }
    if unconvertibleToAny t2 then
      (r, some (inParamUsage ++ "; cannot convert parameter 3 from " ++ t2.name ++ " to Any"))
    else
      let r := { r with dataType := some t2, hasDataIn := true }
      if unconvertibleToEventType t1 then
        (r, some (inParamUsage ++ "; cannot convert parameter 2 from " ++ t1.name ++
          " to cloudevents.Event"))
      else
        let r := { r with hasEventIn := true }
        if unconvertibleToContextType t0 then
          (r, some (inParamUsage ++ "; cannot convert parameter 1 from " ++ t0.name ++
            " to context.Context"))
        else
          ({ r with hasContextIn := true }, none)

/-- The method `(r *receiverFn) validateInParamSignature(fnType)`. The receiver
is mutated in place, also on the error paths, so the updated struct is
returned next to the error. The `switch fnType.NumIn()` with its `In(i)`
reads is the match on the parameter list. -/
def validateInParamSignature (r : receiverFn) (fnType : FnType) :
    receiverFn × Option String :=
  let r := { r with hasContextIn := false, hasEventIn := false, hasDataIn := false,
                    hasEventResponseIn := false }
  match fnType.ins with
  | [t0, t1, t2, t3] => validateInParamSignature.case4 r t0 t1 t2 t3
  | [t0, t1, t2] => validateInParamSignature.case3 r t0 t1 t2
  | [t0, t1] => validateInParamSignature.case2 r t0 t1
  | [t0] => validateInParamSignature.case1 r t0
  | [] => (r, none)
  | _ =>
    (r, some (inParamUsage ++ "; function has too many parameters (" ++
      toString fnType.NumIn ++ ")"))

/-- The method `(r *receiverFn) validateOutParamSignature(fnType)`. -/
def validateOutParamSignature (r : receiverFn) (fnType : FnType) :
    receiverFn × Option String :=
  let r := { r with hasErrorOut := false }
  match fnType.outs with
  | [paramType] =>
    let paramNo := fnType.NumOut - 1
    if !paramType.ConvertibleTo errorType then
      (r, some (outParamUsage ++ "; cannot convert return type " ++ toString paramNo ++
        " from " ++ paramType.name ++ " to error"))
    else
      ({ r with hasErrorOut := true }, none)
  | [] => (r, none)
  | _ =>
    (r, some (outParamUsage ++ "; function has too many return types (" ++
      toString fnType.NumOut ++ ")"))

/-- The method `(r *receiverFn) validate(fnType)`. -/
def validate (r : receiverFn) (fnType : FnType) : receiverFn × Option String :=
  match validateInParamSignature r fnType with
  | (r, some err) => (r, some err)
  | (r, none) =>
    match validateOutParamSignature r fnType with
    | (r, some err) => (r, some err)
    | (r, none) => (r, none)

/-- The function `receiver(fn)`. The result pair is `(*receiverFn, error)`.
`reflect.TypeOf(nil)` is a nil `reflect.Type`, and calling `Kind()` on it
is a nil dereference. -/
def receiver (fn : Iface) : GoResult (Option receiverFn × Option String) :=
  match TypeOf fn with
  | none => .panicked "runtime error: invalid memory address or nil pointer dereference"
  | some fnType =>
    if fnType.kind ≠ Kind.Func then
      .returned (none, some "must pass a function to handle events")
    else
      let r : receiverFn :=
        { numIn := fnType.NumIn, fnValue := ValueOf fn,
          hasContextIn := false, hasEventIn := false, hasDataIn := false,
          hasEventResponseIn := false, dataType := none, hasErrorOut := false }
      match validate r fnType with
      | (_, some err) => .returned (none, some err)
      | (r, none) => .returned (some r, none)

/-- A Go function value of type `func(ins...) (outs...)`, boxed in `interface{}`. -/
def goFunc (ins outs : List ReflectType) (addr : Nat) : Iface :=
  some ⟨funcType ins outs, addr⟩

/-- An argument `invoke` appends to `args`: the `reflect.Value` of the
context, of the event, of the decoded data, or of the response slot. -/
inductive Arg (Context Event Data Response : Type) where
  | ctx (c : Context)
  | event (e : Event)
  | data (d : Data)
  | resp (r : Response)
  deriving DecidableEq, Repr

/-- What `invoke` takes from outside `receiver.go`.
`DataAs` is modelled from the spec: `types.AllocateFromType(r.dataType)`
followed by `event.DataAs(&data)` materialises a fresh instance of the
declared type and populates it from the event data, or fails.
`body` runs the Go function behind a `reflect.Value` on its arguments and
gives the returned values, each seen through `.Interface().(error)`: the
text of a non-nil error, or `none`.
The other three are what `reflect.Value.Call` asks of the standard library:
`isNilFunc` tells whether a function value is nil, `TypeOf` is the type of
`reflect.ValueOf` of an argument (`none` for the zero Value, which
`reflect.ValueOf` gives for a nil interface), and `AssignableTo x t` is
`x.AssignableTo(t)`. -/
structure InvokeEnv (Context Event Data Response : Type) where
  DataAs : Event → Option ReflectType → Except String Data
  body : Value → List (Arg Context Event Data Response) → GoResult (List (Option String))
  isNilFunc : Value → Bool
  TypeOf : Arg Context Event Data Response → Option ReflectType
  AssignableTo : ReflectType → ReflectType → Bool

/-- What a call of `invoke` leaves behind: the calls of the user function
with their argument lists, and the returned error or the panic. -/
structure InvokeOutcome (Context Event Data Response : Type) where
  calls : List (List (Arg Context Event Data Response))
  result : GoResult (Option String)

section Invoke

variable {Context Event Data Response : Type}

/-- The loop of `reflect.Value.Call` over the parameters: the first argument
whose type is not assignable to the type of its parameter, with both types. -/
def Call.mismatch (env : InvokeEnv Context Event Data Response) :
    List (Arg Context Event Data Response) → List ReflectType →
    Option (ReflectType × ReflectType)
  | x :: rest, targ :: targs =>
    match env.TypeOf x with
    | some xt =>
      if env.AssignableTo xt targ then Call.mismatch env rest targs else some (xt, targ)
    | none => Call.mismatch env rest targs
  | _, _ => none

/-- The method `reflect.Value.Call`: it panics on the zero Value, on a value
that is no function, on a nil function, on a wrong number of arguments, on
an argument that is the zero Value and on an argument whose type is not
assignable to the type of its parameter, in this order, and else runs the
function. The first component lists the calls of the function that took
place. The functions `receiver` accepts are not variadic. -/
def Call (env : InvokeEnv Context Event Data Response) (fnValue : Option Value)
    (args : List (Arg Context Event Data Response)) :
    List (List (Arg Context Event Data Response)) × GoResult (List (Option String)) :=
  match fnValue with
  | none => ([], .panicked "reflect: call of reflect.Value.Call on zero Value")
  | some v =>
    if v.typ.kind ≠ Kind.Func then
      ([], .panicked "reflect: call of non-function")
    else if env.isNilFunc v then
      ([], .panicked "reflect.Value.Call: call of nil function")
    else if args.length < v.typ.NumIn then
      ([], .panicked "reflect: Call with too few input arguments")
    else if args.length > v.typ.NumIn then
      ([], .panicked "reflect: Call with too many input arguments")
    else if args.any (fun x => (env.TypeOf x).isNone) then
      ([], .panicked "reflect: Call using zero Value argument")
    else
      match Call.mismatch env args v.typ.ins with
      | some (xt, targ) =>
        ([], .panicked ("reflect: Call using " ++ xt.name ++ " as type " ++ targ.name))
      | none => ([args], env.body v args)

/-- The block `if r.numIn > 0` of `invoke` (lines 86-103): the argument list
built, or the error returned from inside the block. -/
def receiverFn.invoke.args (env : InvokeEnv Context Event Data Response) (r : receiverFn)
    (ctx : Context) (event : Event) (resp : Response) :
    Except String (List (Arg Context Event Data Response)) :=
  let args : List (Arg Context Event Data Response) := []
  if r.numIn > 0 then
    let args := if r.hasContextIn then args ++ [Arg.ctx ctx] else args
    let args := if r.hasEventIn then args ++ [Arg.event event] else args
    if r.hasDataIn then
      match env.DataAs event r.dataType with
      | .error err => .error ("failed to get dataAs: " ++ err)
      | .ok data =>
        let args := args ++ [Arg.data data]
        .ok (if r.hasEventResponseIn then args ++ [Arg.resp resp] else args)
    else
      .ok (if r.hasEventResponseIn then args ++ [Arg.resp resp] else args)
  else .ok args

/-- The method `(r *receiverFn) invoke(ctx, event, resp)` (lines 83-111). -/
def receiverFn.invoke (env : InvokeEnv Context Event Data Response) (r : receiverFn)
    (ctx : Context) (event : Event) (resp : Response) :
    InvokeOutcome Context Event Data Response :=
  match receiverFn.invoke.args env r ctx event resp with
  | .error err => ⟨[], .returned (some err)⟩
  | .ok args =>
    match Call env r.fnValue args with
    | (calls, .panicked msg) => ⟨calls, .panicked msg⟩
    | (calls, .returned v) =>
      if r.hasErrorOut ∧ v.length ≥ 1 then
        match v.head? with
        | some (some err) => ⟨calls, .returned (some err)⟩
        | _ => ⟨calls, .returned none⟩
      else ⟨calls, .returned none⟩

end Invoke

end client

/-! ## Go standard library: `strings`, `unicode`, `fmt` -/

/-- The predicate `unicode.IsSpace`: the Latin-1 spaces `\t \n \v \f \r`, space,
U+0085 and U+00A0, and beyond Latin-1 the code points with the `White_Space`
property. -/
def IsSpace (c : Char) : Bool :=
  let n := c.toNat
  n == 0x09 || n == 0x0A || n == 0x0B || n == 0x0C || n == 0x0D || n == 0x20 ||
  n == 0x85 || n == 0xA0 || n == 0x1680 || (0x2000 ≤ n && n ≤ 0x200A) ||
  n == 0x2028 || n == 0x2029 || n == 0x202F || n == 0x205F || n == 0x3000

/-- The function `strings.TrimSpace`: leading and trailing white space removed. -/
def TrimSpace (s : String) : String :=
  String.mk ((s.data.dropWhile IsSpace).reverse.dropWhile IsSpace).reverse

/-- The function `unicode.ToLower` on one rune. ASCII is mapped by the rule
itself; for the other runes Go consults its Unicode case tables, which are
taken as the parameter `caseTable`. -/
def ToLowerRune (caseTable : Char → Char) (c : Char) : Char :=
  if c.toNat < 0x80 then
    if 0x41 ≤ c.toNat ∧ c.toNat ≤ 0x5A then Char.ofNat (c.toNat + 0x20) else c
  else caseTable c

/-- The function `strings.ToLower`. -/
def ToLower (caseTable : Char → Char) (s : String) : String :=
  String.mk (s.data.map (ToLowerRune caseTable))

/-- The function `strings.Join`. -/
def Join : List String → String → String
  | [], _ => ""
  | [a], _ => a
  | a :: b :: rest, sep => a ++ sep ++ Join (b :: rest) sep

/-- The function `strings.HasPrefix`. -/
def HasPrefix (s pre : String) : Bool := pre.data.isPrefixOf s.data

/-- Expansion of a format by `fmt` when no operand is given: `%%` prints a
percent sign, a verb has no operand left (`%!v(MISSING)`), a trailing `%` has
no verb. Flags, width and precision between `%` and the verb are not
modelled; no format built in this development contains a `%`. -/
def expandFormat : List Char → List Char
  | [] => []
  | '%' :: '%' :: rest => '%' :: expandFormat rest
  | '%' :: v :: rest => "%!".data ++ v :: "(MISSING)".data ++ expandFormat rest
  | ['%'] => "%!(NOVERB)".data
  | c :: rest => c :: expandFormat rest

/-- The call `fmt.Errorf(format)` without operands, as the text of the error. -/
def Errorf (format : String) : String := String.mk (expandFormat format.data)

/-! ## `pkg/cloudevents/eventcontext_v04.go` -/

namespace types

/-- Modelled from the spec: the type `types.URLRef` is declared outside the
files at hand; a source reference is kept as the text its `String()` method
renders. -/
structure URLRef where
  str : String
  deriving DecidableEq, Repr

/-- The method `URLRef.String()`. -/
def URLRef.String (u : URLRef) : String := u.str

/-- Modelled from the spec: the type `types.Timestamp` is declared outside
the files at hand; a timestamp is kept as its RFC 3339 text. -/
structure Timestamp where
  str : String
  deriving DecidableEq, Repr

end types

/-- Modelled from the spec: the constant `Base64` of package `cloudevents` is
declared outside the files at hand; its value is the encoding name "base64". -/
def Base64 : String := "base64"

/-- The constant `CloudEventsVersionV04`. -/
def CloudEventsVersionV04 : String := "0.4"

/-- Modelled from the spec: the constant `CloudEventsVersionV02` is declared
outside the files at hand; it names spec version 0.2. -/
def CloudEventsVersionV02 : String := "0.2"

/-- Modelled from the spec: the constant `CloudEventsVersionV01` is declared
outside the files at hand; it names spec version 0.1. -/
def CloudEventsVersionV01 : String := "0.1"

/-- Modelled from the spec: the constant `CloudEventsVersionV03` is declared
outside the files at hand; it names spec version 0.3. -/
def CloudEventsVersionV03 : String := "0.3"

/-- Modelled from the spec: the constant `CloudEventsVersionV1` is declared
outside the files at hand; it names spec version 1.0. -/
def CloudEventsVersionV1 : String := "1.0"

/-- A value stored in an extension map, by what `ExtensionAs` can tell of its
dynamic type: a `string`, a `json.RawMessage` (its bytes), or a value of any
other type (its type name and an identity). The methods of the file store
and read `interface{}` values, whatever the field's declared element type. -/
inductive ExtensionValue where
  | string (s : String)
  | rawMessage (raw : List UInt8)
  | other (typeName : String) (id : Nat)
  deriving DecidableEq, Repr

/-- A Go map with string keys: finitely many entries, one per key. -/
abbrev GoMap (V : Type) := AList (fun _ : String => V)

/-- The index expression `value, ok := m[name]` on a possibly nil map. -/
def GoMap.index {V : Type} (m : Option (GoMap V)) (name : String) : Option V :=
  match m with
  | none => none
  | some m => m.lookup name

/-- The builtin `len` on a possibly nil map. -/
def GoMap.len {V : Type} (m : Option (GoMap V)) : Nat :=
  match m with
  | none => 0
  | some m => m.entries.length

/-- The struct `EventContextV04` (lines 21-44). A pointer field is an
`Option`; the extension map is `none` when nil. The field `Type` is written
`Type_`, `Type` being reserved. -/
structure EventContextV04 where
  SpecVersion : String
  Type_ : String
  Source : types.URLRef
  Subject : Option String
  ID : String
  Time : Option types.Timestamp
  DataSchema : Option types.URLRef
  DataContentType : Option String
  DataContentEncoding : Option String
  Extensions : Option (GoMap ExtensionValue)
  deriving DecidableEq

/-- Modelled from the spec: the struct `EventContextV03` is declared outside
the files at hand; its fields are those the literal in `AsV03` sets. -/
structure EventContextV03 where
  SpecVersion : String
  Type_ : String
  Source : types.URLRef
  Subject : Option String
  ID : String
  Time : Option types.Timestamp
  SchemaURL : Option types.URLRef
  DataContentType : Option String
  DataContentEncoding : Option String
  Extensions : Option (GoMap ExtensionValue)
  deriving DecidableEq

/-- What `ExtensionAs` writes through: the value `obj` points to. It is a
non-nil `*string` with the string it points to, or a value of another type
with the name `%T` prints and its content. -/
inductive Target where
  | stringPtr (cur : String)
  | other (typeName : String) (cur : Nat)
  deriving DecidableEq, Repr

/-- What `ExtensionAs` takes from the standard library: the `%q` verb
(`strconv.Quote`) and `json.Unmarshal` into a `*string` or into a value of
another type. `json.Unmarshal` returns the content it left behind and the
error. -/
structure Codec where
  Quote : String → String
  UnmarshalString : List UInt8 → String → String × Option String
  UnmarshalOther : String → List UInt8 → Nat → Nat × Option String

/-- The call `json.Unmarshal(raw, obj)`. -/
def Codec.Unmarshal (codec : Codec) (raw : List UInt8) : Target → Target × Option String
  | .stringPtr cur =>
    let (s, err) := codec.UnmarshalString raw cur
    (.stringPtr s, err)
  | .other typeName cur =>
    let (c, err) := codec.UnmarshalOther typeName raw cur
    (.other typeName c, err)

/-- The second `switch` of `ExtensionAs` (lines 66-77), on the type of `obj`. -/
def EventContextV04.ExtensionAs.assign (codec : Codec) (name : String)
    (value : ExtensionValue) (obj : Target) : Option String × Target :=
  match obj with
  | .stringPtr _ =>
    match value with
    | .string valueAsString => (none, .stringPtr valueAsString)
    | _ => (some ("invalid type for extension " ++ codec.Quote name), obj)
  | .other typeName _ => (some ("unknown extension type " ++ typeName), obj)

/-- The method `EventContextV04.ExtensionAs(name, obj)` (lines 50-78): the
returned error and what `obj` points to afterwards. -/
def EventContextV04.ExtensionAs (codec : Codec) (ec : EventContextV04) (name : String)
    (obj : Target) : Option String × Target :=
  match GoMap.index ec.Extensions name with
  | none => (some ("extension " ++ codec.Quote name ++ " does not exist"), obj)
  | some value =>
    match value with
    | .rawMessage v =>
      match codec.Unmarshal v obj with
      | (obj, none) => (none, obj)
      | (obj, some _) => EventContextV04.ExtensionAs.assign codec name value obj
    | _ => EventContextV04.ExtensionAs.assign codec name value obj

/-- The method `(ec *EventContextV04) SetExtension(name, value)` (lines
81-91): the context afterwards and the returned error. A nil `value` is
`none`. -/
def EventContextV04.SetExtension (ec : EventContextV04) (name : String)
    (value : Option ExtensionValue) : EventContextV04 × Option String :=
  let extensions : GoMap ExtensionValue :=
    match ec.Extensions with
    | none => ∅
    | some m => m
  let extensions :=
    match value with
    | none => extensions.erase name
    | some value => extensions.insert name value
  ({ ec with Extensions := some extensions }, none)

/-- The loop of `AsV03` over `range m` with body `ret[k] = v`, visiting the
entries in the order given. -/
def rangeAssign {V : Type} (entries : List (Sigma fun _ : String => V)) (ret : GoMap V) :
    GoMap V :=
  entries.foldl (fun ret kv => ret.insert kv.1 kv.2) ret

/-- The method `EventContextV04.AsV03` (lines 111-133). -/
def EventContextV04.AsV03 (ec : EventContextV04) : EventContextV03 :=
  let ret : EventContextV03 :=
    { SpecVersion := CloudEventsVersionV02,
      ID := ec.ID,
      Time := ec.Time,
      Type_ := ec.Type_,
      SchemaURL := ec.DataSchema,
      DataContentType := ec.DataContentType,
      DataContentEncoding := ec.DataContentEncoding,
      Source := ec.Source,
      Subject := ec.Subject,
      Extensions := some ∅ }
  let ret :=
    match ec.Extensions with
    | some m => { ret with Extensions := some (rangeAssign m.entries ∅) }
    | none => ret
  if GoMap.len ret.Extensions = 0 then { ret with Extensions := none } else ret

/-- The method `EventContextV04.AsV04` (lines 136-139). -/
def EventContextV04.AsV04 (ec : EventContextV04) : EventContextV04 :=
  { ec with SpecVersion := CloudEventsVersionV04 }

/-- The method `EventContextV04.Clone` (lines 94-96). -/
def EventContextV04.Clone (ec : EventContextV04) : EventContextV04 :=
  ec.AsV04

/-- The method `EventContextV04.Validate` (lines 146-257). `errors` is the
slice the Go code appends to, one statement after the other. -/
def EventContextV04.Validate (caseTable : Char → Char) (ec : EventContextV04) :
    Option String :=
  let errors : List String := []
  let eventType := TrimSpace ec.Type_
  let errors :=
    if eventType = "" then errors ++ ["type: MUST be a non-empty string"] else errors
  let specVersion := TrimSpace ec.SpecVersion
  let errors :=
    if specVersion = "" then errors ++ ["specversion: MUST be a non-empty string"] else errors
  let source := TrimSpace ec.Source.String
  let errors :=
    if source = "" then errors ++ ["source: REQUIRED"] else errors
  let errors :=
    match ec.Subject with
    | some subject =>
      if TrimSpace subject = "" then
        errors ++ ["subject: if present, MUST be a non-empty string"]
      else errors
    | none => errors
  let id := TrimSpace ec.ID
  let errors :=
    if id = "" then errors ++ ["id: MUST be a non-empty string"] else errors
  let errors :=
    match ec.DataSchema with
    | some dataSchema =>
      if TrimSpace dataSchema.String = "" then
        errors ++ ["dataschema: if present, MUST adhere to the format specified in RFC 3986"]
      else errors
    | none => errors
  let errors :=
    match ec.DataContentType with
    | some dataContentType =>
      if TrimSpace dataContentType = "" then
        errors ++
          ["datacontenttype: if present, MUST adhere to the format specified in RFC 2046"]
      else errors
    | none => errors
  let errors :=
    match ec.DataContentEncoding with
    | some dataContentEncoding =>
      if ToLower caseTable (TrimSpace dataContentEncoding) ≠ Base64 then
        errors ++ ["datacontentencoding: if present, MUST adhere to RFC 2045 Section 6.1"]
      else errors
    | none => errors
  if errors.length > 0 then some (Errorf (Join errors "\n")) else none

/-! ## `pkg/binding/to_event.go` -/

namespace binding

/-- Modelled from the spec: the type `binding.Encoding` is declared outside
the files at hand; its values are the discriminants the spec lists
(structured, binary, event-in-memory, unknown). -/
inductive Encoding where
  | EncodingBinary
  | EncodingStructured
  | EncodingEvent
  | EncodingUnknown
  deriving DecidableEq, Repr

export Encoding (EncodingBinary EncodingStructured EncodingEvent EncodingUnknown)

/-- A `binding.Message` value by what `ToEvent` can observe of it: it is an
`EventMessage` (an event converted to a message), or a `MessageWrapper` whose
`GetWrappedMessage()` returns another message or nil, or neither. A wrapper
and a plain message carry the encoding their `Encoding()` method reports. -/
inductive Message (Event : Type) where
  | EventMessage (em : Event)
  | wrapper (encoding : Encoding) (wrapped : Message Event)
  | wrapperOfNil (encoding : Encoding)
  | plain (encoding : Encoding) (payload : Nat)
  deriving Repr

/-- The method `Message.Encoding()`. Modelled from the spec for the absent
`EventMessage` type: a pre-decoded event reports `event`. -/
def Message.Encoding {Event : Type} : Message Event → Encoding
  | .EventMessage _ => EncodingEvent
  | .wrapper encoding _ => encoding
  | .wrapperOfNil encoding => encoding
  | .plain encoding _ => encoding

/-- One factory of the `transformers` argument: its `EventTransformer()` is a
function mutating the event and returning an error, or nil. -/
structure TransformerFactory (Event : Type) where
  EventTransformer : Option (Event → Event × Option String)

/-- Modelled from the spec: `TransformerFactories.EventTransformer` is
declared outside the files at hand; the spec has the caller-supplied hooks
applied in declared order, each mutating the event. The chain stops at the
first hook that returns an error. -/
def TransformerFactories.EventTransformer {Event : Type} :
    List (TransformerFactory Event) → Event → Event × Option String
  | [], e => (e, none)
  | factory :: rest, e =>
    match factory.EventTransformer with
    | none => TransformerFactories.EventTransformer rest e
    | some f =>
      match f e with
      | (e, some err) => (e, some err)
      | (e, none) => TransformerFactories.EventTransformer rest e

/-- The error value `ErrCannotConvertToEvent`. -/
def ErrCannotConvertToEvent : String := "cannot convert message to event"

/-- What `ToEvent` takes from outside `to_event.go`: the event built by
`cloudevents.NewEvent()`, the zero value of `Encoding`, and
`RunDirectEncoding` driven with the `messageToEventBuilder` over an event
and given a list of transformer factories (it returns the event as the
builder left it, the encoding and the error). -/
structure Env (Event : Type) where
  NewEvent : Event
  zeroEncoding : Encoding
  RunDirectEncoding : Message Event → Event → List (TransformerFactory Event) →
    Event × Encoding × Option String

/-- The calls of interest that `ToEvent` makes, in order. -/
inductive Call where
  | GetWrappedMessage
  | RunDirectEncoding
  | EventTransformer
  deriving DecidableEq, Repr

/-- The three named results of `ToEvent`, with the calls it made. -/
structure ToEventResult (Event : Type) where
  e : Event
  encoding : Encoding
  err : Option String
  calls : List Call

/-- The `for m := message; m != nil;` loop of `ToEvent` (lines 27-41) from
message `m` on, `calls` being the calls made so far. -/
def ToEvent.loop {Event : Type} (env : Env Event)
    (transformers : List (TransformerFactory Event)) :
    Message Event → List Call → ToEventResult Event
  | .EventMessage em, calls =>
    let (e, err) := TransformerFactories.EventTransformer transformers em
    ⟨e, EncodingEvent, err, calls ++ [Call.EventTransformer]⟩
  | .wrapper _ wrapped, calls =>
    ToEvent.loop env transformers wrapped (calls ++ [Call.GetWrappedMessage])
  | .wrapperOfNil _, calls =>
    ⟨env.NewEvent, env.zeroEncoding, some ErrCannotConvertToEvent,
      calls ++ [Call.GetWrappedMessage]⟩
  | .plain _ _, calls =>
    ⟨env.NewEvent, env.zeroEncoding, some ErrCannotConvertToEvent, calls⟩

/-- The function `ToEvent(ctx, message, transformers...)`. -/
def ToEvent {Event : Type} (env : Env Event) (message : Message Event)
    (transformers : List (TransformerFactory Event)) : ToEventResult Event :=
  let e := env.NewEvent
  let messageEncoding := message.Encoding
  if messageEncoding = EncodingEvent then
    ToEvent.loop env transformers message []
  else
    match env.RunDirectEncoding message e [] with
    | (e, encoding, some err) => ⟨e, encoding, some err, [Call.RunDirectEncoding]⟩
    | (e, encoding, none) =>
      let (e, err) := TransformerFactories.EventTransformer transformers e
      ⟨e, encoding, err, [Call.RunDirectEncoding, Call.EventTransformer]⟩

namespace spec

/-- Modelled from the spec: the type `spec.Kind` is declared outside the
files at hand; a kind names an attribute, and `SetAttribute` tells the
spec-version attribute from every other. -/
inductive Kind where
  | SpecVersion
  | other (id : Nat)
  deriving DecidableEq, Repr

/-- The interface `spec.Attribute` as `SetAttribute` uses it: `Kind()`, and
`Set(context, value)`, which writes the value into the context and returns an
error or nil. -/
structure Attribute (C V : Type) where
  Kind : Kind
  Set : C → V → C × Option String

end spec

/-- The conversions of the interface `EventContext` that `SetAttribute`
calls, over the type `C` of all event contexts. -/
structure EventContextConverter (C : Type) where
  AsV01 : C → C
  AsV02 : C → C
  AsV03 : C → C
  AsV1 : C → C

/-- The struct `event.Event` by its field `Context` and the fields
`SetAttribute` leaves alone. -/
structure EventFields (C P : Type) where
  Context : C
  Data : P

/-- The struct `messageToEventBuilder` (lines 59-61); the pointed-to event is
kept by value and handed back by the methods that change it. -/
structure messageToEventBuilder (C P : Type) where
  event : EventFields C P

/-- The method `(b *messageToEventBuilder) SetAttribute(attribute, value)`
(lines 95-115): the builder afterwards and the returned error. `conv` holds
the conversions of the context, `ToString` is `types.ToString`, and the
parameter `attribute` is written `attr`. -/
def messageToEventBuilder.SetAttribute {C P V : Type} (conv : EventContextConverter C)
    (ToString : V → String × Option String) (b : messageToEventBuilder C P)
    (attr : spec.Attribute C V) (value : V) :
    messageToEventBuilder C P × Option String :=
  if attr.Kind = spec.Kind.SpecVersion then
    match ToString value with
    | (_, some err) => (b, some err)
    | (str, none) =>
      let b : messageToEventBuilder C P :=
        if str = CloudEventsVersionV01 then
          { b with event := { b.event with Context := conv.AsV01 b.event.Context } }
        else if str = CloudEventsVersionV02 then
          { b with event := { b.event with Context := conv.AsV02 b.event.Context } }
        else if str = CloudEventsVersionV03 then
          { b with event := { b.event with Context := conv.AsV03 b.event.Context } }
        else if str = CloudEventsVersionV1 then
          { b with event := { b.event with Context := conv.AsV1 b.event.Context } }
        else b
      (b, none)
  else
    match attr.Set b.event.Context value with
    | (context, err) => ({ b with event := { b.event with Context := context } }, err)

end binding

/-! ## `pkg/cloudevents/transport/http/encoding.go` -/

namespace http

/-- The type `Encoding int32`. -/
abbrev Encoding := Int

def Default : Encoding := 0
def BinaryV03 : Encoding := 1
def StructuredV03 : Encoding := 2
def BatchedV03 : Encoding := 3
def BinaryV1 : Encoding := 4
def StructuredV1 : Encoding := 5
def BatchedV1 : Encoding := 6
def Unknown : Encoding := 7

def Binary : String := "binary"
def Structured : String := "structured"
def Batched : String := "batched"

/-- Modelled from the spec: the constant `event.CloudEventsVersionV03` is
declared outside the files at hand; it names spec version 0.3. -/
def CloudEventsVersionV03 : String := "0.3"

/-- Modelled from the spec: the constant `event.CloudEventsVersionV1` is
declared outside the files at hand; it names spec version 1.0. -/
def CloudEventsVersionV1 : String := "1.0"

section Selection

variable {Context Event : Type}

/-- The function `DefaultBinaryEncodingSelectionStrategy`; `SpecVersion` is the
method `event.Event.SpecVersion()`. -/
def DefaultBinaryEncodingSelectionStrategy (SpecVersion : Event → String)
    (_ctx : Context) (e : Event) : Encoding :=
  if SpecVersion e = CloudEventsVersionV03 then BinaryV03
  else if SpecVersion e = CloudEventsVersionV1 then BinaryV1
  else Default

/-- The function `DefaultStructuredEncodingSelectionStrategy`. -/
def DefaultStructuredEncodingSelectionStrategy (SpecVersion : Event → String)
    (_ctx : Context) (e : Event) : Encoding :=
  if SpecVersion e = CloudEventsVersionV03 then StructuredV03
  else if SpecVersion e = CloudEventsVersionV1 then StructuredV1
  else Default

/-- The function `ContextBasedEncodingSelectionStrategy`; `EncodingFrom` is
`cecontext.EncodingFrom`, the encoding preference stored in the context. -/
def ContextBasedEncodingSelectionStrategy (EncodingFrom : Context → String)
    (SpecVersion : Event → String) (ctx : Context) (e : Event) : Encoding :=
  let encoding := EncodingFrom ctx
  if encoding = "" ∨ encoding = Binary then
    DefaultBinaryEncodingSelectionStrategy SpecVersion ctx e
  else if encoding = Structured then
    DefaultStructuredEncodingSelectionStrategy SpecVersion ctx e
  else Default

end Selection

/-- The method `Encoding.Version` (lines 107-124). -/
def Encoding.Version (e : Encoding) : String :=
  if e = Default then "Default"
  else if e = BinaryV03 ∨ e = StructuredV03 ∨ e = BatchedV03 then "v0.3"
  else if e = BinaryV1 ∨ e = StructuredV1 ∨ e = BatchedV1 then "v1.0"
  else "Unknown"

/-- The method `Encoding.Codec` (lines 127-152). -/
def Encoding.Codec (e : Encoding) : String :=
  if e = Default then "default"
  else if e = BinaryV03 then "binary/v0.3"
  else if e = StructuredV03 then "structured/v0.3"
  else if e = BatchedV03 then "batched/v0.3"
  else if e = BinaryV1 then "binary/v1.0"
  else if e = StructuredV1 then "structured/v1.0"
  else if e = BatchedV1 then "batched/v1.0"
  else "unknown"

/-- The method `Encoding.Name` (lines 155-169). -/
def Encoding.Name (e : Encoding) : String :=
  if e = Default then Binary
  else if e = BinaryV03 ∨ e = BinaryV1 then Binary
  else if e = StructuredV03 ∨ e = StructuredV1 then Structured
  else if e = BatchedV03 ∨ e = BatchedV1 then Batched
  else Binary

/-! ## `pkg/cloudevents/transport/http/context.go` -/

/-- The type `http.Header`, a map from header keys to their values. -/
abbrev Header := GoMap (List String)

/-- The fields of `http.Request` that `NewTransportContext` reads. -/
structure Request where
  RequestURI : String
  Host : String
  Method : String
  Header : Option Header

/-- The struct `TransportContext` (lines 11-19); a nil `Header` is `none`, a
nil slice the empty list. -/
structure TransportContext where
  URI : String
  Host : String
  Method : String
  Header : Option Header
  IgnoreHeaderPrefixes : List String

/-- The method `AddIgnoreHeaderPrefix` (lines 80-85). -/
def TransportContext.AddIgnoreHeaderPrefix (tx : TransportContext) (prefixes : List String) :
    TransportContext :=
  { tx with IgnoreHeaderPrefixes := tx.IgnoreHeaderPrefixes ++ prefixes }

/-- The function `NewTransportContext` (lines 21-35); a nil request is `none`. -/
def NewTransportContext (req : Option Request) : TransportContext :=
  let tx : TransportContext :=
    match req with
    | some req =>
      { URI := req.RequestURI, Host := req.Host, Method := req.Method, Header := req.Header,
        IgnoreHeaderPrefixes := [] }
    | none => { URI := "", Host := "", Method := "", Header := none, IgnoreHeaderPrefixes := [] }
  tx.AddIgnoreHeaderPrefix ["accept-encoding", "user-agent", "connection", "content-type"]

/-- The method `shouldIgnoreHeader` (lines 52-59). -/
def TransportContext.shouldIgnoreHeader (caseTable : Char → Char) (tx : TransportContext)
    (h : String) : Bool :=
  tx.IgnoreHeaderPrefixes.any
    (fun v => HasPrefix (ToLower caseTable h) (ToLower caseTable v))

/-- The method `AttendToHeaders` (lines 39-50). The keys of the map are
visited in the order of its entries. -/
def TransportContext.AttendToHeaders (caseTable : Char → Char) (tx : TransportContext) :
    List String :=
  let a : List String := []
  if tx.Header.isSome ∧ GoMap.len tx.Header > 0 then
    match tx.Header with
    | some header =>
      header.keys.foldl
        (fun a k => if tx.shouldIgnoreHeader caseTable k then a else a ++ [k]) a
    | none => a
  else a

/-- The keys of a context: the two private keys of this package, or the key
of another package. -/
inductive ContextKey where
  | transportContextKey
  | headerKey
  | other (id : Nat)
  deriving DecidableEq, Repr

/-- A value stored in a context: an `http.Header`, that is a reference to a
map, or a value of another type. Only `ContextWithHeader` stores under
`headerKey`, a key of a private type, and the map it stores is never nil. -/
inductive ContextValue where
  | header (ref : Nat)
  | other (typeName : String) (id : Nat)
  deriving DecidableEq, Repr

/-- A `context.Context` by the values it carries: an empty context, or
`context.WithValue(parent, key, val)`; a nil `val` is `none`. -/
inductive GoContext where
  | background
  | withValue (parent : GoContext) (key : ContextKey) (val : Option ContextValue)
  deriving DecidableEq, Repr

/-- The method `ctx.Value(key)`: the innermost value stored under `key`. -/
def GoContext.Value : GoContext → ContextKey → Option ContextValue
  | .background, _ => none
  | .withValue parent k val, key => if key = k then val else parent.Value key

/-- The header maps allocated so far: maps are reference values, so a map
stored in a context is shared with every context that stores it. -/
structure HeaderHeap where
  next : Nat
  maps : Nat → Header

/-- The function `HeaderFrom` (lines 124-132): the reference of the returned
map; `http.Header{}` allocates a new empty map. -/
def HeaderFrom (heap : HeaderHeap) (ctx : GoContext) : HeaderHeap × Nat :=
  match ctx.Value ContextKey.headerKey with
  | some (.header h) => (heap, h)
  | _ => ({ next := heap.next + 1, maps := Function.update heap.maps heap.next ∅ }, heap.next)

/-- The method `http.Header.Add`: the value is appended to the values of the
canonical form of the key (`canon` is `textproto.CanonicalMIMEHeaderKey`). -/
def Header.Add (canon : String → String) (h : Header) (key value : String) : Header :=
  h.insert (canon key) (((h.lookup (canon key)).getD []) ++ [value])

/-- The method `http.Header.Values`: the values of the canonical form of the key. -/
def Header.Values (canon : String → String) (h : Header) (key : String) : List String :=
  (h.lookup (canon key)).getD []

/-- The function `ContextWithHeader` (lines 117-121). `Add` changes the map
in place. -/
def ContextWithHeader (canon : String → String) (heap : HeaderHeap) (ctx : GoContext)
    (key value : String) : HeaderHeap × GoContext :=
  match HeaderFrom heap ctx with
  | (heap, header) =>
    let heap : HeaderHeap :=
      { heap with
        maps := Function.update heap.maps header (Header.Add canon (heap.maps header) key value) }
    (heap, GoContext.withValue ctx ContextKey.headerKey (some (ContextValue.header header)))

end http

/-! ## `pkg/cloudevents/transport/nats/transport.go` -/

namespace nats

/-- The struct `Message` of the NATS transport: the body of a message. -/
structure Message where
  Body : List UInt8
  deriving DecidableEq, Repr

/-- The field of `nats.Msg` that the receive callback reads. -/
structure Msg where
  Data : List UInt8
  deriving DecidableEq, Repr

/-- The fields of `Transport` that the receive callback reads. `Receiver` is
`t.Receiver.Receive(context.TODO(), event, nil)`, `Converter` is nil when
`none`, and `codec` is `t.codec.Decode`; a decoded event is a pointer, nil
when `none`. -/
structure Transport (Context Event : Type) where
  Receiver : Event → Option String
  Converter : Option (Context → Message → String → Option Event × Option String)
  codec : Context → Message → Option Event × Option String

/-- The calls the receive callback makes, in order. -/
inductive Step (Context Event : Type) where
  | Convert (ctx : Context) (msg : Message) (err : String)
  | Receive (e : Event)
  | Errorw (text : String) (err : String)
  | Warnw (text : String) (err : String)
  deriving DecidableEq, Repr

/-- The method `HasConverter` (lines 130-132). -/
def Transport.HasConverter {Context Event : Type} (t : Transport Context Event) : Bool :=
  t.Converter.isSome

/-- The callback given to `Subscribe` in `StartReceiver` (lines 155-174): the
calls made and how the callback ends. Dereferencing a nil event panics. -/
def Transport.StartReceiver.callback {Context Event : Type} (t : Transport Context Event)
    (ctx : Context) (m : Msg) : List (Step Context Event) × GoResult Unit :=
  let msg : Message := { Body := m.Data }
  let (e, err) := t.codec ctx msg
  let ((e, err), steps) : (Option Event × Option String) × List (Step Context Event) :=
    match err, t.Converter with
    | some decodeErr, some converter =>
      (converter ctx msg decodeErr, [Step.Convert ctx msg decodeErr])
    | _, _ => ((e, err), [])
  match err with
  | some err => (steps ++ [Step.Errorw "failed to decode message" err], .returned ())
  | none =>
    match e with
    | none => (steps, .panicked "runtime error: invalid memory address or nil pointer dereference")
    | some e =>
      match t.Receiver e with
      | some err =>
        (steps ++ [Step.Receive e, Step.Warnw "nats receiver return err" err], .returned ())
      | none => (steps ++ [Step.Receive e], .returned ())

/-- A `*nats.Subscription`, identified by a number. -/
structure Subscription where
  id : Nat
  deriving DecidableEq, Repr

/-- The codec `loadCodec` stores in `t.codec`. -/
inductive CodecKind where
  | Codec
  | CodecV03 (Encoding : Int)
  | CodecV1 (Encoding : Int)
  deriving DecidableEq, Repr

/-- The constants of the type `Encoding` of the NATS transport that
`loadCodec` names; they are declared outside the files at hand and taken as
given. -/
structure Encodings where
  Default : Int
  StructuredV03 : Int
  StructuredV1 : Int

/-- The fields of `Transport` that the body of `StartReceiver` reads and
writes outside the receive callback (lines 24-39): `Conn` is nil when `none`
(else the connection, identified by a number), and so are `sub` and `codec`. -/
structure TransportState where
  Encoding : Int
  Conn : Option Nat
  Subject : String
  sub : Option Subscription
  codec : Option CodecKind
  deriving DecidableEq, Repr

/-- What `StartReceiver` takes from the NATS client library: `Subscribe` on a
connection with a subject (the callback is the one of this file), and
`Unsubscribe` on a subscription. -/
structure ConnEnv where
  Subscribe : Nat → String → Option Subscription × Option String
  Unsubscribe : Subscription → Option String

/-- The method `loadCodec` (lines 79-93): the result and the transport
afterwards. -/
def TransportState.loadCodec (k : Encodings) (t : TransportState) : Bool × TransportState :=
  match t.codec with
  | none =>
    if t.Encoding = k.Default then (true, { t with codec := some CodecKind.Codec })
    else if t.Encoding = k.StructuredV03 then
      (true, { t with codec := some (CodecKind.CodecV03 t.Encoding) })
    else if t.Encoding = k.StructuredV1 then
      (true, { t with codec := some (CodecKind.CodecV1 t.Encoding) })
    else (false, t)
  | some _ => (true, t)

/-- The method `(t *Transport) StartReceiver(ctx)` (lines 136-186): the
returned error and the transport afterwards. `done` tells whether `ctx` is
ever done; when it is not, the receive on `ctx.Done()` waits for ever and the
call does not return (`none`). The deferred function runs after `return err`
and writes the named result `err`. -/
def TransportState.StartReceiver (k : Encodings) (env : ConnEnv) (t : TransportState)
    (done : Bool) : Option (Option String × TransportState) :=
  match t.Conn with
  | none => some (some "no active nats connection", t)
  | some conn =>
    if t.sub.isSome then some (some "already subscribed", t)
    else
      match t.loadCodec k with
      | (false, t) =>
        some (some ("unknown encoding set on transport: " ++ toString t.Encoding), t)
      | (true, t) =>
        if t.Subject = "" then some (some "subject required for nats listen", t)
        else
          match env.Subscribe conn t.Subject with
          | (sub, err) =>
            let t := { t with sub := sub }
            if done then
              match t.sub with
              | some sub =>
                let err2 := env.Unsubscribe sub
                let err := if err.isSome then err2 else err
                some (err, { t with sub := none })
              | none => some (err, t)
            else none

end nats

/-! ## `v2/client/client.go` -/

namespace v2

/-- The interface `protocol.Sender` over a transport with state `S`:
`Send(ctx, message)` returns a `protocol.Result` and leaves the transport in
a new state. -/
structure Sender (Context Event S : Type) where
  Send : S → Context → binding.Message Event → Option String × S

/-- An error a transport returns from `Receive` or `Respond`: the sentinel
`io.EOF`, which the poll loop recognises by identity, or any other error. -/
inductive PollError where
  | EOF
  | other (text : String)
  deriving DecidableEq, Repr

/-- The interface `protocol.Requester`: `Request(ctx, message)` returns the
response message (or nil) and a `protocol.Result`. -/
structure Requester (Context Event S : Type) where
  Request : S → Context → binding.Message Event →
    (Option (binding.Message Event) × Option String) × S

/-- The interface `protocol.Receiver`: `Receive(ctx)` returns a message (or
nil) and an error. -/
structure Receiver (Context Event S : Type) where
  Receive : S → Context → (Option (binding.Message Event) × Option PollError) × S

/-- The interface `protocol.Responder`: `Respond(ctx)` returns a message, a
`protocol.ResponseFn` (identified by a number, nil when `none`) and an error. -/
structure Responder (Context Event S : Type) where
  Respond : S → Context →
    (Option (binding.Message Event) × Option Nat × Option PollError) × S

/-- The interface `protocol.Opener`. -/
structure Opener (Context S : Type) where
  OpenInbound : S → Context → Option String × S

/-- The interface `Invoker` of the client package, as `StartReceiver` uses
it: `Invoke(ctx, message, responseFn)` and the two capability questions. -/
structure Invoker (Context Event S : Type) where
  Invoke : S → Context → Option (binding.Message Event) → Option Nat → Option String × S
  IsReceiver : Bool
  IsResponder : Bool

/-- The struct `ceClient` (lines 74-86). A capability field is nil when the
transport object does not implement the interface; `receiverMu` tells whether
the mutex is locked. -/
structure ceClient (Context Event S : Type) where
  sender : Option (Sender Context Event S)
  requester : Option (Requester Context Event S) := none
  receiver : Option (Receiver Context Event S) := none
  responder : Option (Responder Context Event S) := none
  opener : Option (Opener Context S) := none
  outboundContextDecorators : List (Context → Context)
  invoker : Option (Invoker Context Event S) := none
  receiverMu : Bool := false
  eventDefaulterFns : List (Context → Event → Event)

/-- What a call of `Send` leaves behind: the returned `protocol.Result`, the
transport state, and the invocations of `Sender.Send` with their arguments. -/
structure SendOutcome (Context Event S : Type) where
  result : Option String
  transport : S
  sent : List (Context × binding.Message Event)

/-- The method `(c *ceClient) Send(ctx, e)` (lines 97-117); `Validate` is the
method `event.Event.Validate()`, `s` the state of the transport. -/
def ceClient.Send {Context Event S : Type} (Validate : Event → Option String)
    (c : ceClient Context Event S) (s : S) (ctx : Context) (e : Event) :
    SendOutcome Context Event S :=
  match c.sender with
  | none => ⟨some "sender not set", s, []⟩
  | some sender =>
    let ctx := c.outboundContextDecorators.foldl (fun ctx f => f ctx) ctx
    let e :=
      if c.eventDefaulterFns.length > 0 then
        c.eventDefaulterFns.foldl (fun e fn => fn ctx e) e
      else e
    match Validate e with
    | some err => ⟨some err, s, []⟩
    | none =>
      let (result, s) := sender.Send s ctx (binding.Message.EventMessage e)
      ⟨result, s, [(ctx, binding.Message.EventMessage e)]⟩

/-- What `Request` and `StartReceiver` take from outside `client.go`:
`event.Event.Validate()`; `binding.ToEvent(ctx, msg)` of the v2 binding
package, returning an event and an error; the method `Finish(err)` of a
message; and `newReceiveInvoker(fn, defaulters...)`. -/
structure ClientEnv (Context Event S Fn : Type) where
  Validate : Event → Option String
  ToEvent : Context → Option (binding.Message Event) → Option Event × Option String
  Finish : S → binding.Message Event → Option String → Option String × S
  newReceiveInvoker : Fn → List (Context → Event → Event) →
    Except String (Invoker Context Event S)

/-- The calls `Request` and `StartReceiver` make, with their arguments and,
for the polling calls, their results. -/
inductive Step (Context Event : Type) where
  | Request (ctx : Context) (m : binding.Message Event)
  | Println (text : String)
  | ToEvent (m : Option (binding.Message Event))
  | Debugw (text : String) (err : String)
  | Finish (m : binding.Message Event) (err : Option String)
  | Warnw (text : String) (err : String)
  | goOpenInbound (ctx : Context)
  | Receive (ctx : Context) (msg : Option (binding.Message Event)) (err : Option PollError)
  | Respond (ctx : Context) (msg : Option (binding.Message Event)) (respFn : Option Nat)
      (err : Option PollError)
  | Invoke (ctx : Context) (msg : Option (binding.Message Event)) (respFn : Option Nat)
      (result : Option String)

/-- What a call of `Request` leaves behind: the two results, the transport
state and the calls made, in order. -/
structure RequestOutcome (Context Event S : Type) where
  resp : Option Event
  result : Option String
  transport : S
  steps : List (Step Context Event)

/-- The method `(c *ceClient) Request(ctx, e)` (lines 119-161). The deferred
function runs last, on the one path that registers it. -/
def ceClient.Request {Context Event S Fn : Type} (env : ClientEnv Context Event S Fn)
    (c : ceClient Context Event S) (s : S) (ctx : Context) (e : Event) :
    RequestOutcome Context Event S :=
  match c.requester with
  | none => ⟨none, some "requester not set", s, []⟩
  | some requester =>
    let ctx := c.outboundContextDecorators.foldl (fun ctx f => f ctx) ctx
    let e :=
      if c.eventDefaulterFns.length > 0 then
        c.eventDefaulterFns.foldl (fun e fn => fn ctx e) e
      else e
    match env.Validate e with
    | some err => ⟨none, some err, s, []⟩
    | none =>
      let ((msg, err), s) := requester.Request s ctx (binding.Message.EventMessage e)
      let steps := [Step.Request ctx (binding.Message.EventMessage e)]
      let steps := if msg.isSome then steps ++ [Step.Println "message was not nil"] else steps
      let (rs, toEventErr) := env.ToEvent ctx msg
      let steps := steps ++ [Step.ToEvent msg]
      let (resp, steps) :=
        match toEventErr with
        | some toEventErr => (none, steps ++ [Step.Debugw "failed calling ToEvent" toEventErr])
        | none => (rs, steps)
      match msg with
      | none => ⟨resp, err, s, steps⟩
      | some m =>
        let (finishErr, s) := env.Finish s m err
        let steps := steps ++ [Step.Finish m err]
        match finishErr with
        | some finishErr =>
          ⟨resp, err, s, steps ++ [Step.Warnw "failed calling message.Finish" finishErr]⟩
        | none => ⟨resp, err, s, steps⟩

/-- How a run of a blocking call ends in the model: it returns, it waits on
a locked mutex, or the fuel given to its loop runs out. -/
inductive Run (α : Type) where
  | returned (a : α)
  | blocked
  | outOfFuel

/-- One pass through the body of the poll loop (lines 203-219): the loop
returns `err`, or goes on. -/
inductive Pass (Context Event S : Type) where
  | stop (err : Option String) (s : S) (steps : List (Step Context Event))
  | next (s : S) (steps : List (Step Context Event))

/-- The part of the loop body after the message is received (lines 211-219). -/
def ceClient.StartReceiver.handle {Context Event S : Type}
    (invoker : Invoker Context Event S) (s : S) (ctx : Context)
    (msg : Option (binding.Message Event)) (respFn : Option Nat) (err : Option PollError)
    (steps : List (Step Context Event)) : Pass Context Event S :=
  if err = some PollError.EOF then Pass.stop none s steps
  else
    match invoker.Invoke s ctx msg respFn with
    | (some invokeErr, s) =>
      Pass.stop (some invokeErr) s (steps ++ [Step.Invoke ctx msg respFn (some invokeErr)])
    | (none, s) => Pass.next s (steps ++ [Step.Invoke ctx msg respFn none])

/-- The body of the poll loop (lines 203-219); `invoker` is `c.invoker`, set
in line 183, and `respFn` stays nil when the transport is polled through
`Receive`. -/
def ceClient.StartReceiver.pass {Context Event S : Type} (c : ceClient Context Event S)
    (invoker : Invoker Context Event S) (s : S) (ctx : Context) : Pass Context Event S :=
  match c.responder with
  | some responder =>
    match responder.Respond s ctx with
    | ((msg, respFn, err), s) =>
      ceClient.StartReceiver.handle invoker s ctx msg respFn err
        [Step.Respond ctx msg respFn err]
  | none =>
    match c.receiver with
    | some receiver =>
      match receiver.Receive s ctx with
      | ((msg, err), s) =>
        ceClient.StartReceiver.handle invoker s ctx msg none err [Step.Receive ctx msg err]
    | none => Pass.stop (some "responder nor receiver set") s []

/-- The poll loop `for` (lines 202-220), run for at most `fuel` passes: the
returned error, the transport state and the calls made. -/
def ceClient.StartReceiver.poll {Context Event S : Type} (c : ceClient Context Event S)
    (invoker : Invoker Context Event S) (ctx : Context) :
    Nat → S → Run (Option String × S × List (Step Context Event))
  | 0, _ => Run.outOfFuel
  | fuel + 1, s =>
    match ceClient.StartReceiver.pass c invoker s ctx with
    | Pass.stop err s steps => Run.returned (err, s, steps)
    | Pass.next s steps =>
      match ceClient.StartReceiver.poll c invoker ctx fuel s with
      | Run.returned (err, s, rest) => Run.returned (err, s, steps ++ rest)
      | Run.blocked => Run.blocked
      | Run.outOfFuel => Run.outOfFuel

/-- What a call of `StartReceiver` leaves behind: the returned error, the
client, the transport state and the calls made. -/
structure StartOutcome (Context Event S : Type) where
  err : Option String
  client : ceClient Context Event S
  world : S
  steps : List (Step Context Event)

/-- The method `(c *ceClient) StartReceiver(ctx, fn)` (lines 165-221).
`Lock` waits while the mutex is locked; the deferred `Unlock` and the
deferred clearing of `c.invoker` run when the call returns. The goroutine
running `OpenInbound` is recorded where it is started. -/
def ceClient.StartReceiver {Context Event S Fn : Type} (env : ClientEnv Context Event S Fn)
    (fuel : Nat) (c : ceClient Context Event S) (s : S) (ctx : Context) (fn : Fn) :
    Run (StartOutcome Context Event S) :=
  if c.receiverMu then Run.blocked
  else
    let c := { c with receiverMu := true }
    if c.invoker.isSome then
      Run.returned ⟨some "client already has a receiver", { c with receiverMu := false }, s, []⟩
    else
      match env.newReceiveInvoker fn c.eventDefaulterFns with
      | .error err => Run.returned ⟨some err, { c with receiverMu := false }, s, []⟩
      | .ok invoker =>
        if invoker.IsReceiver ∧ c.receiver.isNone then
          Run.returned
            ⟨some "mismatched receiver callback without protocol.Receiver supported by protocol",
              { c with receiverMu := false }, s, []⟩
        else if invoker.IsResponder ∧ c.responder.isNone then
          Run.returned
            ⟨some "mismatched receiver callback without protocol.Responder supported by protocol",
              { c with receiverMu := false }, s, []⟩
        else
          let c := { c with invoker := some invoker }
          let steps : List (Step Context Event) :=
            match c.opener with
            | some _ => [Step.goOpenInbound ctx]
            | none => []
          match ceClient.StartReceiver.poll c invoker ctx fuel s with
          | Run.returned (err, s, rest) =>
            Run.returned ⟨err, { c with invoker := none, receiverMu := false }, s, steps ++ rest⟩
          | Run.blocked => Run.blocked
          | Run.outOfFuel => Run.outOfFuel

end v2

/-! ## Specification-side vocabulary for the receiver claims -/

namespace client

/-- The four slots of the parameter alphabet, in their fixed order. -/
inductive Slot where
  | context
  | event
  | data
  | response
  deriving DecidableEq, Repr

/-- Position of a slot in the alphabet. -/
def Slot.rank : Slot → Nat
  | .context => 0
  | .event => 1
  | .data => 2
  | .response => 3

/-- A parameter type fills a slot: it converts to the slot's type; the data
slot `Any` takes every type that converts to none of `context.Context`,
`Event`, `*Event`, `EventResponse`, `*EventResponse`. -/
def Slot.admits : Slot → ReflectType → Bool
  | .context, t => t.ConvertibleTo contextType
  | .event, t => t.ConvertibleTo eventType
  | .data, t => !unconvertibleToAny t
  | .response, t => t.ConvertibleTo eventResponsePtrType

/-- The selections of slots with the order kept and no slot twice: the
sixteen sublists of the alphabet. -/
def selections : List (List Slot) :=
  [Slot.context, Slot.event, Slot.data, Slot.response].sublists

/-- The parameter list `ins` fills the slots of `sel`, position by position. -/
def fills : List Slot → List ReflectType → Bool
  | [], [] => true
  | s :: sel, t :: ins => s.admits t && fills sel ins
  | _, _ => false

/-- The parameter shapes the documentation of `receiver` lists: an
order-preserving, duplicate-free selection of the alphabet. -/
def documentedParams (ins : List ReflectType) : Bool :=
  selections.any (fun sel => fills sel ins)

/-- The result lists the documentation lists: nothing, or one value
convertible to `error`. -/
def documentedResults : List ReflectType → Bool
  | [] => true
  | [t] => t.ConvertibleTo errorType
  | _ => false

/-- The parameter list holding `context.Context`, `cloudevents.Event`, the
data type `D` and `*cloudevents.EventResponse` for the flags set, in order. -/
def paramsOf (c e d r : Bool) (D : ReflectType) : List ReflectType :=
  (if c then [contextType.rtype] else []) ++ (if e then [eventType.rtype] else []) ++
    (if d then [D] else []) ++ (if r then [eventResponsePtrType.rtype] else [])

/-- The result list: a single `error`, or nothing. -/
def resultsOf (withError : Bool) : List ReflectType :=
  if withError then [errorType.rtype] else []

/-- The three parameter kinds of the functions without a data parameter. -/
inductive ParamKind where
  | context
  | event
  | response
  deriving DecidableEq, Repr

/-- The Go type of a parameter kind. -/
def ParamKind.rtype : ParamKind → ReflectType
  | .context => contextType.rtype
  | .event => eventType.rtype
  | .response => eventResponsePtrType.rtype

/-- Position of a kind in the order context, event, response. -/
def ParamKind.rank : ParamKind → Nat
  | .context => 0
  | .event => 1
  | .response => 2

/-- The descriptor `receiver` starts from for a function value. -/
def initialReceiverFn (ins outs : List ReflectType) (addr : Nat) : receiverFn :=
  { numIn := ins.length, fnValue := some ⟨funcType ins outs, addr⟩,
    hasContextIn := false, hasEventIn := false, hasDataIn := false,
    hasEventResponseIn := false, dataType := none, hasErrorOut := false }

end client

/-! ## Specification-side vocabulary for the invocation claims -/

namespace client

/-- The slots a descriptor flags as present, in the order of the alphabet. -/
def slotsOf (r : receiverFn) : List Slot :=
  (if r.hasContextIn then [Slot.context] else []) ++
    (if r.hasEventIn then [Slot.event] else []) ++
    (if r.hasDataIn then [Slot.data] else []) ++
    (if r.hasEventResponseIn then [Slot.response] else [])

/-- An example: the parameter list of
`func(context.Context, cloudevents.Event, map[string]string, *cloudevents.EventResponse) error`. -/
def exampleIns : List ReflectType :=
  [contextType.rtype, eventType.rtype, mapStringStringType, eventResponsePtrType.rtype]

/-- An example: the descriptor `receiver` returns for a function with the
parameters `exampleIns` and the result `error`, stored at address 7. -/
def exampleReceiverFn : receiverFn :=
  { numIn := 4, fnValue := some ⟨funcType exampleIns [errorType.rtype], 7⟩,
    hasContextIn := true, hasEventIn := true, hasDataIn := true, hasEventResponseIn := true,
    dataType := some mapStringStringType, hasErrorOut := true }

/-- An example: the type of the context `context.Background()` returns. -/
def backgroundType : ReflectType :=
  ⟨"*context.emptyCtx", .Ptr, true, false, false, false, false, false⟩

/-- An example: the type `MyEvent` declared by `type MyEvent cloudevents.Event`,
which converts to `cloudevents.Event` and to which a `cloudevents.Event` is
not assignable. -/
def myEventType : ReflectType :=
  ⟨"main.MyEvent", .Struct, false, true, false, false, false, false⟩

/-- An example: the types of the argument values, the data being a
`map[string]string`. -/
def exampleTypeOf : Arg Nat Nat Nat Nat → Option ReflectType
  | .ctx _ => some backgroundType
  | .event _ => some eventType.rtype
  | .data _ => some mapStringStringType
  | .resp _ => some eventResponsePtrType.rtype

/-- An example of assignability: a type is assignable to itself, and a type
that implements `context.Context` to `context.Context`. -/
def exampleAssignableTo (x t : ReflectType) : Bool :=
  decide (x = t) || (decide (t = contextType.rtype) && x.toContext)

/-- An example: contexts, events, data and responses are numbers, decoding the
data of event `e` gives `e + 1`, every function is non-nil and returns the
error "UNIT TEST". -/
def exampleInvokeEnv : InvokeEnv Nat Nat Nat Nat :=
  { DataAs := fun e _ => .ok (e + 1), body := fun _ _ => .returned [some "UNIT TEST"],
    isNilFunc := fun _ => false, TypeOf := exampleTypeOf, AssignableTo := exampleAssignableTo }

/-- The arguments can be passed to the parameters: each is a non-zero value
whose type is assignable to the type of the parameter at its position. -/
def argsAssignable {Context Event Data Response : Type}
    (env : InvokeEnv Context Event Data Response) :
    List (Arg Context Event Data Response) → List ReflectType → Bool
  | x :: rest, targ :: targs =>
    (match env.TypeOf x with
      | some xt => env.AssignableTo xt targ
      | none => false) && argsAssignable env rest targs
  | [], [] => true
  | _, _ => false

/-- The parameter lists `receiver` supports: an order-preserving,
duplicate-free selection of `context.Context`, `cloudevents.Event` and
`*cloudevents.EventResponse`, or all four slots. -/
def supportedSelections : List (List Slot) :=
  [Slot.context, Slot.event, Slot.response].sublists ++
    [[Slot.context, Slot.event, Slot.data, Slot.response]]

/-- The parameter list `ins` fills one of the supported selections. -/
def supportedParams (ins : List ReflectType) : Bool :=
  supportedSelections.any (fun sel => fills sel ins)

/-- The slot an argument value belongs to. -/
def Arg.slot {Context Event Data Response : Type} :
    Arg Context Event Data Response → Slot
  | .ctx _ => Slot.context
  | .event _ => Slot.event
  | .data _ => Slot.data
  | .resp _ => Slot.response

end client

/-! ## Specification-side vocabulary for the v0.4 validation claims -/

/-- One rule of the v0.4 validation: the attribute it constrains, the
message reported for it, and whether a context violates it. -/
structure Rule where
  attributeName : String
  message : String
  violated : EventContextV04 → Bool

/-- The rules of the v0.4 validation in their fixed order: type, specversion,
source, subject, id, dataschema, datacontenttype, datacontentencoding. -/
def rulesV04 (caseTable : Char → Char) : List Rule :=
  [ ⟨"type", "type: MUST be a non-empty string",
      fun ec => decide (TrimSpace ec.Type_ = "")⟩,
    ⟨"specversion", "specversion: MUST be a non-empty string",
      fun ec => decide (TrimSpace ec.SpecVersion = "")⟩,
    ⟨"source", "source: REQUIRED",
      fun ec => decide (TrimSpace ec.Source.String = "")⟩,
    ⟨"subject", "subject: if present, MUST be a non-empty string",
      fun ec => match ec.Subject with
        | some subject => decide (TrimSpace subject = "")
        | none => false⟩,
    ⟨"id", "id: MUST be a non-empty string",
      fun ec => decide (TrimSpace ec.ID = "")⟩,
    ⟨"dataschema", "dataschema: if present, MUST adhere to the format specified in RFC 3986",
      fun ec => match ec.DataSchema with
        | some dataSchema => decide (TrimSpace dataSchema.String = "")
        | none => false⟩,
    ⟨"datacontenttype",
      "datacontenttype: if present, MUST adhere to the format specified in RFC 2046",
      fun ec => match ec.DataContentType with
        | some dataContentType => decide (TrimSpace dataContentType = "")
        | none => false⟩,
    ⟨"datacontentencoding",
      "datacontentencoding: if present, MUST adhere to RFC 2045 Section 6.1",
      fun ec => match ec.DataContentEncoding with
        | some dataContentEncoding =>
          decide (ToLower caseTable (TrimSpace dataContentEncoding) ≠ Base64)
        | none => false⟩ ]

/-- The rules a context violates, in rule order. -/
def violatedRules (caseTable : Char → Char) (ec : EventContextV04) : List Rule :=
  (rulesV04 caseTable).filter (fun rule => rule.violated ec)

/-- The error reporting a list of messages: nil for none, else the messages
joined by newlines. -/
def reportOf : List String → Option String
  | [] => none
  | messages => some (Join messages "\n")

/-- A context is valid: the required attributes are non-empty after trimming,
the optional ones absent or non-empty after trimming, and the content
encoding absent or `Base64` after trimming and lower-casing. -/
def validV04 (caseTable : Char → Char) (ec : EventContextV04) : Prop :=
  TrimSpace ec.Type_ ≠ "" ∧ TrimSpace ec.SpecVersion ≠ "" ∧
  TrimSpace ec.Source.String ≠ "" ∧ TrimSpace ec.ID ≠ "" ∧
  (∀ subject, ec.Subject = some subject → TrimSpace subject ≠ "") ∧
  (∀ dataSchema, ec.DataSchema = some dataSchema → TrimSpace dataSchema.String ≠ "") ∧
  (∀ dataContentType, ec.DataContentType = some dataContentType →
    TrimSpace dataContentType ≠ "") ∧
  (∀ dataContentEncoding, ec.DataContentEncoding = some dataContentEncoding →
    ToLower caseTable (TrimSpace dataContentEncoding) = Base64)

/-! ## Specification-side vocabulary for the extension claims -/

/-- The clause of the extension claim for a `*string` target: when `name` is
present, `ExtensionAs` stores the value and succeeds if the stored value is a
string, and otherwise fails with the type-mismatch error. -/
def stringTargetClause (codec : Codec) (ec : EventContextV04) (name cur : String) : Prop :=
  ∀ value, GoMap.index ec.Extensions name = some value →
    (∀ s, value = ExtensionValue.string s →
      ec.ExtensionAs codec name (Target.stringPtr cur) = (none, Target.stringPtr s)) ∧
    ((∀ s, value ≠ ExtensionValue.string s) →
      (ec.ExtensionAs codec name (Target.stringPtr cur)).1 =
        some ("invalid type for extension " ++ codec.Quote name))

/-- An example codec: `%q` puts a plain name between double quotes, and
`json.Unmarshal` decodes the five bytes of the JSON text `"abc"` into a
`*string` as the string `abc` and rejects everything else. -/
def exampleCodec : Codec where
  Quote := fun name => "\"" ++ name ++ "\""
  UnmarshalString := fun raw cur =>
    if raw = [34, 97, 98, 99, 34] then ("abc", none)
    else (cur, some "invalid character")
  UnmarshalOther := fun typeName _ cur =>
    (cur, some ("json: cannot unmarshal into Go value of type " ++ typeName))

/-- An example context whose extension `k` holds the raw JSON text `"abc"`. -/
def exampleRawContext : EventContextV04 :=
  { SpecVersion := "0.4", Type_ := "com.example.created", Source := ⟨"/producer"⟩,
    Subject := none, ID := "A234", Time := none, DataSchema := none,
    DataContentType := none, DataContentEncoding := none,
    Extensions := some (AList.singleton "k" (ExtensionValue.rawMessage [34, 97, 98, 99, 34])) }

/-! ## Specification-side vocabulary for the conversion and client claims -/

namespace binding

/-- The wrapper chain of a message: the message, the message it wraps, and
so on, up to the first message that wraps nothing. -/
def wrapperChain {Event : Type} : Message Event → List (Message Event)
  | .wrapper encoding wrapped => .wrapper encoding wrapped :: wrapperChain wrapped
  | m => [m]

/-- The event a message embeds when it is an `EventMessage`. -/
def Message.embeddedEvent {Event : Type} : Message Event → Option Event
  | .EventMessage em => some em
  | _ => none

/-- The event embedded in the first `EventMessage` of the wrapper chain. -/
def firstEventMessage {Event : Type} (m : Message Event) : Option Event :=
  (wrapperChain m).findSome? Message.embeddedEvent

end binding

namespace v2

/-- The context `Send` works with: the outbound context decorators applied
in their declared order. -/
def decoratedContext {Context Event S : Type} (c : ceClient Context Event S)
    (ctx : Context) : Context :=
  c.outboundContextDecorators.foldl (fun ctx f => f ctx) ctx

/-- The event obtained after applying the event-defaulting hooks in their
declared order, each called with the decorated context. -/
def defaultedEvent {Context Event S : Type} (c : ceClient Context Event S)
    (ctx : Context) (e : Event) : Event :=
  c.eventDefaulterFns.foldl (fun e fn => fn (decoratedContext c ctx) e) e

end v2

/-! ## Specification-side vocabulary for the client request and receive claims -/

namespace v2

/-- A step is a call of `Finish`. -/
def Step.isFinish {Context Event : Type} : Step Context Event → Bool
  | .Finish _ _ => true
  | _ => false

/-- A step is a call of the transport, of the invoker or of the opener. -/
def Step.isTransportCall {Context Event : Type} : Step Context Event → Bool
  | .Receive _ _ _ => true
  | .Respond _ _ _ _ => true
  | .Invoke _ _ _ _ => true
  | .goOpenInbound _ => true
  | _ => false

/-- The runs of a poll loop the claim describes, as the calls made and the
error returned: the loop ends without invoking at a result whose error is
`io.EOF`, returning nil; every other result is handed to the invoker once,
and the loop ends with the error of the first invocation that fails. -/
inductive PollRun {Context Event : Type} : List (Step Context Event) → Option String → Prop where
  | receiveEOF (ctx : Context) (msg : Option (binding.Message Event)) :
      PollRun [Step.Receive ctx msg (some PollError.EOF)] none
  | respondEOF (ctx : Context) (msg : Option (binding.Message Event)) (respFn : Option Nat) :
      PollRun [Step.Respond ctx msg respFn (some PollError.EOF)] none
  | receiveFailed (ctx : Context) (msg : Option (binding.Message Event))
      (err : Option PollError) (invokeErr : String) (hne : err ≠ some PollError.EOF) :
      PollRun [Step.Receive ctx msg err, Step.Invoke ctx msg none (some invokeErr)]
        (some invokeErr)
  | respondFailed (ctx : Context) (msg : Option (binding.Message Event)) (respFn : Option Nat)
      (err : Option PollError) (invokeErr : String) (hne : err ≠ some PollError.EOF) :
      PollRun [Step.Respond ctx msg respFn err, Step.Invoke ctx msg respFn (some invokeErr)]
        (some invokeErr)
  | receiveNext (ctx : Context) (msg : Option (binding.Message Event))
      (err : Option PollError) (rest : List (Step Context Event)) (result : Option String)
      (hne : err ≠ some PollError.EOF) (hrest : PollRun rest result) :
      PollRun (Step.Receive ctx msg err :: Step.Invoke ctx msg none none :: rest) result
  | respondNext (ctx : Context) (msg : Option (binding.Message Event)) (respFn : Option Nat)
      (err : Option PollError) (rest : List (Step Context Event)) (result : Option String)
      (hne : err ≠ some PollError.EOF) (hrest : PollRun rest result) :
      PollRun (Step.Respond ctx msg respFn err :: Step.Invoke ctx msg respFn none :: rest)
        result

/-- The poll loop entered in transport state `s` leaves in its pass number
`n` (counted from 0): the passes before it go on, and that pass stops. -/
def stopsAt {Context Event S : Type} (c : ceClient Context Event S)
    (invoker : Invoker Context Event S) (ctx : Context) : Nat → S → Prop
  | 0, s => ∃ err s2 steps, ceClient.StartReceiver.pass c invoker s ctx = Pass.stop err s2 steps
  | n + 1, s =>
    ∃ s2 steps, ceClient.StartReceiver.pass c invoker s ctx = Pass.next s2 steps ∧
      stopsAt c invoker ctx n s2

/-- The client while `StartReceiver` runs its poll loop: the mutex is locked
and the invoker slot holds the invoker built from the callback. -/
def registeredClient {Context Event S : Type} (c : ceClient Context Event S)
    (invoker : Invoker Context Event S) : ceClient Context Event S :=
  { c with receiverMu := true, invoker := some invoker }

/-- The client after `StartReceiver` has returned from its poll loop: the
deferred functions have cleared the invoker slot and unlocked the mutex. -/
def releasedClient {Context Event S : Type} (c : ceClient Context Event S) :
    ceClient Context Event S :=
  { c with receiverMu := false, invoker := none }

/-- The goroutine `StartReceiver` starts before polling when the transport
has an opener. -/
def openerSteps {Context Event S : Type} (c : ceClient Context Event S) (ctx : Context) :
    List (Step Context Event) :=
  match c.opener with
  | some _ => [Step.goOpenInbound ctx]
  | none => []

/-- An example invoker for the callback `fn`: it is receiver-shaped and
fails with "UNIT TEST" on every message when `fn` is not 0. -/
def exampleInvoker (fn : Nat) : Invoker Unit Nat Nat :=
  { Invoke := fun s _ _ _ => (if fn = 0 then none else some "UNIT TEST", s),
    IsReceiver := true, IsResponder := false }

/-- An example environment over numbers: every event other than 0 is valid,
a message converts to the event 1, `Finish` counts in the transport state,
and a callback `fn` gives an invoker that fails with "UNIT TEST" when `fn` is
not 0. -/
def exampleClientEnv : ClientEnv Unit Nat Nat Nat where
  Validate := fun e => if e = 0 then some "type: MUST be a non-empty string" else none
  ToEvent := fun _ m => match m with
    | some _ => (some 1, none)
    | none => (none, some "nil message")
  Finish := fun s _ _ => (none, s + 100)
  newReceiveInvoker := fun fn _ => .ok (exampleInvoker fn)

/-- An example client whose transport can request and receive: a request is
answered with a plain message and the result "ack", and `Receive` gives a
message, with `io.EOF` once the transport state has reached 3. -/
def exampleClient : ceClient Unit Nat Nat :=
  { sender := some ⟨fun s _ _ => (none, s + 1)⟩,
    requester := some ⟨fun s _ _ =>
      ((some (binding.Message.plain binding.Encoding.EncodingBinary 9), some "ack"), s + 1)⟩,
    receiver := some ⟨fun s _ =>
      ((some (binding.Message.plain binding.Encoding.EncodingBinary s),
        if s < 3 then none else some PollError.EOF), s + 1)⟩,
    outboundContextDecorators := [], eventDefaulterFns := [] }

end v2

/-! ## Specification-side vocabulary for the transport claims -/

namespace http

/-- The map that `HeaderFrom(ctx)` returns, read in the heap the call leaves. -/
def headerOf (heap : HeaderHeap) (ctx : GoContext) : Header :=
  (HeaderFrom heap ctx).1.maps (HeaderFrom heap ctx).2

end http

namespace nats

/-- Whether a call is a call of `Receiver.Receive`. -/
def Step.isReceive {Context Event : Type} : Step Context Event → Bool
  | .Receive _ => true
  | _ => false

/-- Whether a call is a call of `Converter.Convert`. -/
def Step.isConvert {Context Event : Type} : Step Context Event → Bool
  | .Convert _ _ _ => true
  | _ => false

/-- The event a delivery hands to the receiver, in the words of the
specification: the event the codec decoded, or, when the codec failed and a
converter is set, the event the converter returned without error. -/
def deliveredEvent {Context Event : Type} (t : Transport Context Event) (ctx : Context)
    (m : Msg) : Option Event :=
  match t.codec ctx { Body := m.Data } with
  | (e, none) => e
  | (_, some decodeErr) =>
    match t.Converter with
    | none => none
    | some converter =>
      match converter ctx { Body := m.Data } decodeErr with
      | (e, none) => e
      | (_, some _) => none

end nats

/-! ## Specification-side vocabulary for the version and shutdown claims -/

namespace binding

/-- Modelled from the spec: the event context is a variant over the spec
versions 0.1, 0.2, 0.3, 0.4 and 1.0; the variants other than v0.4 are declared
outside the files at hand, and here only the tag of the variant is kept. -/
inductive SpecVariant where
  | V01
  | V02
  | V03
  | V04
  | V1
  deriving DecidableEq, Repr

/-- The spec version a variant reports. -/
def SpecVariant.GetSpecVersion : SpecVariant → String
  | .V01 => CloudEventsVersionV01
  | .V02 => CloudEventsVersionV02
  | .V03 => CloudEventsVersionV03
  | .V04 => CloudEventsVersionV04
  | .V1 => CloudEventsVersionV1

/-- Modelled from the spec: each conversion yields the variant of its version. -/
def exampleConverter : EventContextConverter SpecVariant :=
  { AsV01 := fun _ => SpecVariant.V01, AsV02 := fun _ => SpecVariant.V02,
    AsV03 := fun _ => SpecVariant.V03, AsV1 := fun _ => SpecVariant.V1 }

/-- An example of `types.ToString` on values that are a string already or a
number: a string converts to itself, a number does not convert. -/
def exampleToString : String ⊕ Nat → String × Option String
  | .inl str => (str, none)
  | .inr _ => ("", some "cannot convert to string")

/-- An example builder whose event has a v0.3 context. -/
def exampleBuilder : messageToEventBuilder SpecVariant Nat :=
  { event := { Context := SpecVariant.V03, Data := 0 } }

/-- An example spec-version attribute; `Set` is not reached for it. -/
def exampleSpecVersionAttribute : spec.Attribute SpecVariant (String ⊕ Nat) :=
  { Kind := spec.Kind.SpecVersion, Set := fun c _ => (c, none) }

end binding

namespace nats

/-- An example numbering of the encodings. -/
def exampleEncodings : Encodings :=
  { Default := 0, StructuredV03 := 2, StructuredV1 := 3 }

/-- An example connection: `Subscribe` succeeds with subscription 1, and
`Unsubscribe` fails. -/
def exampleConnEnv : ConnEnv :=
  { Subscribe := fun _ _ => (some ⟨1⟩, none),
    Unsubscribe := fun _ => some "nats: connection closed" }

/-- An example connection whose `Subscribe` returns a subscription together
with an error, and whose `Unsubscribe` succeeds. -/
def exampleFailingSubscribeEnv : ConnEnv :=
  { Subscribe := fun _ _ => (some ⟨1⟩, some "nats: slow consumer"),
    Unsubscribe := fun _ => none }

/-- An example transport: connected, not subscribed, with a subject. -/
def exampleTransportState : TransportState :=
  { Encoding := 0, Conn := some 7, Subject := "events", sub := none, codec := none }

end nats

namespace v2

/-- An example client whose `Receive` first fails with an error that is not
`io.EOF`, without a message, and then reports `io.EOF`. -/
def exampleFailingReceiveClient : ceClient Unit Nat Nat :=
  { sender := none,
    receiver := some ⟨fun s _ =>
      ((none, if s = 0 then some (PollError.other "connection reset") else some PollError.EOF),
        s + 1)⟩,
    outboundContextDecorators := [], eventDefaulterFns := [] }

end v2

/-! ## Theorems: receiver -/

namespace client

theorem receiver_goFunc (ins outs : List ReflectType) (addr : Nat) :
    receiver (goFunc ins outs addr) =
      match validate (initialReceiverFn ins outs addr) (funcType ins outs) with
      | (_, some err) => .returned (none, some err)
      | (r, none) => .returned (some r, none) := by
  simp [receiver, goFunc, TypeOf, ValueOf, funcType, initialReceiverFn, FnType.NumIn]

theorem validate_of_in_err (r : receiverFn) (ft : FnType) (err : String)
    (h : (validateInParamSignature r ft).2 = some err) :
    validate r ft = ((validateInParamSignature r ft).1, some err) := by
  unfold validate
  rcases hv : validateInParamSignature r ft with ⟨r1, e1⟩
  rw [hv] at h
  simp only at h
  subst h
  rfl

theorem receiver_of_in_err (ins outs : List ReflectType) (addr : Nat) (err : String)
    (h : (validateInParamSignature (initialReceiverFn ins outs addr)
      (funcType ins outs)).2 = some err) :
    receiver (goFunc ins outs addr) = .returned (none, some err) := by
  rw [receiver_goFunc, validate_of_in_err _ _ _ h]

theorem case1_mismatch (r : receiverFn) (t : ReflectType)
    (hc : unconvertibleToContextType t = true) (he : unconvertibleToEventType t = true)
    (hr : unconvertibleToEventResponseType t = true) :
    ∃ err, (validateInParamSignature.case1 r t).2 = some err := by
  simp [validateInParamSignature.case1, hc, he, hr]

theorem case2_mismatch (r : receiverFn) (t0 t1 : ReflectType)
    (h : (unconvertibleToContextType t0 = true ∧ unconvertibleToEventType t0 = true ∧
          unconvertibleToEventResponseType t0 = true) ∨
         (unconvertibleToEventType t1 = true ∧ unconvertibleToEventResponseType t1 = true)) :
    ∃ err, (validateInParamSignature.case2 r t0 t1).2 = some err := by
  unfold validateInParamSignature.case2
  rcases h with ⟨hc, he, hr⟩ | ⟨he, hr⟩
  · split_ifs
    · exact ⟨_, rfl⟩
    · exact case1_mismatch _ _ hc he hr
    · exact ⟨_, rfl⟩
    · exact case1_mismatch _ _ hc he hr
  · simp [he, hr]

theorem case3_mismatch (r : receiverFn) (t0 t1 t2 : ReflectType)
    (h : (unconvertibleToContextType t0 = true ∧ unconvertibleToEventType t0 = true ∧
          unconvertibleToEventResponseType t0 = true) ∨
         (unconvertibleToEventType t1 = true ∧ unconvertibleToEventResponseType t1 = true) ∨
         unconvertibleToEventResponseType t2 = true) :
    ∃ err, (validateInParamSignature.case3 r t0 t1 t2).2 = some err := by
  unfold validateInParamSignature.case3
  rcases h with h | h | h
  · split_ifs
    · exact ⟨_, rfl⟩
    · exact case2_mismatch _ _ _ (Or.inl h)
  · split_ifs
    · exact ⟨_, rfl⟩
    · exact case2_mismatch _ _ _ (Or.inr h)
  · simp [h]

theorem case4_mismatch (r : receiverFn) (t0 t1 t2 t3 : ReflectType)
    (h : unconvertibleToContextType t0 = true ∨ unconvertibleToEventType t1 = true ∨
         unconvertibleToAny t2 = true ∨ unconvertibleToEventResponseType t3 = true) :
    ∃ err, (validateInParamSignature.case4 r t0 t1 t2 t3).2 = some err := by
  unfold validateInParamSignature.case4
  rcases h with h | h | h | h <;> simp only [h] <;> split_ifs <;> exact ⟨_, rfl⟩

/-- A type that converts to none of `context.Context`, `cloudevents.Event` and
`*cloudevents.EventResponse` but is refused as `Any` makes every parameter
list that holds it invalid. -/
theorem validateIn_err_of_mem (r : receiverFn) (ins outs : List ReflectType)
    (t : ReflectType) (ht : t ∈ ins)
    (hc : unconvertibleToContextType t = true) (he : unconvertibleToEventType t = true)
    (hr : unconvertibleToEventResponseType t = true) (ha : unconvertibleToAny t = true) :
    ∃ err, (validateInParamSignature r (funcType ins outs)).2 = some err := by
  unfold validateInParamSignature
  match ins, ht with
  | [], ht => simp at ht
  | [a], ht =>
    simp only [List.mem_singleton] at ht
    subst ht
    exact case1_mismatch _ _ hc he hr
  | [a, b], ht =>
    simp only [List.mem_cons, List.mem_singleton, List.not_mem_nil, or_false] at ht
    rcases ht with rfl | rfl
    · exact case2_mismatch _ _ _ (Or.inl ⟨hc, he, hr⟩)
    · exact case2_mismatch _ _ _ (Or.inr ⟨he, hr⟩)
  | [a, b, c], ht =>
    simp only [List.mem_cons, List.mem_singleton, List.not_mem_nil, or_false] at ht
    rcases ht with rfl | rfl | rfl
    · exact case3_mismatch _ _ _ _ (Or.inl ⟨hc, he, hr⟩)
    · exact case3_mismatch _ _ _ _ (Or.inr (Or.inl ⟨he, hr⟩))
    · exact case3_mismatch _ _ _ _ (Or.inr (Or.inr hr))
  | [a, b, c, d], ht =>
    simp only [List.mem_cons, List.mem_singleton, List.not_mem_nil, or_false] at ht
    rcases ht with rfl | rfl | rfl | rfl
    · exact case4_mismatch _ _ _ _ _ (Or.inl hc)
    · exact case4_mismatch _ _ _ _ _ (Or.inr (Or.inl he))
    · exact case4_mismatch _ _ _ _ _ (Or.inr (Or.inr (Or.inl ha)))
    · exact case4_mismatch _ _ _ _ _ (Or.inr (Or.inr (Or.inr hr)))
  | _ :: _ :: _ :: _ :: _ :: _, _ => exact ⟨_, rfl⟩

/-- The documentation of `receiver` lists every order-preserving,
duplicate-free selection of (context, event, Any, response) as a valid
parameter list, with no result or one convertible to `error`. At `func(string)`,
`func(context.Context, cloudevents.Event, map[string]string)` and
`func(cloudevents.Event, map[string]string, *cloudevents.EventResponse)` the
signature is one of the documented shapes and `receiver` returns an error. -/
theorem receiver_rejects_documented_data_shapes :
    (documentedParams [stringType] = true ∧ documentedResults [] = true ∧
      receiver (goFunc [stringType] [] 0) =
        .returned (none, some (inParamUsage ++
          "; cannot convert parameter 0 from string to context.Context, cloudevents.Event or *cloudevents.EventResponse"))) ∧
    (documentedParams [contextType.rtype, eventType.rtype, mapStringStringType] = true ∧
      receiver (goFunc [contextType.rtype, eventType.rtype, mapStringStringType] [] 0) =
        .returned (none, some (inParamUsage ++
          "; cannot convert parameter 2 from map[string]string to *cloudevents.EventResponse"))) ∧
    (documentedParams
        [eventType.rtype, mapStringStringType, eventResponsePtrType.rtype] = true ∧
      receiver (goFunc
          [eventType.rtype, mapStringStringType, eventResponsePtrType.rtype] [] 0) =
        .returned (none, some (inParamUsage ++
          "; cannot convert parameter 1 from map[string]string to cloudevents.Event or *cloudevents.EventResponse"))) := by
  refine ⟨⟨by decide, by decide, rfl⟩, ⟨by decide, rfl⟩, ⟨by decide, rfl⟩⟩

/-- C7: for each of the nine tested parameter shapes (any selection of
context, event, response in order, or all four slots with a data type `D`
that is acceptable as `Any`) and a result list that is empty or a single
`error`, `receiver` returns a nil error and a descriptor whose flags are set
exactly for the kinds present, whose `dataType` is `D` when a data parameter
is present, and whose `hasErrorOut` tells whether an error is returned. -/
theorem receiver_accepts_tested_shapes (c e d r withError : Bool) (D : ReflectType)
    (addr : Nat) (hshape : d = true → c = true ∧ e = true ∧ r = true)
    (hD : d = true → unconvertibleToAny D = false) :
    receiver (goFunc (paramsOf c e d r D) (resultsOf withError) addr) =
      .returned (some
        { numIn := (paramsOf c e d r D).length,
          fnValue := some ⟨funcType (paramsOf c e d r D) (resultsOf withError), addr⟩,
          hasContextIn := c, hasEventIn := e, hasDataIn := d, hasEventResponseIn := r,
          dataType := if d then some D else none,
          hasErrorOut := withError }, none) := by
  rw [receiver_goFunc]
  cases d
  · cases c <;> cases e <;> cases r <;> cases withError <;> rfl
  · obtain ⟨rfl, rfl, rfl⟩ := hshape rfl
    have hD := hD rfl
    cases withError <;>
      simp [validate, validateInParamSignature, validateInParamSignature.case4,
        validateOutParamSignature, paramsOf, resultsOf, funcType, initialReceiverFn, hD,
        unconvertibleToEventResponseType, unconvertibleToEventType,
        unconvertibleToContextType, ReflectType.ConvertibleTo, PkgType.rtype]

theorem receiver_accepts_tested_shapes_witness :
    receiver (goFunc
        [contextType.rtype, eventType.rtype, mapStringStringType, eventResponsePtrType.rtype]
        [errorType.rtype] 7) =
      .returned (some
        { numIn := 4,
          fnValue := some ⟨funcType
            [contextType.rtype, eventType.rtype, mapStringStringType,
              eventResponsePtrType.rtype] [errorType.rtype], 7⟩,
          hasContextIn := true, hasEventIn := true, hasDataIn := true,
          hasEventResponseIn := true, dataType := some mapStringStringType,
          hasErrorOut := true }, none) :=
  receiver_accepts_tested_shapes true true true true true mapStringStringType 7
    (fun _ => ⟨rfl, rfl, rfl⟩) (fun _ => rfl)

/-- C8: a function of one to three parameters, each `context.Context`,
`cloudevents.Event` or `*cloudevents.EventResponse`, is rejected by `receiver`
whenever a kind occurs twice or the kinds are not in the order context,
event, response. -/
theorem receiver_rejects_duplicate_or_unordered (ks : List ParamKind)
    (outs : List ReflectType) (addr : Nat)
    (hlen : 1 ≤ ks.length ∧ ks.length ≤ 3)
    (hbad : ¬ ks.Nodup ∨ ¬ ks.Pairwise (fun a b => a.rank ≤ b.rank)) :
    ∃ err, receiver (goFunc (ks.map ParamKind.rtype) outs addr) =
      .returned (none, some err) := by
  match ks, hlen, hbad with
  | [], hlen, _ => simp at hlen
  | [a], _, hbad => simp at hbad
  | [a, b], _, hbad =>
    cases a <;> cases b <;>
      first
        | exact ⟨_, rfl⟩
        | (exfalso; revert hbad; decide)
  | [a, b, c], _, hbad =>
    cases a <;> cases b <;> cases c <;>
      first
        | exact ⟨_, rfl⟩
        | (exfalso; revert hbad; decide)
  | _ :: _ :: _ :: _ :: _, hlen, _ => simp at hlen

theorem receiver_rejects_duplicate_or_unordered_witness :
    ∃ err, receiver (goFunc
        [eventResponsePtrType.rtype, eventType.rtype] [] 0) = .returned (none, some err) :=
  receiver_rejects_duplicate_or_unordered [ParamKind.response, ParamKind.event] [] 0
    (by decide) (Or.inr (by decide))

/-- C9: a function with a parameter of type `*cloudevents.Event` or
`cloudevents.EventResponse`, at any position and for any arity, is rejected
by `receiver`; and `unconvertibleToEventType(*Event)`,
`unconvertibleToEventResponseType(EventResponse)` and `unconvertibleToAny` of
both types are true. -/
theorem receiver_rejects_pointer_value_mismatch :
    (∀ (ins outs : List ReflectType) (addr : Nat),
      (eventPtrType.rtype ∈ ins ∨ eventResponseType.rtype ∈ ins) →
      ∃ err, receiver (goFunc ins outs addr) = .returned (none, some err)) ∧
    unconvertibleToEventType eventPtrType.rtype = true ∧
    unconvertibleToEventResponseType eventResponseType.rtype = true ∧
    unconvertibleToAny eventPtrType.rtype = true ∧
    unconvertibleToAny eventResponseType.rtype = true := by
  refine ⟨?_, rfl, rfl, rfl, rfl⟩
  intro ins outs addr h
  rcases h with h | h
  · obtain ⟨err, herr⟩ := validateIn_err_of_mem (initialReceiverFn ins outs addr) ins outs
      _ h rfl rfl rfl rfl
    exact ⟨err, receiver_of_in_err ins outs addr err herr⟩
  · obtain ⟨err, herr⟩ := validateIn_err_of_mem (initialReceiverFn ins outs addr) ins outs
      _ h rfl rfl rfl rfl
    exact ⟨err, receiver_of_in_err ins outs addr err herr⟩

theorem receiver_rejects_pointer_value_mismatch_witness :
    ∃ err, receiver (goFunc
        [contextType.rtype, eventPtrType.rtype, eventResponsePtrType.rtype]
        [errorType.rtype] 0) = .returned (none, some err) :=
  receiver_rejects_pointer_value_mismatch.1 _ _ _ (Or.inl (by decide))

theorem validateIn_flags_irrelevant (r : receiverFn) (ins outs outs2 : List ReflectType) :
    (validateInParamSignature r (funcType ins outs)).2 =
      (validateInParamSignature r (funcType ins outs2)).2 := by
  simp [validateInParamSignature, funcType, FnType.NumIn]

theorem validateIn_error_ignores_descriptor (r1 r2 : receiverFn)
    (ins outs : List ReflectType) :
    (validateInParamSignature r1 (funcType ins outs)).2 =
      (validateInParamSignature r2 (funcType ins outs)).2 := by
  unfold validateInParamSignature
  match ins with
  | [] => rfl
  | [a] =>
    simp only [funcType, validateInParamSignature.case1]
    split_ifs <;> rfl
  | [a, b] =>
    simp only [funcType, validateInParamSignature.case2, validateInParamSignature.case1]
    split_ifs <;> rfl
  | [a, b, c] =>
    simp only [funcType, validateInParamSignature.case3, validateInParamSignature.case2,
      validateInParamSignature.case1]
    split_ifs <;> rfl
  | [a, b, c, d] =>
    simp only [funcType, validateInParamSignature.case4]
    split_ifs <;> rfl
  | _ :: _ :: _ :: _ :: _ :: _ => rfl

theorem validateOut_err (r : receiverFn) (ins outs : List ReflectType)
    (h : 1 < outs.length ∨ ∃ t, outs = [t] ∧ t.ConvertibleTo errorType = false) :
    ∃ err, (validateOutParamSignature r (funcType ins outs)).2 = some err := by
  unfold validateOutParamSignature
  match outs, h with
  | [], h => simp at h
  | [t], h =>
    rcases h with h | ⟨t2, ht, hconv⟩
    · simp at h
    · simp only [List.cons.injEq, and_true] at ht
      subst ht
      simp [funcType, hconv]
  | _ :: _ :: _, _ => exact ⟨_, rfl⟩

theorem validateOut_ok (r : receiverFn) (ins outs : List ReflectType)
    (h : outs = [] ∨ ∃ t, outs = [t] ∧ t.ConvertibleTo errorType = true) :
    (validateOutParamSignature r (funcType ins outs)).2 = none := by
  unfold validateOutParamSignature
  rcases h with rfl | ⟨t, rfl, hconv⟩
  · rfl
  · simp [funcType, hconv]

theorem receiver_err_iff (ins outs : List ReflectType) (addr : Nat) (err : String) :
    receiver (goFunc ins outs addr) = .returned (none, some err) ↔
      (validateInParamSignature (initialReceiverFn ins outs addr) (funcType ins outs)).2 =
          some err ∨
        ((validateInParamSignature (initialReceiverFn ins outs addr) (funcType ins outs)).2 =
            none ∧
          (validateOutParamSignature
            (validateInParamSignature (initialReceiverFn ins outs addr) (funcType ins outs)).1
            (funcType ins outs)).2 = some err) := by
  rw [receiver_goFunc]
  unfold validate
  rcases hin : validateInParamSignature (initialReceiverFn ins outs addr) (funcType ins outs)
    with ⟨r1, e1⟩
  cases e1 with
  | some e => simp
  | none =>
    rcases hout : validateOutParamSignature r1 (funcType ins outs) with ⟨r2, e2⟩
    cases e2 <;> simp [hout]

/-- C10: `receiver` returns an error for every function with more than four
parameters, or with more than one result, or with exactly one result that is
not convertible to `error`, whatever the other types are; and when the result
list is empty or one value convertible to `error`, `validateOutParamSignature`
reports no error and `receiver` fails exactly as it does for the same
parameters with no result. -/
theorem receiver_arity_and_result_rejection (ins outs : List ReflectType) (addr : Nat) :
    ((4 < ins.length ∨ 1 < outs.length ∨
        ∃ t, outs = [t] ∧ t.ConvertibleTo errorType = false) →
      ∃ err, receiver (goFunc ins outs addr) = .returned (none, some err)) ∧
    ((outs = [] ∨ ∃ t, outs = [t] ∧ t.ConvertibleTo errorType = true) →
      (∀ r, (validateOutParamSignature r (funcType ins outs)).2 = none) ∧
      ∀ err, receiver (goFunc ins outs addr) = .returned (none, some err) ↔
        receiver (goFunc ins [] addr) = .returned (none, some err)) := by
  constructor
  · intro h
    rcases case_in : (validateInParamSignature (initialReceiverFn ins outs addr)
      (funcType ins outs)).2 with _ | e
    · rcases h with h | h
      · exfalso
        revert case_in
        unfold validateInParamSignature
        match ins, h with
        | [], h => simp at h
        | [_], h => simp at h
        | [_, _], h => simp at h
        | [_, _, _], h => simp at h
        | [_, _, _, _], h => simp at h
        | _ :: _ :: _ :: _ :: _ :: _, _ => simp [funcType]
      · obtain ⟨err, herr⟩ := validateOut_err
          (validateInParamSignature (initialReceiverFn ins outs addr) (funcType ins outs)).1
          ins outs h
        exact ⟨err, (receiver_err_iff ins outs addr err).2 (Or.inr ⟨case_in, herr⟩)⟩
    · exact ⟨e, (receiver_err_iff ins outs addr e).2 (Or.inl case_in)⟩
  · intro h
    refine ⟨fun r => validateOut_ok r ins outs h, fun err => ?_⟩
    rw [receiver_err_iff, receiver_err_iff]
    rw [validateOut_ok _ ins outs h, validateOut_ok _ ins [] (Or.inl rfl)]
    rw [validateIn_error_ignores_descriptor (initialReceiverFn ins outs addr)
        (initialReceiverFn ins [] addr) ins outs,
      validateIn_flags_irrelevant (initialReceiverFn ins [] addr) ins outs []]

theorem receiver_arity_and_result_rejection_witness :
    (∃ err, receiver (goFunc [contextType.rtype, eventResponsePtrType.rtype]
        [errorType.rtype, intType] 0) = .returned (none, some err)) ∧
    (∀ err, receiver (goFunc [stringType] [errorType.rtype] 0) = .returned (none, some err) ↔
        receiver (goFunc [stringType] [] 0) = .returned (none, some err)) :=
  ⟨(receiver_arity_and_result_rejection _ _ 0).1 (Or.inr (Or.inl (by decide))),
   ((receiver_arity_and_result_rejection _ _ 0).2 (Or.inr ⟨errorType.rtype, rfl, rfl⟩)).2⟩

end client

/-! ## Theorems: descriptors and invocation -/

namespace client

theorem validateIn_accepted (r0 r1 : receiverFn) (ins outs : List ReflectType)
    (h : validateInParamSignature r0 (funcType ins outs) = (r1, none)) :
    r1.numIn = r0.numIn ∧ r1.fnValue = r0.fnValue ∧ r1.hasErrorOut = r0.hasErrorOut ∧
    (slotsOf r1).length = ins.length ∧ fills (slotsOf r1) ins = true ∧
    (r1.hasDataIn = true → r1.dataType = ins[2]?) := by
  unfold validateInParamSignature at h
  simp only [funcType] at h
  match ins, h with
  | [], h =>
    simp only [Prod.mk.injEq, and_true] at h
    subst h
    simp [slotsOf, fills]
  | [a], h =>
    simp only [validateInParamSignature.case1, unconvertibleToContextType,
      unconvertibleToEventType, unconvertibleToEventResponseType] at h
    split_ifs at h <;> simp only [Prod.mk.injEq, and_true, reduceCtorEq, and_false] at h <;>
      (subst h; simp_all [slotsOf, fills, Slot.admits])
  | [a, b], h =>
    simp only [validateInParamSignature.case2, validateInParamSignature.case1,
      unconvertibleToContextType, unconvertibleToEventType,
      unconvertibleToEventResponseType] at h
    split_ifs at h <;> simp only [Prod.mk.injEq, and_true, reduceCtorEq, and_false] at h <;>
      (subst h; simp_all [slotsOf, fills, Slot.admits])
  | [a, b, c], h =>
    simp only [validateInParamSignature.case3, validateInParamSignature.case2,
      validateInParamSignature.case1, unconvertibleToContextType, unconvertibleToEventType,
      unconvertibleToEventResponseType] at h
    split_ifs at h <;> simp only [Prod.mk.injEq, and_true, reduceCtorEq, and_false] at h
    subst h
    simp_all [slotsOf, fills, Slot.admits]
  | [a, b, c, d], h =>
    simp only [validateInParamSignature.case4, unconvertibleToContextType,
      unconvertibleToEventType, unconvertibleToEventResponseType] at h
    split_ifs at h <;> simp only [Prod.mk.injEq, and_true, reduceCtorEq, and_false] at h
    subst h
    simp_all [slotsOf, fills, Slot.admits]
  | _ :: _ :: _ :: _ :: _ :: _, h => simp at h

theorem validateOut_accepted (r1 r2 : receiverFn) (ins outs : List ReflectType)
    (h : validateOutParamSignature r1 (funcType ins outs) = (r2, none)) :
    r2 = { r1 with hasErrorOut := decide (outs.length = 1) } ∧ outs.length ≤ 1 := by
  rcases outs with _ | ⟨t, _ | ⟨t2, rest⟩⟩
  · simp only [validateOutParamSignature, funcType, Prod.mk.injEq, and_true] at h
    subst h
    simp
  · simp only [validateOutParamSignature, funcType] at h
    split_ifs at h
    · simp at h
    · simp only [Prod.mk.injEq, and_true] at h
      subst h
      simp
  · simp [validateOutParamSignature, funcType] at h

/-- What `receiver` guarantees of a descriptor it returns. -/
theorem receiver_accepted (ins outs : List ReflectType) (addr : Nat) (r : receiverFn)
    (h : receiver (goFunc ins outs addr) = .returned (some r, none)) :
    r.numIn = ins.length ∧ r.fnValue = some ⟨funcType ins outs, addr⟩ ∧
    (slotsOf r).length = ins.length ∧ fills (slotsOf r) ins = true ∧
    (r.hasDataIn = true → r.dataType = ins[2]?) ∧
    r.hasErrorOut = decide (outs.length = 1) ∧ outs.length ≤ 1 := by
  rw [receiver_goFunc] at h
  unfold validate at h
  rcases hin : validateInParamSignature (initialReceiverFn ins outs addr) (funcType ins outs)
    with ⟨r1, e1⟩
  rw [hin] at h
  cases e1 with
  | some e => simp at h
  | none =>
    rcases hout : validateOutParamSignature r1 (funcType ins outs) with ⟨r2, e2⟩
    simp only [hout] at h
    cases e2 with
    | some e => simp at h
    | none =>
      simp only [GoResult.returned.injEq, Prod.mk.injEq, Option.some.injEq, and_true] at h
      subst h
      obtain ⟨h1, h2, _, h4, h5, h6⟩ := validateIn_accepted _ _ _ _ hin
      obtain ⟨h7, h8⟩ := validateOut_accepted _ _ _ _ hout
      subst h7
      exact ⟨h1, h2, h4, h5, h6, rfl, h8⟩

/-- C11: `receiver` does not return for the untyped nil interface value:
`reflect.TypeOf(nil)` is nil and `Kind()` on it panics. For every other
input it returns normally, with a descriptor and a nil error or with a nil
descriptor and an error, and every non-nil value that is not a function
yields the error "must pass a function to handle events". -/
theorem receiver_panics_on_untyped_nil :
    receiver none =
      .panicked "runtime error: invalid memory address or nil pointer dereference" ∧
    (∀ v : Value,
      ((∃ r, receiver (some v) = .returned (some r, none)) ∨
        (∃ err, receiver (some v) = .returned (none, some err))) ∧
      (v.typ.kind ≠ Kind.Func →
        receiver (some v) = .returned (none, some "must pass a function to handle events"))) := by
  refine ⟨rfl, fun v => ⟨?_, ?_⟩⟩
  · unfold receiver
    simp only [TypeOf, Option.map_some']
    split_ifs
    · exact Or.inr ⟨_, rfl⟩
    · rcases hv : validate _ v.typ with ⟨r, e⟩
      cases e with
      | none => exact Or.inl ⟨r, by simp [hv]⟩
      | some err => exact Or.inr ⟨err, by simp [hv]⟩
  · intro hk
    simp [receiver, TypeOf, hk]

section InvokeTheorems

variable {Context Event Data Response : Type}

theorem invoke_of_args_error (env : InvokeEnv Context Event Data Response) (r : receiverFn)
    (ctx : Context) (event : Event) (resp : Response) (err : String)
    (hargs : receiverFn.invoke.args env r ctx event resp = .error err) :
    r.invoke env ctx event resp = ⟨[], .returned (some err)⟩ := by
  unfold receiverFn.invoke
  rw [hargs]

theorem argsAssignable_passes (env : InvokeEnv Context Event Data Response)
    (args : List (Arg Context Event Data Response)) (ins : List ReflectType)
    (h : argsAssignable env args ins = true) :
    args.any (fun x => (env.TypeOf x).isNone) = false ∧ Call.mismatch env args ins = none := by
  induction args generalizing ins with
  | nil => cases ins <;> simp [Call.mismatch]
  | cons x rest ih =>
    cases ins with
    | nil => simp [argsAssignable] at h
    | cons targ targs =>
      simp only [argsAssignable, Bool.and_eq_true] at h
      obtain ⟨hx, hrest⟩ := h
      obtain ⟨h1, h2⟩ := ih targs hrest
      cases hxt : env.TypeOf x with
      | none => simp [hxt] at hx
      | some xt =>
        simp only [hxt] at hx
        simp only [List.any_cons, hxt, Option.isNone_some, h1, Bool.or_self, Call.mismatch, hx,
          if_true, h2, and_self]

theorem argsAssignable_fails (env : InvokeEnv Context Event Data Response)
    (args : List (Arg Context Event Data Response)) (ins : List ReflectType)
    (hlen : args.length = ins.length) (h : argsAssignable env args ins = false)
    (hzero : args.any (fun x => (env.TypeOf x).isNone) = false) :
    ∃ xt targ, Call.mismatch env args ins = some (xt, targ) := by
  induction args generalizing ins with
  | nil =>
    cases ins with
    | nil => simp [argsAssignable] at h
    | cons targ targs => simp at hlen
  | cons x rest ih =>
    cases ins with
    | nil => simp at hlen
    | cons targ targs =>
      simp only [List.length_cons, add_left_inj] at hlen
      simp only [List.any_cons, Bool.or_eq_false_iff] at hzero
      obtain ⟨hx, hrest⟩ := hzero
      cases hxt : env.TypeOf x with
      | none => simp [hxt] at hx
      | some xt =>
        simp only [argsAssignable, hxt] at h
        cases hassign : env.AssignableTo xt targ with
        | false => exact ⟨xt, targ, by simp [Call.mismatch, hxt, hassign]⟩
        | true =>
          rw [hassign, Bool.true_and] at h
          obtain ⟨xt2, targ2, h2⟩ := ih targs hlen h hrest
          exact ⟨xt2, targ2, by simp [Call.mismatch, hxt, hassign, h2]⟩

theorem Call_of_func (env : InvokeEnv Context Event Data Response)
    (ins outs : List ReflectType) (addr : Nat)
    (args : List (Arg Context Event Data Response)) (hlen : args.length = ins.length)
    (hnil : env.isNilFunc ⟨funcType ins outs, addr⟩ = false)
    (hassign : argsAssignable env args ins = true) :
    Call env (some ⟨funcType ins outs, addr⟩) args =
      ([args], env.body ⟨funcType ins outs, addr⟩ args) := by
  obtain ⟨h1, h2⟩ := argsAssignable_passes env args ins hassign
  have hnil2 : env.isNilFunc ⟨⟨Kind.Func, ins, outs⟩, addr⟩ = false := hnil
  simp only [Call, funcType, FnType.NumIn, hlen, ne_eq, not_true_eq_false, if_false, hnil2,
    Bool.false_eq_true, lt_self_iff_false, gt_iff_lt, h1, h2]

theorem Call_of_unassignable (env : InvokeEnv Context Event Data Response)
    (ins outs : List ReflectType) (addr : Nat)
    (args : List (Arg Context Event Data Response)) (hlen : args.length = ins.length)
    (hassign : argsAssignable env args ins = false) :
    ∃ msg, Call env (some ⟨funcType ins outs, addr⟩) args = ([], .panicked msg) := by
  simp only [Call, funcType, FnType.NumIn, hlen, ne_eq, not_true_eq_false, if_false,
    lt_self_iff_false, gt_iff_lt]
  cases hnil : env.isNilFunc ⟨⟨Kind.Func, ins, outs⟩, addr⟩ with
  | true => exact ⟨"reflect.Value.Call: call of nil function", by simp⟩
  | false =>
    cases hzero : args.any (fun x => (env.TypeOf x).isNone) with
    | true => exact ⟨"reflect: Call using zero Value argument", by simp⟩
    | false =>
      obtain ⟨xt, targ, hm⟩ := argsAssignable_fails env args ins hlen hassign hzero
      exact ⟨"reflect: Call using " ++ xt.name ++ " as type " ++ targ.name, by simp [hm]⟩

theorem Call_of_nil_func (env : InvokeEnv Context Event Data Response)
    (ins outs : List ReflectType) (addr : Nat)
    (args : List (Arg Context Event Data Response))
    (hnil : env.isNilFunc ⟨funcType ins outs, addr⟩ = true) :
    Call env (some ⟨funcType ins outs, addr⟩) args =
      ([], .panicked "reflect.Value.Call: call of nil function") := by
  have hnil2 : env.isNilFunc ⟨⟨Kind.Func, ins, outs⟩, addr⟩ = true := hnil
  simp [Call, funcType, hnil2]

theorem Call_cases (env : InvokeEnv Context Event Data Response) (fnValue : Option Value)
    (args : List (Arg Context Event Data Response)) :
    (∃ msg, Call env fnValue args = ([], .panicked msg)) ∨
      ∃ v, fnValue = some v ∧ Call env fnValue args = ([args], env.body v args) := by
  unfold Call
  cases fnValue with
  | none => exact Or.inl ⟨_, rfl⟩
  | some v =>
    simp only
    split_ifs
    · exact Or.inl ⟨_, rfl⟩
    · exact Or.inl ⟨_, rfl⟩
    · exact Or.inl ⟨_, rfl⟩
    · exact Or.inl ⟨_, rfl⟩
    · exact Or.inl ⟨_, rfl⟩
    · cases hm : Call.mismatch env args v.typ.ins with
      | none => exact Or.inr ⟨v, rfl, rfl⟩
      | some m => exact Or.inl ⟨_, rfl⟩

theorem invoke_of_Call_panic (env : InvokeEnv Context Event Data Response) (r : receiverFn)
    (ctx : Context) (event : Event) (resp : Response)
    (args : List (Arg Context Event Data Response)) (msg : String)
    (hargs : receiverFn.invoke.args env r ctx event resp = .ok args)
    (hcall : Call env r.fnValue args = ([], .panicked msg)) :
    r.invoke env ctx event resp = ⟨[], .panicked msg⟩ := by
  unfold receiverFn.invoke
  rw [hargs]
  simp only [hcall]

theorem invoke_of_args_ok (env : InvokeEnv Context Event Data Response) (r : receiverFn)
    (ctx : Context) (event : Event) (resp : Response) (v : Value)
    (args : List (Arg Context Event Data Response))
    (hargs : receiverFn.invoke.args env r ctx event resp = .ok args)
    (hcall : Call env r.fnValue args = ([args], env.body v args)) :
    (r.invoke env ctx event resp).calls = [args] ∧
    (∀ ret, env.body v args = .returned ret →
      (r.invoke env ctx event resp).result =
        .returned (if r.hasErrorOut = true ∧ ret.length ≥ 1 then (ret.head?).join else none)) := by
  unfold receiverFn.invoke
  rw [hargs]
  simp only [hcall]
  cases hb : env.body v args with
  | panicked msg => simp
  | returned ret =>
    dsimp only
    refine ⟨?_, ?_⟩
    · split_ifs
      · rcases ret with _ | ⟨_ | e, rest⟩ <;> rfl
      · rfl
    · intro v2 hv2
      cases hv2
      split_ifs with hc
      · rcases ret with _ | ⟨_ | e, rest⟩ <;> rfl
      · rfl

/-- The argument list `invoke` builds for a descriptor returned by `receiver`. -/
theorem invoke_args_accepted (env : InvokeEnv Context Event Data Response)
    (ins outs : List ReflectType) (addr : Nat) (r : receiverFn)
    (ctx : Context) (event : Event) (resp : Response)
    (h : receiver (goFunc ins outs addr) = .returned (some r, none)) :
    (∀ cause, r.hasDataIn = true → env.DataAs event r.dataType = .error cause →
      receiverFn.invoke.args env r ctx event resp =
        .error ("failed to get dataAs: " ++ cause)) ∧
    ((r.hasDataIn = true → ∃ d, env.DataAs event r.dataType = .ok d) →
      ∃ args, receiverFn.invoke.args env r ctx event resp = .ok args ∧
        args.length = ins.length ∧ args.map Arg.slot = slotsOf r ∧
        (∀ a ∈ args, a = Arg.ctx ctx ∨ a = Arg.event event ∨ a = Arg.resp resp ∨
          ∃ d, env.DataAs event r.dataType = .ok d ∧ a = Arg.data d)) := by
  obtain ⟨h1, _, h3, _, _, _, _⟩ := receiver_accepted ins outs addr r h
  obtain ⟨numIn, fnValue, c, e, d, rr, dt, eo⟩ := r
  simp only at h1
  subst h1
  constructor
  · intro cause hd hcause
    simp only at hd hcause
    subst hd
    have hpos : ins.length > 0 := by
      rw [← h3]
      cases c <;> cases e <;> cases rr <;> simp [slotsOf]
    simp [receiverFn.invoke.args, hpos, hcause]
  · intro hco
    cases d
    · cases c <;> cases e <;> cases rr <;>
        simp [slotsOf] at h3 <;>
        simp [receiverFn.invoke.args, ← h3, slotsOf, Arg.slot]
    · obtain ⟨dv, hdv⟩ := hco rfl
      simp only at hdv
      cases c <;> cases e <;> cases rr <;>
        simp [slotsOf] at h3 <;>
        simp [receiverFn.invoke.args, ← h3, slotsOf, Arg.slot, hdv]

theorem DataAs_ok_of_args_ok (env : InvokeEnv Context Event Data Response)
    (ins outs : List ReflectType) (addr : Nat) (r : receiverFn)
    (ctx : Context) (event : Event) (resp : Response)
    (args : List (Arg Context Event Data Response))
    (h : receiver (goFunc ins outs addr) = .returned (some r, none))
    (hargs : receiverFn.invoke.args env r ctx event resp = .ok args) :
    r.hasDataIn = true → ∃ d, env.DataAs event r.dataType = .ok d := by
  intro hd
  cases hda : env.DataAs event r.dataType with
  | ok d => exact ⟨d, rfl⟩
  | error cause =>
    have := (invoke_args_accepted env ins outs addr r ctx event resp h).1 cause hd hda
    rw [this] at hargs
    cases hargs

/-- Not every accepted function is called: take a function whose parameter
type converts to `cloudevents.Event` without `cloudevents.Event` being
assignable to it.
`receiver` accepts `func(MyEvent)` with `type MyEvent cloudevents.Event`, data
coercion is not needed, and `invoke` panics in `reflect.Value.Call` without
calling the function. -/
theorem invoke_panics_on_convertible_parameter :
    receiver (goFunc [myEventType] [] 7) =
      .returned (some
        { numIn := 1, fnValue := some ⟨funcType [myEventType] [], 7⟩,
          hasContextIn := false, hasEventIn := true, hasDataIn := false,
          hasEventResponseIn := false, dataType := none, hasErrorOut := false }, none) ∧
    (receiverFn.invoke exampleInvokeEnv
      { numIn := 1, fnValue := some ⟨funcType [myEventType] [], 7⟩,
        hasContextIn := false, hasEventIn := true, hasDataIn := false,
        hasEventResponseIn := false, dataType := none, hasErrorOut := false } 10 20 30).calls =
      [] ∧
    (receiverFn.invoke exampleInvokeEnv
      { numIn := 1, fnValue := some ⟨funcType [myEventType] [], 7⟩,
        hasContextIn := false, hasEventIn := true, hasDataIn := false,
        hasEventResponseIn := false, dataType := none, hasErrorOut := false } 10 20 30).result =
      .panicked "reflect: Call using cloudevents.Event as type main.MyEvent" := by
  exact ⟨rfl, rfl, rfl⟩

/-- C12 (amended): for a descriptor `r` returned by `receiver(fn)` and a call
of `invoke` in which data coercion succeeds, the argument list built has length
`numIn`, the number of parameters of `fn`; it fills the parameters of `fn`
position by position, in the order context, event, data, response with no
slot twice; each argument is the `ctx`, the `event` or the `resp` given to
`invoke`, or the value decoded from the event into the declared data type,
which is the type of the third parameter. When `fn` is not nil and every
argument is a non-zero value of a type assignable to its parameter, `fn` is
called exactly once, with this list; when `fn` is nil or an argument cannot
be passed, `reflect.Value.Call` panics and `fn` is not called. -/
theorem invoke_calls_fn_once_with_declared_args
    (env : InvokeEnv Context Event Data Response)
    (ins outs : List ReflectType) (addr : Nat) (r : receiverFn)
    (ctx : Context) (event : Event) (resp : Response)
    (h : receiver (goFunc ins outs addr) = .returned (some r, none))
    (hcoerce : r.hasDataIn = true → ∃ d, env.DataAs event r.dataType = .ok d) :
    ∃ args, receiverFn.invoke.args env r ctx event resp = .ok args ∧
      args.length = r.numIn ∧ r.numIn = ins.length ∧
      fills (args.map Arg.slot) ins = true ∧
      (args.map Arg.slot).Pairwise (fun a b => a.rank < b.rank) ∧
      (∀ a ∈ args, a = Arg.ctx ctx ∨ a = Arg.event event ∨ a = Arg.resp resp ∨
        ∃ d, env.DataAs event r.dataType = .ok d ∧ a = Arg.data d) ∧
      (r.hasDataIn = true → r.dataType = ins[2]?) ∧
      (env.isNilFunc ⟨funcType ins outs, addr⟩ = false → argsAssignable env args ins = true →
        (r.invoke env ctx event resp).calls = [args]) ∧
      (env.isNilFunc ⟨funcType ins outs, addr⟩ = true ∨ argsAssignable env args ins = false →
        (r.invoke env ctx event resp).calls = [] ∧
        ∃ msg, (r.invoke env ctx event resp).result = .panicked msg) := by
  obtain ⟨h1, h2, _, h4, h5, _, _⟩ := receiver_accepted ins outs addr r h
  obtain ⟨args, hargs, hlen, hslots, hvals⟩ :=
    (invoke_args_accepted env ins outs addr r ctx event resp h).2 hcoerce
  refine ⟨args, hargs, by rw [hlen, h1], h1, by rw [hslots]; exact h4, ?_, hvals, h5,
    fun hnil hassign => ?_, fun hbad => ?_⟩
  · rw [hslots]
    obtain ⟨numIn, fnValue, c, e, d, rr, dt, eo⟩ := r
    cases c <;> cases e <;> cases d <;> cases rr <;> simp [slotsOf, Slot.rank]
  · have hcall := Call_of_func env ins outs addr args hlen hnil hassign
    rw [← h2] at hcall
    exact (invoke_of_args_ok env r ctx event resp _ args hargs hcall).1
  · have hpanic : ∃ msg, Call env r.fnValue args = ([], .panicked msg) := by
      rw [h2]
      rcases hbad with hnil | hassign
      · exact ⟨_, Call_of_nil_func env ins outs addr args hnil⟩
      · exact Call_of_unassignable env ins outs addr args hlen hassign
    obtain ⟨msg, hcall⟩ := hpanic
    rw [invoke_of_Call_panic env r ctx event resp args msg hargs hcall]
    exact ⟨rfl, msg, rfl⟩

theorem invoke_calls_fn_once_with_declared_args_witness :
    (exampleReceiverFn.invoke exampleInvokeEnv 10 20 30).calls =
      [[Arg.ctx 10, Arg.event 20, Arg.data 21, Arg.resp 30]] := by
  obtain ⟨args, hargs, _, _, _, _, _, _, hcalled, _⟩ :=
    invoke_calls_fn_once_with_declared_args exampleInvokeEnv exampleIns [errorType.rtype] 7
      exampleReceiverFn 10 20 30 rfl (fun _ => ⟨21, rfl⟩)
  have hlist : args = [Arg.ctx 10, Arg.event 20, Arg.data 21, Arg.resp 30] := by
    have h2 : receiverFn.invoke.args exampleInvokeEnv exampleReceiverFn 10 20 30 =
        .ok [Arg.ctx 10, Arg.event 20, Arg.data 21, Arg.resp 30] := rfl
    rw [h2] at hargs
    cases hargs
    rfl
  subst hlist
  exact hcalled rfl (by decide)

/-- C13: for a function accepted by `receiver` and an invocation in which the
function is called (with `args`): if it declares an error result and
returns the value `ret`, `invoke` returns exactly `ret` (nil when `ret` is
nil); if it declares no result, `invoke` returns nil. -/
theorem invoke_returns_error_of_fn
    (env : InvokeEnv Context Event Data Response)
    (ins outs : List ReflectType) (addr : Nat) (r : receiverFn)
    (ctx : Context) (event : Event) (resp : Response)
    (args : List (Arg Context Event Data Response))
    (h : receiver (goFunc ins outs addr) = .returned (some r, none))
    (hcalled : (r.invoke env ctx event resp).calls = [args]) :
    (∀ ret, outs.length = 1 →
      env.body ⟨funcType ins outs, addr⟩ args = .returned [ret] →
      (r.invoke env ctx event resp).result = .returned ret) ∧
    (∀ v, outs = [] →
      env.body ⟨funcType ins outs, addr⟩ args = .returned v →
      (r.invoke env ctx event resp).result = .returned none) := by
  obtain ⟨_, h2, _, _, _, h6, _⟩ := receiver_accepted ins outs addr r h
  cases hargs : receiverFn.invoke.args env r ctx event resp with
  | error err =>
    rw [invoke_of_args_error env r ctx event resp err hargs] at hcalled
    cases hcalled
  | ok args2 =>
    obtain ⟨args3, hargs3, hlen, _, _⟩ :=
      (invoke_args_accepted env ins outs addr r ctx event resp h).2
        (DataAs_ok_of_args_ok env ins outs addr r ctx event resp args2 h hargs)
    rw [hargs] at hargs3
    cases hargs3
    rcases Call_cases env r.fnValue args2 with ⟨msg, hpanic⟩ | ⟨v, hv, hcall⟩
    · rw [invoke_of_Call_panic env r ctx event resp args2 msg hargs hpanic] at hcalled
      cases hcalled
    · rw [h2] at hv
      cases hv
      obtain ⟨hc, hres⟩ := invoke_of_args_ok env r ctx event resp _ args2 hargs hcall
      rw [hc] at hcalled
      cases hcalled
      refine ⟨fun ret hout hbody => ?_, fun v hout hbody => ?_⟩
      · rw [hres _ hbody, h6]
        simp [hout]
      · rw [hres _ hbody, h6]
        simp [hout]

theorem invoke_returns_error_of_fn_witness :
    (exampleReceiverFn.invoke exampleInvokeEnv 10 20 30).result =
      .returned (some "UNIT TEST") :=
  (invoke_returns_error_of_fn exampleInvokeEnv exampleIns [errorType.rtype] 7
    exampleReceiverFn 10 20 30 [Arg.ctx 10, Arg.event 20, Arg.data 21, Arg.resp 30]
    rfl rfl).1 (some "UNIT TEST") rfl rfl

/-- C14: for a function accepted by `receiver` that declares a typed-data
parameter and an event whose data cannot be coerced into that type (`DataAs`
returns the error `cause`), `invoke` returns the error
"failed to get dataAs: " followed by `cause`, and the function is not called. -/
theorem invoke_fails_when_data_coercion_fails
    (env : InvokeEnv Context Event Data Response)
    (ins outs : List ReflectType) (addr : Nat) (r : receiverFn)
    (ctx : Context) (event : Event) (resp : Response) (cause : String)
    (h : receiver (goFunc ins outs addr) = .returned (some r, none))
    (hdata : r.hasDataIn = true)
    (hfail : env.DataAs event r.dataType = .error cause) :
    (r.invoke env ctx event resp).result =
      .returned (some ("failed to get dataAs: " ++ cause)) ∧
    (r.invoke env ctx event resp).calls = [] := by
  rw [invoke_of_args_error env r ctx event resp _
    ((invoke_args_accepted env ins outs addr r ctx event resp h).1 cause hdata hfail)]
  exact ⟨rfl, rfl⟩

theorem invoke_fails_when_data_coercion_fails_witness :
    (exampleReceiverFn.invoke
        ({ exampleInvokeEnv with DataAs := fun _ _ => .error "unexpected end of JSON input" } :
          InvokeEnv Nat Nat Nat Nat) 10 20 30).result =
      .returned (some "failed to get dataAs: unexpected end of JSON input") ∧
    (exampleReceiverFn.invoke
        ({ exampleInvokeEnv with DataAs := fun _ _ => .error "unexpected end of JSON input" } :
          InvokeEnv Nat Nat Nat Nat) 10 20 30).calls = [] :=
  invoke_fails_when_data_coercion_fails
    ({ exampleInvokeEnv with DataAs := fun _ _ => .error "unexpected end of JSON input" } :
      InvokeEnv Nat Nat Nat Nat)
    exampleIns [errorType.rtype] 7 exampleReceiverFn 10 20 30 "unexpected end of JSON input"
    rfl rfl rfl

end InvokeTheorems

end client

/-! ## Theorems: v0.4 context validation -/

theorem expandFormat_of_no_percent (l : List Char) (h : '%' ∉ l) : expandFormat l = l := by
  induction l with
  | nil => rfl
  | cons c rest ih =>
    have hc : c ≠ '%' := fun hc => h (hc ▸ List.mem_cons_self _ _)
    have hrest : '%' ∉ rest := fun hm => h (List.mem_cons_of_mem _ hm)
    unfold expandFormat
    split
    · cases rest <;> simp_all
    · simp_all
    · simp_all
    · simp_all
    · simp_all

theorem Errorf_of_no_percent (s : String) (h : '%' ∉ s.data) : Errorf s = s := by
  unfold Errorf
  rw [expandFormat_of_no_percent _ h]

theorem Join_no_percent (ms : List String) (sep : String) (hsep : '%' ∉ sep.data)
    (h : ∀ m ∈ ms, '%' ∉ m.data) : '%' ∉ (Join ms sep).data := by
  induction ms with
  | nil => simp [Join]
  | cons a rest ih =>
    cases rest with
    | nil => simpa [Join] using h a (List.mem_cons_self _ _)
    | cons b rest2 =>
      have ha := h a (List.mem_cons_self _ _)
      have hr := ih (fun m hm => h m (List.mem_cons_of_mem _ hm))
      simp only [Join, String.data_append, List.mem_append, not_or]
      exact ⟨⟨ha, hsep⟩, hr⟩

theorem ite_append_singleton (c : Prop) [Decidable c] (l : List String) (m : String) :
    (if c then l ++ [m] else l) = l ++ (if c then [m] else []) := by
  split_ifs <;> simp

theorem length_pos_report (l : List String) (sep : String) :
    (if l.length > 0 then some (Errorf (Join l sep)) else none) =
      match l with
      | [] => none
      | m :: ms => some (Errorf (Join (m :: ms) sep)) := by
  cases l <;> simp

theorem filter_map_cons_append {α β : Type} (p : α → Bool) (f : α → β) (a : α)
    (l : List α) :
    ((a :: l).filter p).map f = (if p a = true then [f a] else []) ++ (l.filter p).map f := by
  by_cases h : p a = true <;> simp [List.filter_cons, h]

/-- The error of `Validate` is built from the messages of the violated rules,
in rule order. -/
theorem Validate_eq (caseTable : Char → Char) (ec : EventContextV04) :
    ec.Validate caseTable =
      match (violatedRules caseTable ec).map (·.message) with
      | [] => none
      | m :: ms => some (Errorf (Join (m :: ms) "\n")) := by
  obtain ⟨sv, ty, src, subj, id, time, ds, dct, dce, ext⟩ := ec
  cases subj <;> cases ds <;> cases dct <;> cases dce <;>
  · simp only [EventContextV04.Validate, ite_append_singleton, List.nil_append]
    rw [length_pos_report]
    simp only [violatedRules, rulesV04, filter_map_cons_append, List.filter_nil, List.map_nil,
      decide_eq_true_eq, List.append_assoc, List.append_nil, List.nil_append,
      Bool.false_eq_true, if_false]

theorem rulesV04_message_no_percent (caseTable : Char → Char) :
    ∀ rule ∈ rulesV04 caseTable, '%' ∉ rule.message.data := by
  intro rule hrule
  simp only [rulesV04, List.mem_cons, List.mem_singleton, List.not_mem_nil, or_false] at hrule
  rcases hrule with rfl | rfl | rfl | rfl | rfl | rfl | rfl | rfl <;> dsimp only <;> decide

theorem violated_message_no_percent (caseTable : Char → Char) (ec : EventContextV04) :
    ∀ m ∈ (violatedRules caseTable ec).map (·.message), '%' ∉ m.data := by
  intro m hm
  obtain ⟨rule, hrule, rfl⟩ := List.mem_map.1 hm
  exact rulesV04_message_no_percent caseTable rule (List.mem_of_mem_filter hrule)

theorem Validate_eq_reportOf (caseTable : Char → Char) (ec : EventContextV04) :
    ec.Validate caseTable = reportOf ((violatedRules caseTable ec).map (·.message)) := by
  rw [Validate_eq]
  have h := violated_message_no_percent caseTable ec
  cases hl : (violatedRules caseTable ec).map (·.message) with
  | nil => rfl
  | cons m ms =>
    rw [hl] at h
    simp only [reportOf]
    rw [Errorf_of_no_percent _ (Join_no_percent _ _ (by decide) h)]

theorem rulesV04_message_of_name (caseTable : Char → Char) :
    ∀ rule ∈ rulesV04 caseTable,
      (rule.attributeName = "type" → rule.message = "type: MUST be a non-empty string") ∧
      (rule.attributeName = "id" → rule.message = "id: MUST be a non-empty string") ∧
      (rule.attributeName = "source" → rule.message = "source: REQUIRED") := by
  intro rule hrule
  simp only [rulesV04, List.mem_cons, List.mem_singleton, List.not_mem_nil, or_false] at hrule
  rcases hrule with rfl | rfl | rfl | rfl | rfl | rfl | rfl | rfl <;>
    refine ⟨?_, ?_, ?_⟩ <;> dsimp only <;> decide

theorem single_violation (caseTable : Char → Char) (ec : EventContextV04) (name : String)
    (h : (violatedRules caseTable ec).map (·.attributeName) = [name]) :
    ∃ rule ∈ rulesV04 caseTable, rule.attributeName = name ∧
      ec.Validate caseTable = some rule.message := by
  rw [Validate_eq_reportOf]
  cases hl : violatedRules caseTable ec with
  | nil => rw [hl] at h; simp at h
  | cons rule rest =>
    rw [hl] at h
    simp only [List.map_cons, List.cons.injEq, List.map_eq_nil_iff] at h
    obtain ⟨hname, rfl⟩ := h
    have hmem : rule ∈ violatedRules caseTable ec := by rw [hl]; exact List.mem_cons_self _ _
    exact ⟨rule, List.mem_of_mem_filter hmem, hname, rfl⟩

/-- C2: `EventContextV04.Validate` never reports partially. Its result is the
newline-joined list holding the message of each violated rule and of no
satisfied rule, in the order type, specversion, source, subject, id,
dataschema, datacontenttype, datacontentencoding (nil when no rule is
violated); a context violating exactly the type rule, exactly the id rule or
exactly the source rule yields exactly that rule's message. -/
theorem Validate_reports_every_violation (caseTable : Char → Char) (ec : EventContextV04) :
    ec.Validate caseTable = reportOf ((violatedRules caseTable ec).map (·.message)) ∧
    ((rulesV04 caseTable).map (·.attributeName) =
      ["type", "specversion", "source", "subject", "id", "dataschema", "datacontenttype",
        "datacontentencoding"]) ∧
    ((violatedRules caseTable ec).map (·.attributeName) = ["type"] →
      ec.Validate caseTable = some "type: MUST be a non-empty string") ∧
    ((violatedRules caseTable ec).map (·.attributeName) = ["id"] →
      ec.Validate caseTable = some "id: MUST be a non-empty string") ∧
    ((violatedRules caseTable ec).map (·.attributeName) = ["source"] →
      ec.Validate caseTable = some "source: REQUIRED") := by
  refine ⟨Validate_eq_reportOf caseTable ec, rfl, ?_, ?_, ?_⟩
  · intro h
    obtain ⟨rule, hmem, hname, hval⟩ := single_violation caseTable ec _ h
    rw [hval, (rulesV04_message_of_name caseTable rule hmem).1 hname]
  · intro h
    obtain ⟨rule, hmem, hname, hval⟩ := single_violation caseTable ec _ h
    rw [hval, (rulesV04_message_of_name caseTable rule hmem).2.1 hname]
  · intro h
    obtain ⟨rule, hmem, hname, hval⟩ := single_violation caseTable ec _ h
    rw [hval, (rulesV04_message_of_name caseTable rule hmem).2.2 hname]

theorem Validate_reports_every_violation_witness :
    EventContextV04.Validate id
        { SpecVersion := "0.4", Type_ := " ", Source := ⟨"/producer"⟩, Subject := none,
          ID := "A234", Time := none, DataSchema := none,
          DataContentType := some "application/json", DataContentEncoding := none,
          Extensions := none } =
      some "type: MUST be a non-empty string" :=
  (Validate_reports_every_violation id _).2.2.1 (by decide)

/-- C3: `EventContextV04.Validate` returns nil exactly for the valid contexts:
Type, SpecVersion, Source.String() and ID non-empty after trimming; Subject,
DataSchema and DataContentType absent or non-empty after trimming;
DataContentEncoding absent or equal to `Base64` after trimming and
lower-casing. -/
theorem Validate_nil_iff_valid (caseTable : Char → Char) (ec : EventContextV04) :
    ec.Validate caseTable = none ↔ validV04 caseTable ec := by
  rw [Validate_eq]
  have hnil : (match (violatedRules caseTable ec).map (·.message) with
      | [] => none
      | m :: ms => some (Errorf (Join (m :: ms) "\n"))) = none ↔
      violatedRules caseTable ec = [] := by
    cases h : violatedRules caseTable ec <;> simp
  rw [hnil]
  obtain ⟨sv, ty, src, subj, id, time, ds, dct, dce, ext⟩ := ec
  clear hnil
  cases subj <;> cases ds <;> cases dct <;> cases dce <;>
    simp [violatedRules, rulesV04, validV04, List.filter_eq_nil_iff] <;> tauto

/-! ## Theorems: v0.4 conversion and extensions -/

theorem lookup_rangeAssign {V : Type} (entries : List (Sigma fun _ : String => V))
    (hnd : entries.NodupKeys) (ret : GoMap V) (name : String) :
    (rangeAssign entries ret).lookup name =
      match entries.dlookup name with
      | some v => some v
      | none => ret.lookup name := by
  induction entries generalizing ret with
  | nil => rfl
  | cons kv rest ih =>
    obtain ⟨k, v⟩ := kv
    obtain ⟨hk, hrest⟩ := List.nodupKeys_cons.1 hnd
    have hstep : rangeAssign (⟨k, v⟩ :: rest) ret = rangeAssign rest (ret.insert k v) := rfl
    rw [hstep, ih hrest]
    by_cases hname : name = k
    · subst hname
      rw [List.dlookup_cons_eq, List.dlookup_eq_none.2 hk, AList.lookup_insert]
    · rw [List.dlookup_cons_ne _ _ hname, AList.lookup_insert_ne hname]

theorem lookup_rangeAssign_empty {V : Type} (m : GoMap V) (name : String) :
    (rangeAssign m.entries ∅).lookup name = m.lookup name := by
  rw [lookup_rangeAssign m.entries m.nodupKeys]
  show (match m.lookup name with
    | some v => some v
    | none => none) = m.lookup name
  cases m.lookup name <;> rfl

theorem rangeAssign_entries_eq_nil {V : Type} (m : GoMap V) :
    (rangeAssign m.entries ∅).entries = [] ↔ m.entries = [] := by
  constructor
  · intro h
    rcases hm : m.entries with _ | ⟨⟨k, v⟩, rest⟩
    · rfl
    · exfalso
      have h1 := lookup_rangeAssign_empty m k
      have h2 : m.lookup k = some v := by
        show m.entries.dlookup k = some v
        rw [hm, List.dlookup_cons_eq]
      have h3 : (rangeAssign m.entries ∅).lookup k = none := by
        show (rangeAssign m.entries ∅).entries.dlookup k = none
        rw [h]
        rfl
      rw [h2, h3] at h1
      cases h1
  · intro h
    rw [h]
    rfl

/-- C15: `AsV03` is total and drops nothing: the v0.3 context has the ID,
Type, Source, Subject, Time, DataContentType and DataContentEncoding of the
v0.4 context, its SchemaURL is the DataSchema, its extension map gives every
name the value the v0.4 map gives it, and the map is nil, never a non-nil
empty map, exactly when the v0.4 context has no extensions. -/
theorem AsV03_keeps_every_attribute (ec : EventContextV04) :
    ec.AsV03.ID = ec.ID ∧ ec.AsV03.Type_ = ec.Type_ ∧ ec.AsV03.Source = ec.Source ∧
    ec.AsV03.Subject = ec.Subject ∧ ec.AsV03.Time = ec.Time ∧
    ec.AsV03.DataContentType = ec.DataContentType ∧
    ec.AsV03.DataContentEncoding = ec.DataContentEncoding ∧
    ec.AsV03.SchemaURL = ec.DataSchema ∧
    (∀ name, GoMap.index ec.AsV03.Extensions name = GoMap.index ec.Extensions name) ∧
    (ec.AsV03.Extensions = none ↔ GoMap.len ec.Extensions = 0) ∧
    (∀ m, ec.AsV03.Extensions = some m → m.entries ≠ []) := by
  obtain ⟨sv, ty, src, subj, id, time, ds, dct, dce, ext⟩ := ec
  cases ext with
  | none =>
    simp [EventContextV04.AsV03, GoMap.len, GoMap.index]
  | some m =>
    by_cases hm : m.entries = []
    · have hl : ∀ name, m.lookup name = none := fun name => by
        show m.entries.dlookup name = none
        rw [hm]
        rfl
      simp [EventContextV04.AsV03, GoMap.len, GoMap.index, hm, hl, rangeAssign]
    · have hr : (rangeAssign m.entries ∅).entries ≠ [] :=
        fun h => hm ((rangeAssign_entries_eq_nil m).1 h)
      simp [EventContextV04.AsV03, GoMap.len, GoMap.index, hr, hm, lookup_rangeAssign_empty]

theorem invalid_ne_not_found (a b : String) :
    "invalid type for extension " ++ a ≠ "extension " ++ b := by
  intro h
  have h2 := congrArg (fun s => s.data.head?) h
  simp at h2

theorem unknown_ne_not_found (a b : String) :
    "unknown extension type " ++ a ≠ "extension " ++ b := by
  intro h
  have h2 := congrArg (fun s => s.data.head?) h
  simp at h2

theorem assign_ne_not_found (codec : Codec) (name : String) (value : ExtensionValue)
    (obj : Target) (b : String) :
    (EventContextV04.ExtensionAs.assign codec name value obj).1 ≠ some ("extension " ++ b) := by
  unfold EventContextV04.ExtensionAs.assign
  cases obj with
  | stringPtr cur =>
    cases value with
    | string s => simp
    | rawMessage raw =>
      simp only [ne_eq, Option.some.injEq]
      exact invalid_ne_not_found _ _
    | other t i =>
      simp only [ne_eq, Option.some.injEq]
      exact invalid_ne_not_found _ _
  | other typeName cur =>
    simp only [ne_eq, Option.some.injEq]
    exact unknown_ne_not_found _ _

/-- The claim's clause for a `*string` target fails on a stored raw JSON
string: the value is not a Go string, yet `ExtensionAs` decodes it and
succeeds. -/
theorem ExtensionAs_raw_json_counterexample :
    ¬ stringTargetClause exampleCodec exampleRawContext "k" "" := by
  intro h
  have h2 := (h (ExtensionValue.rawMessage [34, 97, 98, 99, 34]) (by decide)).2
    (fun s hs => by cases hs)
  revert h2
  decide

/-- C16 (amended): `ExtensionAs(name, out)` fails with the not-found error
and leaves `out` unchanged if and only if `name` is not a key of the
extension map. When `name` is present: stored raw JSON that `json.Unmarshal`
decodes into `out` makes the call succeed with the decoded content; a stored
string and a `*string` target succeed with the string stored in `out`; any
other stored value with a `*string` target fails with the type-mismatch
error; and a target that is not a `*string` fails with the unknown-type
error unless the stored value is raw JSON that decodes into it. -/
theorem ExtensionAs_cases (codec : Codec) (ec : EventContextV04) (name : String) :
    (∀ obj,
      ((ec.ExtensionAs codec name obj).1 =
          some ("extension " ++ codec.Quote name ++ " does not exist") ∧
        (ec.ExtensionAs codec name obj).2 = obj) ↔
      GoMap.index ec.Extensions name = none) ∧
    (∀ raw obj, GoMap.index ec.Extensions name = some (ExtensionValue.rawMessage raw) →
      (codec.Unmarshal raw obj).2 = none →
      ec.ExtensionAs codec name obj = (none, (codec.Unmarshal raw obj).1)) ∧
    (∀ s cur, GoMap.index ec.Extensions name = some (ExtensionValue.string s) →
      ec.ExtensionAs codec name (Target.stringPtr cur) = (none, Target.stringPtr s)) ∧
    (∀ value cur, GoMap.index ec.Extensions name = some value →
      (∀ s, value ≠ ExtensionValue.string s) →
      (∀ raw, value = ExtensionValue.rawMessage raw →
        (codec.Unmarshal raw (Target.stringPtr cur)).2 ≠ none) →
      (ec.ExtensionAs codec name (Target.stringPtr cur)).1 =
        some ("invalid type for extension " ++ codec.Quote name)) ∧
    (∀ value typeName cur, GoMap.index ec.Extensions name = some value →
      (∀ raw, value = ExtensionValue.rawMessage raw →
        (codec.Unmarshal raw (Target.other typeName cur)).2 ≠ none) →
      (ec.ExtensionAs codec name (Target.other typeName cur)).1 =
        some ("unknown extension type " ++ typeName)) := by
  refine ⟨fun obj => ?_, fun raw obj hidx hdec => ?_, fun s cur hidx => ?_,
    fun value cur hidx hstr hraw => ?_, fun value typeName cur hidx hraw => ?_⟩
  · unfold EventContextV04.ExtensionAs
    cases hidx : GoMap.index ec.Extensions name with
    | none => simp
    | some value =>
      simp only [reduceCtorEq, iff_false, not_and]
      intro h
      exfalso
      revert h
      cases value with
      | string s => exact assign_ne_not_found _ _ _ _ _
      | other t i => exact assign_ne_not_found _ _ _ _ _
      | rawMessage raw =>
        rcases hu : codec.Unmarshal raw obj with ⟨obj2, e⟩
        simp only [hu]
        cases e with
        | none => simp
        | some e2 =>
          simp only
          rw [String.append_assoc]
          exact assign_ne_not_found _ _ _ _ _
  · unfold EventContextV04.ExtensionAs
    rw [hidx]
    rcases hu : codec.Unmarshal raw obj with ⟨obj2, e⟩
    rw [hu] at hdec
    simp only at hdec
    subst hdec
    simp only [hu]
  · unfold EventContextV04.ExtensionAs
    rw [hidx]
    rfl
  · unfold EventContextV04.ExtensionAs
    rw [hidx]
    cases value with
    | string s => exact absurd rfl (hstr s)
    | other t i => rfl
    | rawMessage raw =>
      have hne := hraw raw rfl
      rcases hu : codec.Unmarshal raw (Target.stringPtr cur) with ⟨obj2, e⟩
      rw [hu] at hne
      cases e with
      | none => exact absurd rfl hne
      | some e2 =>
        have hobj : ∃ s, obj2 = Target.stringPtr s := by
          simp only [Codec.Unmarshal] at hu
          exact ⟨_, (Prod.mk.inj hu).1.symm⟩
        obtain ⟨s, rfl⟩ := hobj
        simp only [hu]
        rfl
  · unfold EventContextV04.ExtensionAs
    rw [hidx]
    cases value with
    | string s => rfl
    | other t i => rfl
    | rawMessage raw =>
      have hne := hraw raw rfl
      rcases hu : codec.Unmarshal raw (Target.other typeName cur) with ⟨obj2, e⟩
      rw [hu] at hne
      cases e with
      | none => exact absurd rfl hne
      | some e2 =>
        have hobj : ∃ c, obj2 = Target.other typeName c := by
          simp only [Codec.Unmarshal] at hu
          exact ⟨_, (Prod.mk.inj hu).1.symm⟩
        obtain ⟨c, rfl⟩ := hobj
        simp only [hu]
        rfl

theorem ExtensionAs_cases_witness :
    exampleRawContext.ExtensionAs exampleCodec "k" (Target.stringPtr "") =
      (none, (exampleCodec.Unmarshal [34, 97, 98, 99, 34] (Target.stringPtr "")).1) :=
  (ExtensionAs_cases exampleCodec exampleRawContext "k").2.1 [34, 97, 98, 99, 34]
    (Target.stringPtr "") (by decide) (by decide)

theorem index_SetExtension (ec : EventContextV04) (name : String)
    (value : Option ExtensionValue) (other : String) :
    GoMap.index (ec.SetExtension name value).1.Extensions other =
      if other = name then value else GoMap.index ec.Extensions other := by
  obtain ⟨sv, ty, src, subj, id, time, ds, dct, dce, ext⟩ := ec
  by_cases h : other = name
  · subst h
    cases ext <;> cases value <;>
      simp [-AList.insert_empty, EventContextV04.SetExtension, GoMap.index,
        AList.lookup_erase, AList.lookup_insert]
  · cases ext <;> cases value <;>
      simp [-AList.insert_empty, EventContextV04.SetExtension, GoMap.index,
        AList.lookup_erase_ne h, AList.lookup_insert_ne h, h]

theorem ExtensionAs_congr (codec : Codec) (ec1 ec2 : EventContextV04) (name : String)
    (obj : Target)
    (h : GoMap.index ec1.Extensions name = GoMap.index ec2.Extensions name) :
    ec1.ExtensionAs codec name obj = ec2.ExtensionAs codec name obj := by
  unfold EventContextV04.ExtensionAs
  rw [h]

/-- C17: on a v0.4 context, also one whose extension map is nil,
`SetExtension` returns nil; after `SetExtension(name, v)` with a string `v`,
`ExtensionAs(name, &s)` succeeds with `s = v`; after `SetExtension(name, nil)`,
`ExtensionAs(name, ...)` fails with the not-found error; and `ExtensionAs` of
every other name gives what it gave before the call. -/
theorem SetExtension_ExtensionAs_roundtrip (codec : Codec) (ec : EventContextV04)
    (name : String) :
    (∀ value, (ec.SetExtension name value).2 = none) ∧
    (∀ v cur, (ec.SetExtension name (some (ExtensionValue.string v))).1.ExtensionAs codec name
        (Target.stringPtr cur) = (none, Target.stringPtr v)) ∧
    (∀ obj, (ec.SetExtension name none).1.ExtensionAs codec name obj =
        (some ("extension " ++ codec.Quote name ++ " does not exist"), obj)) ∧
    (∀ value other obj, other ≠ name →
      (ec.SetExtension name value).1.ExtensionAs codec other obj =
        ec.ExtensionAs codec other obj) := by
  refine ⟨fun value => rfl, fun v cur => ?_, fun obj => ?_, fun value other obj hne => ?_⟩
  · have h := index_SetExtension ec name (some (ExtensionValue.string v)) name
    rw [if_pos rfl] at h
    unfold EventContextV04.ExtensionAs
    rw [h]
    rfl
  · have h := index_SetExtension ec name none name
    rw [if_pos rfl] at h
    unfold EventContextV04.ExtensionAs
    rw [h]
  · apply ExtensionAs_congr
    rw [index_SetExtension, if_neg hne]

theorem SetExtension_ExtensionAs_roundtrip_witness :
    (exampleRawContext.SetExtension "trace" (some (ExtensionValue.string "on"))).1.ExtensionAs
        exampleCodec "k" (Target.stringPtr "") =
      exampleRawContext.ExtensionAs exampleCodec "k" (Target.stringPtr "") :=
  (SetExtension_ExtensionAs_roundtrip exampleCodec exampleRawContext "trace").2.2.2
    (some (ExtensionValue.string "on")) "k" (Target.stringPtr "") (by decide)

/-! ## Theorems: message to event -/

namespace binding

theorem loop_of_firstEventMessage {Event : Type} (env : Env Event) (m : Message Event)
    (ev : Event) (calls : List Call) (hchain : firstEventMessage m = some ev) :
    (ToEvent.loop env [] m calls).e = ev ∧
    (ToEvent.loop env [] m calls).encoding = EncodingEvent ∧
    (ToEvent.loop env [] m calls).err = none ∧
    (Call.RunDirectEncoding ∉ calls →
      Call.RunDirectEncoding ∉ (ToEvent.loop env [] m calls).calls) := by
  induction m generalizing calls with
  | EventMessage em =>
    simp only [firstEventMessage, wrapperChain, List.findSome?, Message.embeddedEvent,
      Option.some.injEq] at hchain
    subst hchain
    simp [ToEvent.loop, TransformerFactories.EventTransformer]
  | wrapper encoding wrapped ih =>
    have hw : firstEventMessage wrapped = some ev := by
      simpa [firstEventMessage, wrapperChain, List.findSome?, Message.embeddedEvent]
        using hchain
    obtain ⟨h1, h2, h3, h4⟩ := ih (calls ++ [Call.GetWrappedMessage]) hw
    refine ⟨h1, h2, h3, fun hc => h4 ?_⟩
    simpa using hc
  | wrapperOfNil encoding =>
    simp [firstEventMessage, wrapperChain, List.findSome?, Message.embeddedEvent] at hchain
  | plain encoding payload =>
    simp [firstEventMessage, wrapperChain, List.findSome?, Message.embeddedEvent] at hchain

/-- C4: for a message whose `Encoding()` is `EncodingEvent` and whose wrapper
chain contains an `EventMessage`, `ToEvent` without transformers returns the
event embedded in the first `EventMessage` of the chain, the encoding
`EncodingEvent` and a nil error, and does not call `RunDirectEncoding`. -/
theorem ToEvent_returns_embedded_event {Event : Type} (env : Env Event)
    (m : Message Event) (ev : Event) (henc : m.Encoding = EncodingEvent)
    (hchain : firstEventMessage m = some ev) :
    (ToEvent env m []).e = ev ∧
    (ToEvent env m []).encoding = EncodingEvent ∧
    (ToEvent env m []).err = none ∧
    Call.RunDirectEncoding ∉ (ToEvent env m []).calls := by
  have hloop : ToEvent env m [] = ToEvent.loop env [] m [] := by
    simp [ToEvent, henc]
  rw [hloop]
  obtain ⟨h1, h2, h3, h4⟩ := loop_of_firstEventMessage env m ev [] hchain
  exact ⟨h1, h2, h3, h4 (by simp)⟩

theorem ToEvent_returns_embedded_event_witness :
    (ToEvent (⟨0, EncodingBinary, fun _ e _ => (e, EncodingUnknown, some "no decoder")⟩ : Env Nat)
        (.wrapper EncodingEvent (.wrapper EncodingEvent (.EventMessage 42))) []).e = 42 :=
  (ToEvent_returns_embedded_event
    (⟨0, EncodingBinary, fun _ e _ => (e, EncodingUnknown, some "no decoder")⟩ : Env Nat)
    (.wrapper EncodingEvent (.wrapper EncodingEvent (.EventMessage 42))) 42 rfl rfl).1

theorem loop_of_no_EventMessage {Event : Type} (env : Env Event)
    (transformers : List (TransformerFactory Event)) (m : Message Event) (calls : List Call)
    (hchain : firstEventMessage m = none) :
    ∃ k, k ≤ (wrapperChain m).length ∧
      ToEvent.loop env transformers m calls =
        ⟨env.NewEvent, env.zeroEncoding, some ErrCannotConvertToEvent,
          calls ++ List.replicate k Call.GetWrappedMessage⟩ := by
  induction m generalizing calls with
  | EventMessage em =>
    simp [firstEventMessage, wrapperChain, List.findSome?, Message.embeddedEvent] at hchain
  | wrapper encoding wrapped ih =>
    have hw : firstEventMessage wrapped = none := by
      simpa [firstEventMessage, wrapperChain, List.findSome?, Message.embeddedEvent]
        using hchain
    obtain ⟨k, hk, hloop⟩ := ih (calls ++ [Call.GetWrappedMessage]) hw
    refine ⟨k + 1, by simpa [wrapperChain] using hk, ?_⟩
    rw [ToEvent.loop, hloop, List.append_assoc]
    rfl
  | wrapperOfNil encoding =>
    exact ⟨1, by simp [wrapperChain], rfl⟩
  | plain encoding payload =>
    exact ⟨0, by simp, by simp [ToEvent.loop]⟩

/-- C19: for a message whose `Encoding()` is `EncodingEvent` and whose wrapper
chain holds no `EventMessage`, `ToEvent` returns the error
`ErrCannotConvertToEvent` (with the new event and the zero encoding) after
at most chain-length calls of `GetWrappedMessage`, and makes no other call:
no `RunDirectEncoding` and no transformer, whatever transformers are given. -/
theorem ToEvent_cannot_convert {Event : Type} (env : Env Event)
    (transformers : List (TransformerFactory Event)) (m : Message Event)
    (henc : m.Encoding = EncodingEvent) (hchain : firstEventMessage m = none) :
    ∃ k, k ≤ (wrapperChain m).length ∧
      ToEvent env m transformers =
        ⟨env.NewEvent, env.zeroEncoding, some ErrCannotConvertToEvent,
          List.replicate k Call.GetWrappedMessage⟩ := by
  obtain ⟨k, hk, hloop⟩ := loop_of_no_EventMessage env transformers m [] hchain
  refine ⟨k, hk, ?_⟩
  have h : ToEvent env m transformers = ToEvent.loop env transformers m [] := by
    simp [ToEvent, henc]
  rw [h, hloop]
  rfl

theorem ToEvent_cannot_convert_witness :
    ∃ k, k ≤ 2 ∧
      ToEvent (⟨0, EncodingBinary, fun _ e _ => (e, EncodingUnknown, none)⟩ : Env Nat)
          (.wrapper EncodingEvent (.plain EncodingEvent 9))
          [⟨some fun e => (e + 1, none)⟩] =
        ⟨0, EncodingBinary, some ErrCannotConvertToEvent,
          List.replicate k Call.GetWrappedMessage⟩ :=
  ToEvent_cannot_convert
    (⟨0, EncodingBinary, fun _ e _ => (e, EncodingUnknown, none)⟩ : Env Nat)
    [⟨some fun e => (e + 1, none)⟩]
    (.wrapper EncodingEvent (.plain EncodingEvent 9)) rfl rfl

/-- C20: for a message that is not event-encoded, `ToEvent` runs
`RunDirectEncoding` on the new event with an empty transformer list whatever
transformers it was given; if the decode fails it returns the decode error
and applies no transformer; if it succeeds it applies the event transformer
chain of the given transformers once, to the decoded event, and returns the
chain's event and error with the decoded encoding. -/
theorem ToEvent_transformers_after_decode {Event : Type} (env : Env Event)
    (transformers : List (TransformerFactory Event)) (m : Message Event)
    (henc : m.Encoding ≠ EncodingEvent) :
    (∀ e encoding err, env.RunDirectEncoding m env.NewEvent [] = (e, encoding, some err) →
      ToEvent env m transformers = ⟨e, encoding, some err, [Call.RunDirectEncoding]⟩) ∧
    (∀ e encoding, env.RunDirectEncoding m env.NewEvent [] = (e, encoding, none) →
      ToEvent env m transformers =
        ⟨(TransformerFactories.EventTransformer transformers e).1, encoding,
          (TransformerFactories.EventTransformer transformers e).2,
          [Call.RunDirectEncoding, Call.EventTransformer]⟩) := by
  refine ⟨fun e encoding err h => ?_, fun e encoding h => ?_⟩
  · simp [ToEvent, henc, h]
  · simp [ToEvent, henc, h]

theorem ToEvent_transformers_after_decode_witness :
    ToEvent (⟨0, EncodingBinary, fun _ e ts => (e + ts.length, EncodingStructured, none)⟩ :
        Env Nat) (.plain EncodingStructured 9) [⟨some fun e => (e + 5, none)⟩] =
      ⟨5, EncodingStructured, none, [Call.RunDirectEncoding, Call.EventTransformer]⟩ :=
  (ToEvent_transformers_after_decode
    (⟨0, EncodingBinary, fun _ e ts => (e + ts.length, EncodingStructured, none)⟩ : Env Nat)
    [⟨some fun e => (e + 5, none)⟩] (.plain EncodingStructured 9) (by decide)).2 0
      EncodingStructured rfl

end binding

/-! ## Theorems: HTTP encoding selection -/

namespace http

/-- C5: `ContextBasedEncodingSelectionStrategy` picks the tag of the preferred
mode and the event's spec version: with preference "" or "binary" it returns
`BinaryV03` for spec version 0.3 and `BinaryV1` for 1.0; with preference
"structured" it returns `StructuredV03` for 0.3 and `StructuredV1` for 1.0. -/
theorem ContextBasedEncodingSelectionStrategy_versioned {Context Event : Type}
    (EncodingFrom : Context → String) (SpecVersion : Event → String) (ctx : Context)
    (e : Event) :
    ((EncodingFrom ctx = "" ∨ EncodingFrom ctx = "binary") →
      (SpecVersion e = "0.3" →
        ContextBasedEncodingSelectionStrategy EncodingFrom SpecVersion ctx e = BinaryV03) ∧
      (SpecVersion e = "1.0" →
        ContextBasedEncodingSelectionStrategy EncodingFrom SpecVersion ctx e = BinaryV1)) ∧
    (EncodingFrom ctx = "structured" →
      (SpecVersion e = "0.3" →
        ContextBasedEncodingSelectionStrategy EncodingFrom SpecVersion ctx e =
          StructuredV03) ∧
      (SpecVersion e = "1.0" →
        ContextBasedEncodingSelectionStrategy EncodingFrom SpecVersion ctx e =
          StructuredV1)) := by
  refine ⟨fun hpref => ⟨fun hv => ?_, fun hv => ?_⟩, fun hpref => ⟨fun hv => ?_, fun hv => ?_⟩⟩
  · have hb : EncodingFrom ctx = "" ∨ EncodingFrom ctx = Binary := hpref
    simp [ContextBasedEncodingSelectionStrategy, DefaultBinaryEncodingSelectionStrategy, hb,
      hv, CloudEventsVersionV03]
  · have hb : EncodingFrom ctx = "" ∨ EncodingFrom ctx = Binary := hpref
    simp [ContextBasedEncodingSelectionStrategy, DefaultBinaryEncodingSelectionStrategy, hb,
      hv, CloudEventsVersionV03, CloudEventsVersionV1]
  · simp [ContextBasedEncodingSelectionStrategy, DefaultStructuredEncodingSelectionStrategy,
      hpref, hv, CloudEventsVersionV03, Binary, Structured]
  · simp [ContextBasedEncodingSelectionStrategy, DefaultStructuredEncodingSelectionStrategy,
      hpref, hv, CloudEventsVersionV03, CloudEventsVersionV1, Binary, Structured]

theorem ContextBasedEncodingSelectionStrategy_versioned_witness :
    ContextBasedEncodingSelectionStrategy (fun ctx : String => ctx)
        (fun e : String => e) "structured" "1.0" = StructuredV1 :=
  ((ContextBasedEncodingSelectionStrategy_versioned (fun ctx : String => ctx)
    (fun e : String => e) "structured" "1.0").2 rfl).2 rfl

/-- C18: the three selection strategies are total functions, and for an event
whose spec version is neither "0.3" nor "1.0" each of them returns `Default`,
whatever the encoding preference of the context is. -/
theorem selection_default_for_unrecognized_version {Context Event : Type}
    (EncodingFrom : Context → String) (SpecVersion : Event → String) (ctx : Context)
    (e : Event) (h03 : SpecVersion e ≠ "0.3") (h1 : SpecVersion e ≠ "1.0") :
    ContextBasedEncodingSelectionStrategy EncodingFrom SpecVersion ctx e = Default ∧
    DefaultBinaryEncodingSelectionStrategy SpecVersion ctx e = Default ∧
    DefaultStructuredEncodingSelectionStrategy SpecVersion ctx e = Default := by
  have hb : DefaultBinaryEncodingSelectionStrategy SpecVersion ctx e = Default := by
    simp [DefaultBinaryEncodingSelectionStrategy, CloudEventsVersionV03, CloudEventsVersionV1,
      h03, h1]
  have hs : DefaultStructuredEncodingSelectionStrategy SpecVersion ctx e = Default := by
    simp [DefaultStructuredEncodingSelectionStrategy, CloudEventsVersionV03,
      CloudEventsVersionV1, h03, h1]
  refine ⟨?_, hb, hs⟩
  unfold ContextBasedEncodingSelectionStrategy
  simp only [hb, hs]
  split_ifs <;> rfl

theorem selection_default_for_unrecognized_version_witness :
    ContextBasedEncodingSelectionStrategy (fun ctx : String => ctx)
        (fun e : String => e) "structured" "" = Default :=
  (selection_default_for_unrecognized_version (fun ctx : String => ctx)
    (fun e : String => e) "structured" "" (by decide) (by decide)).1

end http

/-! ## Theorems: client `Send` -/

namespace v2

/-- C6: for a client with a sender, if the event obtained after applying the
event-defaulting hooks fails `Validate`, then `Send` returns that validation
error, `Sender.Send` is invoked zero times and the transport is left as it
was. -/
theorem Send_invalid_event_never_sent {Context Event S : Type}
    (Validate : Event → Option String) (c : ceClient Context Event S)
    (sender : Sender Context Event S) (s : S) (ctx : Context) (e : Event) (err : String)
    (hsender : c.sender = some sender)
    (hinvalid : Validate (defaultedEvent c ctx e) = some err) :
    (c.Send Validate s ctx e).result = some err ∧
    (c.Send Validate s ctx e).sent = [] ∧
    (c.Send Validate s ctx e).transport = s := by
  have hev : (if c.eventDefaulterFns.length > 0 then
        c.eventDefaulterFns.foldl
          (fun e fn => fn (c.outboundContextDecorators.foldl (fun ctx f => f ctx) ctx) e) e
      else e) = defaultedEvent c ctx e := by
    unfold defaultedEvent decoratedContext
    split_ifs with hlen
    · rfl
    · have hnil : c.eventDefaulterFns = [] := by
        cases hfns : c.eventDefaulterFns with
        | nil => rfl
        | cons a l => rw [hfns] at hlen; simp at hlen
      rw [hnil]
      rfl
  unfold ceClient.Send
  simp [hsender, hev, hinvalid]

theorem Send_invalid_event_never_sent_witness :
    (ceClient.Send (fun e : String => if e = "" then some "type: MUST be a non-empty string" else none)
        ({ sender := some ⟨fun (s : Nat) _ _ => (none, s + 1)⟩,
           outboundContextDecorators := [], eventDefaulterFns := [] } :
          ceClient Unit String Nat)
        0 () "").sent = [] :=
  (Send_invalid_event_never_sent _ _ ⟨fun (s : Nat) _ _ => (none, s + 1)⟩ 0 () ""
    "type: MUST be a non-empty string" rfl rfl).2.1

end v2

/-! ## Theorems: client `Send`, `Request` and `StartReceiver` -/

namespace v2

theorem defaulters_guard {Context Event S : Type} (c : ceClient Context Event S)
    (ctx : Context) (e : Event) :
    (if c.eventDefaulterFns.length > 0 then
        c.eventDefaulterFns.foldl
          (fun e fn => fn (c.outboundContextDecorators.foldl (fun ctx f => f ctx) ctx) e) e
      else e) = defaultedEvent c ctx e := by
  unfold defaultedEvent decoratedContext
  split_ifs with hlen
  · rfl
  · have hnil : c.eventDefaulterFns = [] := by
      cases hfns : c.eventDefaulterFns with
      | nil => rfl
      | cons a l => rw [hfns] at hlen; simp at hlen
    rw [hnil]
    rfl

/-- C21: for a client with a sender, `Send` applies the outbound context
decorators in their declared order, then the event-defaulting hooks in their
declared order, each with the decorated context, then validates the event;
if validation succeeds it calls `Sender.Send` exactly once, with the
decorated context and the defaulted event wrapped as an event message, and
returns the Sender's result unchanged. -/
theorem Send_valid_event_sent_once {Context Event S : Type}
    (Validate : Event → Option String) (c : ceClient Context Event S)
    (sender : Sender Context Event S) (s : S) (ctx : Context) (e : Event)
    (hsender : c.sender = some sender)
    (hvalid : Validate (defaultedEvent c ctx e) = none) :
    decoratedContext c ctx = c.outboundContextDecorators.foldl (fun ctx f => f ctx) ctx ∧
    defaultedEvent c ctx e =
      c.eventDefaulterFns.foldl (fun e fn => fn (decoratedContext c ctx) e) e ∧
    (c.Send Validate s ctx e).sent =
      [(decoratedContext c ctx, binding.Message.EventMessage (defaultedEvent c ctx e))] ∧
    (c.Send Validate s ctx e).result =
      (sender.Send s (decoratedContext c ctx)
        (binding.Message.EventMessage (defaultedEvent c ctx e))).1 ∧
    (c.Send Validate s ctx e).transport =
      (sender.Send s (decoratedContext c ctx)
        (binding.Message.EventMessage (defaultedEvent c ctx e))).2 := by
  refine ⟨rfl, rfl, ?_⟩
  unfold ceClient.Send
  simp only [hsender, defaulters_guard, hvalid]
  exact ⟨rfl, rfl, rfl⟩

theorem Send_valid_event_sent_once_witness :
    (exampleClient.Send exampleClientEnv.Validate 0 () 5).sent =
      [(decoratedContext exampleClient (), binding.Message.EventMessage
        (defaultedEvent exampleClient () 5))] :=
  (Send_valid_event_sent_once exampleClientEnv.Validate exampleClient
    ⟨fun s _ _ => (none, s + 1)⟩ 0 () 5 rfl rfl).2.2.1

/-- What `Request` does once the event is valid, in terms of the Requester's
answer and the result of `ToEvent`. -/
theorem Request_of_valid {Context Event S Fn : Type} (env : ClientEnv Context Event S Fn)
    (c : ceClient Context Event S) (requester : Requester Context Event S) (s : S)
    (ctx : Context) (e : Event) (msg : Option (binding.Message Event)) (err : Option String)
    (s2 : S) (hreq : c.requester = some requester)
    (hvalid : env.Validate (defaultedEvent c ctx e) = none)
    (hanswer : requester.Request s (decoratedContext c ctx)
      (binding.Message.EventMessage (defaultedEvent c ctx e)) = ((msg, err), s2)) :
    (c.Request env s ctx e).result = err ∧
    (c.Request env s ctx e).resp =
      (match (env.ToEvent (decoratedContext c ctx) msg).2 with
        | some _ => none
        | none => (env.ToEvent (decoratedContext c ctx) msg).1) ∧
    (c.Request env s ctx e).steps =
      [Step.Request (decoratedContext c ctx)
        (binding.Message.EventMessage (defaultedEvent c ctx e))] ++
      (if msg.isSome then [Step.Println "message was not nil"] else []) ++
      [Step.ToEvent msg] ++
      (match (env.ToEvent (decoratedContext c ctx) msg).2 with
        | some toEventErr => [Step.Debugw "failed calling ToEvent" toEventErr]
        | none => []) ++
      (match msg with
        | none => []
        | some m =>
          Step.Finish m err ::
            (match (env.Finish s2 m err).1 with
              | some finishErr => [Step.Warnw "failed calling message.Finish" finishErr]
              | none => [])) := by
  obtain ⟨validate, toEvent, finish, newInvoker⟩ := env
  simp only at hvalid
  unfold ceClient.Request
  simp only [hreq, defaulters_guard, hvalid]
  have hctx : c.outboundContextDecorators.foldl (fun ctx f => f ctx) ctx =
      decoratedContext c ctx := rfl
  simp only [hctx, hanswer]
  rcases hte : toEvent (decoratedContext c ctx) msg with ⟨rs, terr⟩
  cases msg with
  | none =>
    cases terr <;> simp [hte]
  | some m =>
    rcases hf : finish s2 m err with ⟨ferr, s3⟩
    cases terr <;> cases ferr <;> simp [hf, hte]

/-- C22: for a client with a requester and an event that passes validation,
the Result returned by `Request` is exactly the Result returned by
`Requester.Request`, whether or not `ToEvent` succeeds on the response
message; when `ToEvent` fails the returned response event is nil, and when it
succeeds the returned event is the one `ToEvent` produced. -/
theorem Request_returns_requester_result {Context Event S Fn : Type}
    (env : ClientEnv Context Event S Fn) (c : ceClient Context Event S)
    (requester : Requester Context Event S) (s : S) (ctx : Context) (e : Event)
    (hreq : c.requester = some requester)
    (hvalid : env.Validate (defaultedEvent c ctx e) = none) :
    (c.Request env s ctx e).result =
      (requester.Request s (decoratedContext c ctx)
        (binding.Message.EventMessage (defaultedEvent c ctx e))).1.2 ∧
    (∀ toEventErr,
      (env.ToEvent (decoratedContext c ctx)
        (requester.Request s (decoratedContext c ctx)
          (binding.Message.EventMessage (defaultedEvent c ctx e))).1.1).2 = some toEventErr →
      (c.Request env s ctx e).resp = none) ∧
    ((env.ToEvent (decoratedContext c ctx)
        (requester.Request s (decoratedContext c ctx)
          (binding.Message.EventMessage (defaultedEvent c ctx e))).1.1).2 = none →
      (c.Request env s ctx e).resp =
        (env.ToEvent (decoratedContext c ctx)
          (requester.Request s (decoratedContext c ctx)
            (binding.Message.EventMessage (defaultedEvent c ctx e))).1.1).1) := by
  rcases hanswer : requester.Request s (decoratedContext c ctx)
    (binding.Message.EventMessage (defaultedEvent c ctx e)) with ⟨⟨msg, err⟩, s2⟩
  obtain ⟨hres, hresp, _⟩ := Request_of_valid env c requester s ctx e msg err s2 hreq hvalid hanswer
  refine ⟨hres, fun toEventErr hte => ?_, fun hte => ?_⟩
  · rw [hresp]
    simp only at hte
    rw [hte]
  · rw [hresp]
    simp only at hte
    rw [hte]

theorem Request_returns_requester_result_witness :
    (exampleClient.Request exampleClientEnv 0 () 5).result = some "ack" :=
  (Request_returns_requester_result exampleClientEnv exampleClient
    ⟨fun s _ _ =>
      ((some (binding.Message.plain binding.Encoding.EncodingBinary 9), some "ack"), s + 1)⟩
    0 () 5 rfl rfl).1

/-- C23: in a call of `Request` in which the Requester is invoked and returns
a response message `m` with the Result `err`, `Finish` is called exactly
once: the calls made are `pre`, then `m.Finish(err)`, then `post`, where
`pre` holds the `ToEvent` attempt on `m` and neither `pre` nor `post` holds a
call of `Finish`, whatever `err` is and whether `ToEvent` succeeds or fails. -/
theorem Request_finishes_response_once {Context Event S Fn : Type}
    (env : ClientEnv Context Event S Fn) (c : ceClient Context Event S)
    (requester : Requester Context Event S) (s : S) (ctx : Context) (e : Event)
    (m : binding.Message Event) (err : Option String) (s2 : S)
    (hreq : c.requester = some requester)
    (hvalid : env.Validate (defaultedEvent c ctx e) = none)
    (hanswer : requester.Request s (decoratedContext c ctx)
      (binding.Message.EventMessage (defaultedEvent c ctx e)) = ((some m, err), s2)) :
    ∃ pre post, (c.Request env s ctx e).steps = pre ++ Step.Finish m err :: post ∧
      Step.ToEvent (some m) ∈ pre ∧
      (∀ x ∈ pre, x.isFinish = false) ∧ (∀ x ∈ post, x.isFinish = false) := by
  obtain ⟨_, _, hsteps⟩ :=
    Request_of_valid env c requester s ctx e (some m) err s2 hreq hvalid hanswer
  refine ⟨[Step.Request (decoratedContext c ctx)
        (binding.Message.EventMessage (defaultedEvent c ctx e))] ++
      [Step.Println "message was not nil"] ++ [Step.ToEvent (some m)] ++
      (match (env.ToEvent (decoratedContext c ctx) (some m)).2 with
        | some toEventErr => [Step.Debugw "failed calling ToEvent" toEventErr]
        | none => []),
    (match (env.Finish s2 m err).1 with
      | some finishErr => [Step.Warnw "failed calling message.Finish" finishErr]
      | none => []), ?_, ?_, ?_, ?_⟩
  · rw [hsteps]
    simp
  · simp
  · intro x hx
    cases hte : (env.ToEvent (decoratedContext c ctx) (some m)).2 <;>
      rw [hte] at hx <;> simp at hx <;> rcases hx with rfl | rfl | rfl | rfl <;> rfl
  · intro x hx
    cases hf : (env.Finish s2 m err).1 <;> rw [hf] at hx <;> simp at hx
    subst hx
    rfl

theorem Request_finishes_response_once_witness :
    ∃ pre post, (exampleClient.Request exampleClientEnv 0 () 5).steps =
        pre ++ Step.Finish (binding.Message.plain binding.Encoding.EncodingBinary 9)
          (some "ack") :: post ∧
      Step.ToEvent (some (binding.Message.plain binding.Encoding.EncodingBinary 9)) ∈ pre ∧
      (∀ x ∈ pre, x.isFinish = false) ∧ (∀ x ∈ post, x.isFinish = false) :=
  Request_finishes_response_once exampleClientEnv exampleClient
    ⟨fun s _ _ =>
      ((some (binding.Message.plain binding.Encoding.EncodingBinary 9), some "ack"), s + 1)⟩
    0 () 5 (binding.Message.plain binding.Encoding.EncodingBinary 9) (some "ack") 1
    rfl rfl rfl

theorem handle_stop {Context Event S : Type} (invoker : Invoker Context Event S) (s : S)
    (ctx : Context) (msg : Option (binding.Message Event)) (respFn : Option Nat)
    (err : Option PollError) (steps : List (Step Context Event)) (result : Option String)
    (s2 : S) (steps2 : List (Step Context Event))
    (h : ceClient.StartReceiver.handle invoker s ctx msg respFn err steps =
      Pass.stop result s2 steps2) :
    (err = some PollError.EOF ∧ result = none ∧ steps2 = steps ∧ s2 = s) ∨
    (err ≠ some PollError.EOF ∧ ∃ invokeErr, result = some invokeErr ∧
      invoker.Invoke s ctx msg respFn = (some invokeErr, s2) ∧
      steps2 = steps ++ [Step.Invoke ctx msg respFn (some invokeErr)]) := by
  unfold ceClient.StartReceiver.handle at h
  split_ifs at h with heof
  · simp only [Pass.stop.injEq] at h
    exact Or.inl ⟨heof, h.1.symm, h.2.2.symm, h.2.1.symm⟩
  · rcases hinv : invoker.Invoke s ctx msg respFn with ⟨r, s3⟩
    rw [hinv] at h
    cases r with
    | none => simp at h
    | some invokeErr =>
      simp only [Pass.stop.injEq] at h
      obtain ⟨h1, h2, h3⟩ := h
      subst h1 h2 h3
      exact Or.inr ⟨heof, invokeErr, rfl, rfl, rfl⟩

theorem handle_next {Context Event S : Type} (invoker : Invoker Context Event S) (s : S)
    (ctx : Context) (msg : Option (binding.Message Event)) (respFn : Option Nat)
    (err : Option PollError) (steps : List (Step Context Event))
    (s2 : S) (steps2 : List (Step Context Event))
    (h : ceClient.StartReceiver.handle invoker s ctx msg respFn err steps =
      Pass.next s2 steps2) :
    err ≠ some PollError.EOF ∧ invoker.Invoke s ctx msg respFn = (none, s2) ∧
      steps2 = steps ++ [Step.Invoke ctx msg respFn none] := by
  unfold ceClient.StartReceiver.handle at h
  split_ifs at h with heof
  rcases hinv : invoker.Invoke s ctx msg respFn with ⟨r, s3⟩
  rw [hinv] at h
  cases r with
  | some invokeErr => simp at h
  | none =>
    simp only [Pass.next.injEq] at h
    obtain ⟨h1, h2⟩ := h
    subst h1 h2
    exact ⟨heof, rfl, rfl⟩

theorem pass_stop {Context Event S : Type} (c : ceClient Context Event S)
    (invoker : Invoker Context Event S) (s : S) (ctx : Context) (result : Option String)
    (s2 : S) (steps : List (Step Context Event))
    (h : ceClient.StartReceiver.pass c invoker s ctx = Pass.stop result s2 steps) :
    (c.responder = none ∧ c.receiver = none ∧ steps = [] ∧
      result = some "responder nor receiver set") ∨ PollRun steps result := by
  unfold ceClient.StartReceiver.pass at h
  cases hresp : c.responder with
  | some responder =>
    rw [hresp] at h
    rcases hr : responder.Respond s ctx with ⟨⟨msg, respFn, err⟩, s3⟩
    simp only [hr] at h
    rcases handle_stop _ _ _ _ _ _ _ _ _ _ h with ⟨h1, h2, h3, _⟩ | ⟨h1, e, h2, _, h3⟩
    · subst h1 h2 h3
      exact Or.inr (PollRun.respondEOF ctx msg respFn)
    · subst h2 h3
      exact Or.inr (PollRun.respondFailed ctx msg respFn err e h1)
  | none =>
    rw [hresp] at h
    cases hrecv : c.receiver with
    | some receiver =>
      rw [hrecv] at h
      rcases hr : receiver.Receive s ctx with ⟨⟨msg, err⟩, s3⟩
      simp only [hr] at h
      rcases handle_stop _ _ _ _ _ _ _ _ _ _ h with ⟨h1, h2, h3, _⟩ | ⟨h1, e, h2, _, h3⟩
      · subst h1 h2 h3
        exact Or.inr (PollRun.receiveEOF ctx msg)
      · subst h2 h3
        exact Or.inr (PollRun.receiveFailed ctx msg err e h1)
    | none =>
      rw [hrecv] at h
      simp only [Pass.stop.injEq] at h
      exact Or.inl ⟨rfl, rfl, h.2.2.symm, h.1.symm⟩

theorem pass_next {Context Event S : Type} (c : ceClient Context Event S)
    (invoker : Invoker Context Event S) (s : S) (ctx : Context)
    (s2 : S) (steps : List (Step Context Event))
    (h : ceClient.StartReceiver.pass c invoker s ctx = Pass.next s2 steps) :
    (c.responder ≠ none ∨ c.receiver ≠ none) ∧
    ∀ rest result, PollRun rest result → PollRun (steps ++ rest) result := by
  unfold ceClient.StartReceiver.pass at h
  cases hresp : c.responder with
  | some responder =>
    rw [hresp] at h
    rcases hr : responder.Respond s ctx with ⟨⟨msg, respFn, err⟩, s3⟩
    simp only [hr] at h
    obtain ⟨h1, _, h3⟩ := handle_next _ _ _ _ _ _ _ _ _ h
    subst h3
    exact ⟨Or.inl (by simp), fun rest result hrest =>
      PollRun.respondNext ctx msg respFn err rest result h1 hrest⟩
  | none =>
    rw [hresp] at h
    cases hrecv : c.receiver with
    | some receiver =>
      rw [hrecv] at h
      rcases hr : receiver.Receive s ctx with ⟨⟨msg, err⟩, s3⟩
      simp only [hr] at h
      obtain ⟨h1, _, h3⟩ := handle_next _ _ _ _ _ _ _ _ _ h
      subst h3
      exact ⟨Or.inr (by simp), fun rest result hrest =>
        PollRun.receiveNext ctx msg err rest result h1 hrest⟩
    | none =>
      rw [hrecv] at h
      simp at h

theorem poll_run {Context Event S : Type} (c : ceClient Context Event S)
    (invoker : Invoker Context Event S) (ctx : Context) (fuel : Nat) (s : S)
    (result : Option String) (s2 : S) (steps : List (Step Context Event))
    (h : ceClient.StartReceiver.poll c invoker ctx fuel s = Run.returned (result, s2, steps)) :
    (c.responder = none ∧ c.receiver = none ∧ steps = [] ∧
      result = some "responder nor receiver set") ∨ PollRun steps result := by
  induction fuel generalizing s result s2 steps with
  | zero => simp [ceClient.StartReceiver.poll] at h
  | succ fuel ih =>
    unfold ceClient.StartReceiver.poll at h
    cases hpass : ceClient.StartReceiver.pass c invoker s ctx with
    | stop err s3 steps1 =>
      simp only [hpass, Run.returned.injEq, Prod.mk.injEq] at h
      obtain ⟨h1, h2, h3⟩ := h
      subst h1 h2 h3
      exact pass_stop c invoker s ctx _ _ _ hpass
    | next s3 steps1 =>
      simp only [hpass] at h
      obtain ⟨hcap, hext⟩ := pass_next c invoker s ctx s3 steps1 hpass
      cases hrec : ceClient.StartReceiver.poll c invoker ctx fuel s3 with
      | blocked => simp [hrec] at h
      | outOfFuel => simp [hrec] at h
      | returned r =>
        obtain ⟨err, s4, rest⟩ := r
        simp only [hrec, Run.returned.injEq, Prod.mk.injEq] at h
        obtain ⟨h1, h2, h3⟩ := h
        subst h1 h2 h3
        rcases ih s3 _ _ _ hrec with ⟨hr1, hr2, _, _⟩ | hrun
        · rcases hcap with hcap | hcap
          · exact absurd hr1 hcap
          · exact absurd hr2 hcap
        · exact Or.inr (hext rest _ hrun)

theorem poll_returns {Context Event S : Type} (c : ceClient Context Event S)
    (invoker : Invoker Context Event S) (ctx : Context) (n : Nat) (s : S)
    (hstop : stopsAt c invoker ctx n s) (fuel : Nat) (hfuel : n < fuel) :
    ∃ r, ceClient.StartReceiver.poll c invoker ctx fuel s = Run.returned r := by
  induction n generalizing s fuel with
  | zero =>
    obtain ⟨err, s2, steps, hpass⟩ := hstop
    obtain ⟨k, rfl⟩ : ∃ k, fuel = k + 1 := ⟨fuel - 1, by omega⟩
    exact ⟨_, by rw [ceClient.StartReceiver.poll, hpass]⟩
  | succ n ih =>
    obtain ⟨s2, steps, hpass, hrest⟩ := hstop
    obtain ⟨k, rfl⟩ : ∃ k, fuel = k + 1 := ⟨fuel - 1, by omega⟩
    obtain ⟨r, hr⟩ := ih s2 hrest k (by omega)
    obtain ⟨err, s3, rest⟩ := r
    exact ⟨(err, s3, steps ++ rest), by rw [ceClient.StartReceiver.poll, hpass]; simp only [hr]⟩

theorem StartReceiver_registered {Context Event S Fn : Type}
    (env : ClientEnv Context Event S Fn) (fuel : Nat) (c : ceClient Context Event S) (s : S)
    (ctx : Context) (fn : Fn) (invoker : Invoker Context Event S)
    (hmu : c.receiverMu = false) (hslot : c.invoker = none)
    (hnew : env.newReceiveInvoker fn c.eventDefaulterFns = .ok invoker)
    (hrecv : ¬ (invoker.IsReceiver = true ∧ c.receiver.isNone = true))
    (hresp : ¬ (invoker.IsResponder = true ∧ c.responder.isNone = true)) :
    c.StartReceiver env fuel s ctx fn =
      match ceClient.StartReceiver.poll (registeredClient c invoker) invoker ctx fuel s with
      | Run.returned (err, s2, rest) =>
        Run.returned ⟨err, releasedClient c, s2, openerSteps c ctx ++ rest⟩
      | Run.blocked => Run.blocked
      | Run.outOfFuel => Run.outOfFuel := by
  unfold ceClient.StartReceiver
  simp only [hmu, hslot, hnew, Bool.false_eq_true, if_false, Option.isSome_none, if_neg hrecv,
    if_neg hresp]
  rfl

theorem poll_first_receive_fails {Context Event S : Type} (c : ceClient Context Event S)
    (invoker : Invoker Context Event S) (ctx : Context) (fuel : Nat) (s : S)
    (receiver : Receiver Context Event S) (msg : Option (binding.Message Event))
    (err : Option PollError) (s2 : S) (e : String) (s3 : S)
    (hresp : c.responder = none) (hrecv : c.receiver = some receiver)
    (hpoll : receiver.Receive s ctx = ((msg, err), s2)) (hne : err ≠ some PollError.EOF)
    (hinv : invoker.Invoke s2 ctx msg none = (some e, s3)) :
    ceClient.StartReceiver.poll c invoker ctx (fuel + 1) s =
      Run.returned (some e, s3, [Step.Receive ctx msg err, Step.Invoke ctx msg none (some e)]) := by
  simp [ceClient.StartReceiver.poll, ceClient.StartReceiver.pass,
    ceClient.StartReceiver.handle, hresp, hrecv, hpoll, hne, hinv]

theorem poll_first_respond_fails {Context Event S : Type} (c : ceClient Context Event S)
    (invoker : Invoker Context Event S) (ctx : Context) (fuel : Nat) (s : S)
    (responder : Responder Context Event S) (msg : Option (binding.Message Event))
    (respFn : Option Nat) (err : Option PollError) (s2 : S) (e : String) (s3 : S)
    (hresp : c.responder = some responder)
    (hpoll : responder.Respond s ctx = ((msg, respFn, err), s2))
    (hne : err ≠ some PollError.EOF)
    (hinv : invoker.Invoke s2 ctx msg respFn = (some e, s3)) :
    ceClient.StartReceiver.poll c invoker ctx (fuel + 1) s =
      Run.returned (some e, s3,
        [Step.Respond ctx msg respFn err, Step.Invoke ctx msg respFn (some e)]) := by
  simp [ceClient.StartReceiver.poll, ceClient.StartReceiver.pass,
    ceClient.StartReceiver.handle, hresp, hpoll, hne, hinv]

/-- C24: for a call of `StartReceiver` that passes registration on a transport
with a Receiver or Responder: whenever it returns, the calls after the opener
form a poll run (each result that is not `io.EOF` is followed by one `Invoke`
on its message, in order; the run ends with nil at the first `io.EOF` result,
which is not invoked, or with the error of the first failing `Invoke`); it
does return when the loop stops within the fuel; and when the invocation of
the first message fails with `e`, it returns exactly `e` after that message. -/
theorem StartReceiver_poll_loop {Context Event S Fn : Type}
    (env : ClientEnv Context Event S Fn) (fuel : Nat) (c : ceClient Context Event S) (s : S)
    (ctx : Context) (fn : Fn) (invoker : Invoker Context Event S)
    (hmu : c.receiverMu = false) (hslot : c.invoker = none)
    (hnew : env.newReceiveInvoker fn c.eventDefaulterFns = .ok invoker)
    (hrecv : ¬ (invoker.IsReceiver = true ∧ c.receiver.isNone = true))
    (hresp : ¬ (invoker.IsResponder = true ∧ c.responder.isNone = true))
    (hcap : c.responder ≠ none ∨ c.receiver ≠ none) :
    (∀ out, c.StartReceiver env fuel s ctx fn = Run.returned out →
      ∃ rest, out.steps = openerSteps c ctx ++ rest ∧ PollRun rest out.err) ∧
    (∀ n, stopsAt (registeredClient c invoker) invoker ctx n s → n < fuel →
      ∃ out, c.StartReceiver env fuel s ctx fn = Run.returned out) ∧
    (∀ receiver msg err s2 e s3, c.responder = none → c.receiver = some receiver →
      receiver.Receive s ctx = ((msg, err), s2) → err ≠ some PollError.EOF →
      invoker.Invoke s2 ctx msg none = (some e, s3) → 0 < fuel →
      c.StartReceiver env fuel s ctx fn =
        Run.returned ⟨some e, releasedClient c, s3,
          openerSteps c ctx ++ [Step.Receive ctx msg err, Step.Invoke ctx msg none (some e)]⟩) ∧
    (∀ responder msg respFn err s2 e s3, c.responder = some responder →
      responder.Respond s ctx = ((msg, respFn, err), s2) → err ≠ some PollError.EOF →
      invoker.Invoke s2 ctx msg respFn = (some e, s3) → 0 < fuel →
      c.StartReceiver env fuel s ctx fn =
        Run.returned ⟨some e, releasedClient c, s3,
          openerSteps c ctx ++
            [Step.Respond ctx msg respFn err, Step.Invoke ctx msg respFn (some e)]⟩) := by
  have hreg := StartReceiver_registered env fuel c s ctx fn invoker hmu hslot hnew hrecv hresp
  refine ⟨fun out hout => ?_, fun n hstop hn => ?_, ?_, ?_⟩
  · rw [hreg] at hout
    cases hpoll : ceClient.StartReceiver.poll (registeredClient c invoker) invoker ctx fuel s with
    | blocked => simp [hpoll] at hout
    | outOfFuel => simp [hpoll] at hout
    | returned r =>
      obtain ⟨err, s2, rest⟩ := r
      simp only [hpoll, Run.returned.injEq] at hout
      subst hout
      refine ⟨rest, rfl, ?_⟩
      rcases poll_run _ _ _ _ _ _ _ _ hpoll with ⟨h1, h2, _, _⟩ | hrun
      · rcases hcap with hcap | hcap
        · exact absurd h1 hcap
        · exact absurd h2 hcap
      · exact hrun
  · obtain ⟨r, hr⟩ := poll_returns _ _ _ n s hstop fuel hn
    obtain ⟨err, s2, rest⟩ := r
    exact ⟨_, by rw [hreg, hr]⟩
  · intro receiver msg err s2 e s3 hnoresp hreceiver hpoll hne hinv hfuel
    obtain ⟨k, rfl⟩ : ∃ k, fuel = k + 1 := ⟨fuel - 1, by omega⟩
    rw [hreg, poll_first_receive_fails (registeredClient c invoker) invoker ctx k s receiver
      msg err s2 e s3 hnoresp hreceiver hpoll hne hinv]
  · intro responder msg respFn err s2 e s3 hresponder hpoll hne hinv hfuel
    obtain ⟨k, rfl⟩ : ∃ k, fuel = k + 1 := ⟨fuel - 1, by omega⟩
    rw [hreg, poll_first_respond_fails (registeredClient c invoker) invoker ctx k s responder
      msg respFn err s2 e s3 hresponder hpoll hne hinv]

theorem StartReceiver_poll_loop_witness :
    exampleClient.StartReceiver exampleClientEnv 5 0 () 1 =
      Run.returned ⟨some "UNIT TEST", releasedClient exampleClient, 1,
        openerSteps exampleClient () ++
          [Step.Receive () (some (binding.Message.plain binding.Encoding.EncodingBinary 0)) none,
            Step.Invoke () (some (binding.Message.plain binding.Encoding.EncodingBinary 0)) none
              (some "UNIT TEST")]⟩ :=
  (StartReceiver_poll_loop exampleClientEnv 5 exampleClient 0 () 1 (exampleInvoker 1)
    rfl rfl rfl (by decide) (by decide) (Or.inr (by simp [exampleClient]))).2.2.1
    ⟨fun s _ =>
      ((some (binding.Message.plain binding.Encoding.EncodingBinary s),
        if s < 3 then none else some PollError.EOF), s + 1)⟩
    (some (binding.Message.plain binding.Encoding.EncodingBinary 0)) none 1 "UNIT TEST" 1
    rfl rfl rfl (by decide) rfl (by decide)

/-- C25: when the callback is valid but receiver-shaped on a transport without
a Receiver, or responder-shaped on a transport without a Responder,
`StartReceiver` returns the matching "mismatched receiver callback" error
with no call made (no opener goroutine, no `Receive`, `Respond` or `Invoke`),
the transport untouched and the client as it was, whatever the fuel. -/
theorem StartReceiver_capability_mismatch {Context Event S Fn : Type}
    (env : ClientEnv Context Event S Fn) (fuel : Nat) (c : ceClient Context Event S) (s : S)
    (ctx : Context) (fn : Fn) (invoker : Invoker Context Event S)
    (hmu : c.receiverMu = false) (hslot : c.invoker = none)
    (hnew : env.newReceiveInvoker fn c.eventDefaulterFns = .ok invoker) :
    (invoker.IsReceiver = true ∧ c.receiver.isNone = true →
      c.StartReceiver env fuel s ctx fn =
        Run.returned
          ⟨some "mismatched receiver callback without protocol.Receiver supported by protocol",
            c, s, []⟩) ∧
    (¬ (invoker.IsReceiver = true ∧ c.receiver.isNone = true) →
      invoker.IsResponder = true ∧ c.responder.isNone = true →
      c.StartReceiver env fuel s ctx fn =
        Run.returned
          ⟨some "mismatched receiver callback without protocol.Responder supported by protocol",
            c, s, []⟩) := by
  obtain ⟨sender, requester, receiver, responder, opener, decorators, slot, mu, defaulters⟩ := c
  simp only at hmu hslot hnew
  subst hmu hslot
  refine ⟨fun h => ?_, fun h1 h2 => ?_⟩
  · unfold ceClient.StartReceiver
    simp only at h
    simp [hnew, h]
  · unfold ceClient.StartReceiver
    simp only at h1 h2
    simp only [hnew, Bool.false_eq_true, if_false, Option.isSome_none, if_neg h1, if_pos h2]

theorem StartReceiver_capability_mismatch_witness :
    ({ exampleClient with receiver := none } : ceClient Unit Nat Nat).StartReceiver
        exampleClientEnv 0 0 () 1 =
      Run.returned
        ⟨some "mismatched receiver callback without protocol.Receiver supported by protocol",
          { exampleClient with receiver := none }, 0, []⟩ :=
  (StartReceiver_capability_mismatch exampleClientEnv 0 { exampleClient with receiver := none }
    0 () 1 (exampleInvoker 1) rfl rfl rfl).1 (by decide)

/-- C26: for a call of `StartReceiver` that starts with the invoker slot
empty: whenever the call returns, the slot is empty and the mutex unlocked;
and the call does return, with the slot empty, when the callback is invalid,
when the capabilities do not match, and when the poll loop stops (at `io.EOF`
or at a failing invocation) within the fuel. -/
theorem StartReceiver_releases_invoker_slot {Context Event S Fn : Type}
    (env : ClientEnv Context Event S Fn) (fuel : Nat) (c : ceClient Context Event S) (s : S)
    (ctx : Context) (fn : Fn) (hslot : c.invoker = none) :
    (∀ out, c.StartReceiver env fuel s ctx fn = Run.returned out →
      out.client.invoker = none ∧ out.client.receiverMu = false) ∧
    (c.receiverMu = false → ∀ err, env.newReceiveInvoker fn c.eventDefaulterFns = .error err →
      c.StartReceiver env fuel s ctx fn = Run.returned ⟨some err, c, s, []⟩) ∧
    (c.receiverMu = false → ∀ invoker, env.newReceiveInvoker fn c.eventDefaulterFns = .ok invoker →
      (invoker.IsReceiver = true ∧ c.receiver.isNone = true) ∨
        (invoker.IsResponder = true ∧ c.responder.isNone = true) →
      ∃ err, c.StartReceiver env fuel s ctx fn = Run.returned ⟨some err, c, s, []⟩) ∧
    (c.receiverMu = false → ∀ invoker, env.newReceiveInvoker fn c.eventDefaulterFns = .ok invoker →
      ¬ (invoker.IsReceiver = true ∧ c.receiver.isNone = true) →
      ¬ (invoker.IsResponder = true ∧ c.responder.isNone = true) →
      ∀ n, stopsAt (registeredClient c invoker) invoker ctx n s → n < fuel →
      ∃ err s2 steps,
        c.StartReceiver env fuel s ctx fn = Run.returned ⟨err, releasedClient c, s2, steps⟩) := by
  obtain ⟨sender, requester, receiver, responder, opener, decorators, slot, mu, defaulters⟩ := c
  simp only at hslot
  subst hslot
  refine ⟨fun out hout => ?_, fun hmu err hnew => ?_, fun hmu invoker hnew hmis => ?_,
    fun hmu invoker hnew hrecv hresp n hstop hn => ?_⟩
  · cases mu with
    | true => simp [ceClient.StartReceiver] at hout
    | false =>
      cases hnew : env.newReceiveInvoker fn defaulters with
      | error err =>
        simp only [ceClient.StartReceiver, hnew, Bool.false_eq_true, if_false,
          Option.isSome_none, Run.returned.injEq] at hout
        subst hout
        exact ⟨rfl, rfl⟩
      | ok invoker =>
        by_cases hrecv : invoker.IsReceiver = true ∧ receiver.isNone = true
        · simp only [ceClient.StartReceiver, hnew, Bool.false_eq_true, if_false,
            Option.isSome_none, if_pos hrecv, Run.returned.injEq] at hout
          subst hout
          exact ⟨rfl, rfl⟩
        · by_cases hresp : invoker.IsResponder = true ∧ responder.isNone = true
          · simp only [ceClient.StartReceiver, hnew, Bool.false_eq_true, if_false,
              Option.isSome_none, if_neg hrecv, if_pos hresp, Run.returned.injEq] at hout
            subst hout
            exact ⟨rfl, rfl⟩
          · rw [StartReceiver_registered env fuel _ s ctx fn invoker rfl rfl hnew hrecv hresp]
              at hout
            split at hout
            · simp only [Run.returned.injEq] at hout
              subst hout
              exact ⟨rfl, rfl⟩
            · simp at hout
            · simp at hout
  · simp only at hmu hnew
    subst hmu
    simp [ceClient.StartReceiver, hnew]
  · simp only at hmu hnew hmis
    subst hmu
    by_cases hrecv : invoker.IsReceiver = true ∧ receiver.isNone = true
    · exact ⟨"mismatched receiver callback without protocol.Receiver supported by protocol", by
        simp only [ceClient.StartReceiver, hnew, Bool.false_eq_true, if_false,
          Option.isSome_none, if_pos hrecv]⟩
    · have hresp : invoker.IsResponder = true ∧ responder.isNone = true :=
        hmis.resolve_left hrecv
      exact ⟨"mismatched receiver callback without protocol.Responder supported by protocol", by
        simp only [ceClient.StartReceiver, hnew, Bool.false_eq_true, if_false,
          Option.isSome_none, if_neg hrecv, if_pos hresp]⟩
  · obtain ⟨r, hr⟩ := poll_returns _ _ _ n s hstop fuel hn
    obtain ⟨err, s2, rest⟩ := r
    refine ⟨err, s2, openerSteps (⟨sender, requester, receiver, responder, opener, decorators,
      none, mu, defaulters⟩ : ceClient Context Event S) ctx ++ rest, ?_⟩
    rw [StartReceiver_registered env fuel _ s ctx fn invoker hmu rfl hnew hrecv hresp, hr]

theorem StartReceiver_releases_invoker_slot_witness :
    (StartOutcome.mk (some "UNIT TEST") (releasedClient exampleClient) 1
      [Step.Receive () (some (binding.Message.plain binding.Encoding.EncodingBinary 0)) none,
        Step.Invoke () (some (binding.Message.plain binding.Encoding.EncodingBinary 0)) none
          (some "UNIT TEST")]).client.invoker = none ∧
    (StartOutcome.mk (some "UNIT TEST") (releasedClient exampleClient) 1
      [Step.Receive () (some (binding.Message.plain binding.Encoding.EncodingBinary 0)) none,
        Step.Invoke () (some (binding.Message.plain binding.Encoding.EncodingBinary 0)) none
          (some "UNIT TEST")]).client.receiverMu = false :=
  (StartReceiver_releases_invoker_slot exampleClientEnv 5 exampleClient 0 () 1 rfl).1 _ rfl

/-- C27: while a call of `StartReceiver` runs its poll loop the client has
the invoker registered and the mutex locked (the deferred `Unlock` runs only
when the call returns), so every other call of `StartReceiver` on that client
waits in `Lock` instead of returning "client already has a receiver". -/
theorem StartReceiver_second_call_blocks {Context Event S Fn : Type}
    (env : ClientEnv Context Event S Fn) (fuel : Nat) (c : ceClient Context Event S) (s : S)
    (ctx : Context) (fn : Fn) (invoker : Invoker Context Event S)
    (hmu : c.receiverMu = false) (hslot : c.invoker = none)
    (hnew : env.newReceiveInvoker fn c.eventDefaulterFns = .ok invoker)
    (hrecv : ¬ (invoker.IsReceiver = true ∧ c.receiver.isNone = true))
    (hresp : ¬ (invoker.IsResponder = true ∧ c.responder.isNone = true)) :
    (c.StartReceiver env fuel s ctx fn =
      match ceClient.StartReceiver.poll (registeredClient c invoker) invoker ctx fuel s with
      | Run.returned (err, s2, rest) =>
        Run.returned ⟨err, releasedClient c, s2, openerSteps c ctx ++ rest⟩
      | Run.blocked => Run.blocked
      | Run.outOfFuel => Run.outOfFuel) ∧
    (registeredClient c invoker).invoker = some invoker ∧
    (registeredClient c invoker).receiverMu = true ∧
    ∀ (fuel2 : Nat) (s2 : S) (ctx2 : Context) (fn2 : Fn),
      (registeredClient c invoker).StartReceiver env fuel2 s2 ctx2 fn2 = Run.blocked :=
  ⟨StartReceiver_registered env fuel c s ctx fn invoker hmu hslot hnew hrecv hresp, rfl, rfl,
    fun _ _ _ _ => by simp [ceClient.StartReceiver, registeredClient]⟩

theorem StartReceiver_second_call_blocks_witness :
    (registeredClient exampleClient (exampleInvoker 0)).StartReceiver exampleClientEnv 5 1 () 1 =
      Run.blocked :=
  (StartReceiver_second_call_blocks exampleClientEnv 5 exampleClient 0 () 0 (exampleInvoker 0)
    rfl rfl rfl (by decide) (by decide)).2.2.2 5 1 () 1

end v2

/-! ## Theorems: the receive callback of the NATS transport -/

namespace nats

/-- C28: in the receive callback, for every inbound message: `Convert` is
called exactly when the codec fails and a converter is set, once, with the
message and the error of the codec; and `Receiver.Receive` is called exactly
when the codec decoded an event or the converter returned one without error,
once, with that event, the callback then returning; in every other case no
call of `Receive` is made. -/
theorem callback_converts_then_receives {Context Event : Type} (t : Transport Context Event)
    (ctx : Context) (m : Msg) :
    ((Transport.StartReceiver.callback t ctx m).1.filter Step.isConvert =
      match (t.codec ctx { Body := m.Data }).2, t.Converter with
      | some decodeErr, some _ => [Step.Convert ctx { Body := m.Data } decodeErr]
      | _, _ => []) ∧
    ((Transport.StartReceiver.callback t ctx m).1.filter Step.isReceive =
      match deliveredEvent t ctx m with
      | some e => [Step.Receive e]
      | none => []) ∧
    (∀ e, deliveredEvent t ctx m = some e →
      (Transport.StartReceiver.callback t ctx m).2 = .returned ()) := by
  obtain ⟨receive, converter, codec⟩ := t
  unfold Transport.StartReceiver.callback deliveredEvent
  simp only
  rcases hc : codec ctx { Body := m.Data } with ⟨e, err⟩
  cases err with
  | none =>
    cases e with
    | none => cases converter <;> simp
    | some e =>
      cases hr : receive e <;> cases converter <;>
        simp [hr, Step.isConvert, Step.isReceive]
  | some decodeErr =>
    cases converter with
    | none => simp [Step.isConvert, Step.isReceive]
    | some converter =>
      rcases hv : converter ctx { Body := m.Data } decodeErr with ⟨e2, err2⟩
      cases err2 with
      | some convertErr => simp [hv, Step.isConvert, Step.isReceive]
      | none =>
        cases e2 with
        | none => simp [hv, Step.isConvert, Step.isReceive]
        | some e2 =>
          cases hr : receive e2 <;> simp [hv, hr, Step.isConvert, Step.isReceive]

end nats

/-! ## Theorems: the context of the HTTP transport -/

namespace http

theorem foldl_attend (ignored : String → Bool) (keys init : List String) :
    keys.foldl (fun a k => if ignored k = true then a else a ++ [k]) init =
      init ++ keys.filter (fun k => !ignored k) := by
  induction keys generalizing init with
  | nil => simp
  | cons k keys ih =>
    rw [List.foldl_cons, ih]
    cases hk : ignored k <;> simp [hk]

theorem AttendToHeaders_eq_filter (caseTable : Char → Char) (tx : TransportContext) :
    tx.AttendToHeaders caseTable =
      match tx.Header with
      | some header => header.keys.filter (fun k => !tx.shouldIgnoreHeader caseTable k)
      | none => [] := by
  unfold TransportContext.AttendToHeaders
  cases hh : tx.Header with
  | none => simp
  | some header =>
    by_cases hlen : header.entries.length > 0
    · simp only [Option.isSome_some, GoMap.len, hlen, and_self, if_true]
      rw [foldl_attend]
      simp
    · have hnil : header.entries = [] := List.length_eq_zero.mp (by omega)
      simp [GoMap.len, hnil, AList.keys]

theorem shouldIgnoreHeader_eq_false (caseTable : Char → Char) (tx : TransportContext)
    (k : String) :
    tx.shouldIgnoreHeader caseTable k = false ↔
      ∀ p ∈ tx.IgnoreHeaderPrefixes,
        HasPrefix (ToLower caseTable k) (ToLower caseTable p) = false := by
  simp [TransportContext.shouldIgnoreHeader, List.any_eq_false]

theorem HasPrefix_ToLower (caseTable : Char → Char) (k p : String)
    (h : HasPrefix k p = true) :
    HasPrefix (ToLower caseTable k) (ToLower caseTable p) = true := by
  unfold HasPrefix at h
  unfold HasPrefix ToLower
  rw [List.isPrefixOf_iff_prefix] at h
  simp only [List.isPrefixOf_iff_prefix]
  exact List.IsPrefix.map _ h

/-- C29: `AttendToHeaders` returns exactly the header keys that are not
ignored: a key is in the result if and only if it is a key of `tx.Header`
and no entry of `tx.IgnoreHeaderPrefixes` is, both lower-cased, a prefix of
it; no key occurs twice; the result is empty when `Header` is nil or empty;
and for a context built by `NewTransportContext` no key of the result starts,
in any letter case, with accept-encoding, user-agent, connection or
content-type. -/
theorem AttendToHeaders_exactly_unignored (caseTable : Char → Char) (tx : TransportContext) :
    (∀ k, k ∈ tx.AttendToHeaders caseTable ↔
      (∃ header, tx.Header = some header ∧ k ∈ header.keys) ∧
      ∀ p ∈ tx.IgnoreHeaderPrefixes,
        HasPrefix (ToLower caseTable k) (ToLower caseTable p) = false) ∧
    (tx.AttendToHeaders caseTable).Nodup ∧
    (tx.Header = none → tx.AttendToHeaders caseTable = []) ∧
    (GoMap.len tx.Header = 0 → tx.AttendToHeaders caseTable = []) ∧
    (∀ req k, k ∈ (NewTransportContext req).AttendToHeaders caseTable →
      ∀ p ∈ ["accept-encoding", "user-agent", "connection", "content-type"],
        HasPrefix (ToLower caseTable k) p = false ∧ HasPrefix k p = false) := by
  refine ⟨fun k => ?_, ?_, fun hnil => ?_, fun hlen => ?_, fun req k hk p hp => ?_⟩
  · rw [AttendToHeaders_eq_filter]
    cases hh : tx.Header with
    | none => simp
    | some header =>
      simp only [List.mem_filter, Bool.not_eq_true', shouldIgnoreHeader_eq_false,
        Option.some.injEq, exists_eq_left']
  · rw [AttendToHeaders_eq_filter]
    cases hh : tx.Header with
    | none => simp
    | some header => exact List.Nodup.filter _ header.keys_nodup
  · rw [AttendToHeaders_eq_filter, hnil]
  · rw [AttendToHeaders_eq_filter]
    cases hh : tx.Header with
    | none => rfl
    | some header =>
      rw [hh] at hlen
      have hentries : header.entries = [] := List.length_eq_zero.mp hlen
      simp [AList.keys, hentries]
  · rw [AttendToHeaders_eq_filter] at hk
    have hlower : ToLower caseTable p = p := by
      simp only [List.mem_cons, List.mem_singleton, List.not_mem_nil, or_false] at hp
      rcases hp with rfl | rfl | rfl | rfl <;> rfl
    have hmem : p ∈ (NewTransportContext req).IgnoreHeaderPrefixes := by
      cases req <;> simpa [NewTransportContext, TransportContext.AddIgnoreHeaderPrefix] using hp
    have hfalse : HasPrefix (ToLower caseTable k) p = false := by
      cases hh : (NewTransportContext req).Header with
      | none => simp [hh] at hk
      | some header =>
        simp only [hh, List.mem_filter, Bool.not_eq_true'] at hk
        have h := (shouldIgnoreHeader_eq_false caseTable _ k).mp hk.2 p hmem
        rwa [hlower] at h
    refine ⟨hfalse, ?_⟩
    cases hkp : HasPrefix k p with
    | false => rfl
    | true =>
      have h := HasPrefix_ToLower caseTable k p hkp
      rw [hlower, hfalse] at h
      exact absurd h (by decide)

theorem lookup_Add (canon : String → String) (h : Header) (key value k : String) :
    (Header.Add canon h key value).lookup k =
      if k = canon key then some (((h.lookup (canon key)).getD []) ++ [value])
      else h.lookup k := by
  unfold Header.Add
  by_cases hk : k = canon key
  · subst hk
    simp
  · simp [hk, AList.lookup_insert_ne hk]

theorem headerOf_ContextWithHeader (canon : String → String) (heap : HeaderHeap)
    (ctx : GoContext) (key value : String) :
    headerOf (ContextWithHeader canon heap ctx key value).1
        (ContextWithHeader canon heap ctx key value).2 =
      Header.Add canon (headerOf heap ctx) key value := by
  unfold headerOf ContextWithHeader
  rcases hf : HeaderFrom heap ctx with ⟨heap1, ref⟩
  simp [HeaderFrom, GoContext.Value]

theorem Values_Add_self (canon : String → String) (h : Header) (key value : String) :
    value ∈ Header.Values canon (Header.Add canon h key value) key := by
  simp [Header.Values, lookup_Add]

theorem Values_Add_keeps (canon : String → String) (h : Header) (key value k v : String)
    (hv : v ∈ Header.Values canon h k) :
    v ∈ Header.Values canon (Header.Add canon h key value) k := by
  unfold Header.Values at hv ⊢
  rw [lookup_Add]
  by_cases hk : canon k = canon key
  · rw [if_pos hk]
    rw [hk] at hv
    simp [hv]
  · rw [if_neg hk]
    exact hv

/-- C30: `HeaderFrom` returns a map in every case, an empty one when the
context carries no header map under the header key; and the map read from
`ContextWithHeader(ctx, key, value)` is the map read from `ctx` with `value`
added to `key`: it has `value` among the values of `key`, every key of the
old map with all its values in order, and after a second call on the result
the values of both calls. -/
theorem ContextWithHeader_accumulates (canon : String → String) (heap : HeaderHeap)
    (ctx : GoContext) (key value : String) :
    ((∀ ref, ctx.Value ContextKey.headerKey ≠ some (ContextValue.header ref)) →
      headerOf heap ctx = ∅) ∧
    headerOf (ContextWithHeader canon heap ctx key value).1
        (ContextWithHeader canon heap ctx key value).2 =
      Header.Add canon (headerOf heap ctx) key value ∧
    value ∈ Header.Values canon
      (headerOf (ContextWithHeader canon heap ctx key value).1
        (ContextWithHeader canon heap ctx key value).2) key ∧
    (∀ k vs, (headerOf heap ctx).lookup k = some vs →
      ∃ ws, (headerOf (ContextWithHeader canon heap ctx key value).1
          (ContextWithHeader canon heap ctx key value).2).lookup k = some ws ∧ vs <+: ws) ∧
    (∀ k v, v ∈ Header.Values canon (headerOf heap ctx) k →
      v ∈ Header.Values canon
        (headerOf (ContextWithHeader canon heap ctx key value).1
          (ContextWithHeader canon heap ctx key value).2) k) ∧
    (∀ key2 value2,
      value ∈ Header.Values canon
        (headerOf
          (ContextWithHeader canon (ContextWithHeader canon heap ctx key value).1
            (ContextWithHeader canon heap ctx key value).2 key2 value2).1
          (ContextWithHeader canon (ContextWithHeader canon heap ctx key value).1
            (ContextWithHeader canon heap ctx key value).2 key2 value2).2) key ∧
      value2 ∈ Header.Values canon
        (headerOf
          (ContextWithHeader canon (ContextWithHeader canon heap ctx key value).1
            (ContextWithHeader canon heap ctx key value).2 key2 value2).1
          (ContextWithHeader canon (ContextWithHeader canon heap ctx key value).1
            (ContextWithHeader canon heap ctx key value).2 key2 value2).2) key2) := by
  refine ⟨fun hno => ?_, headerOf_ContextWithHeader canon heap ctx key value, ?_,
    fun k vs hk => ?_, fun k v hv => ?_, fun key2 value2 => ⟨?_, ?_⟩⟩
  · unfold headerOf HeaderFrom
    cases hv : ctx.Value ContextKey.headerKey with
    | none => simp
    | some val =>
      cases val with
      | header ref => exact absurd hv (hno ref)
      | other typeName id => simp
  · rw [headerOf_ContextWithHeader]
    exact Values_Add_self canon _ key value
  · rw [headerOf_ContextWithHeader, lookup_Add]
    by_cases hkey : k = canon key
    · subst hkey
      rw [if_pos rfl, hk]
      exact ⟨_, rfl, List.prefix_append vs [value]⟩
    · rw [if_neg hkey]
      exact ⟨vs, hk, List.prefix_refl vs⟩
  · rw [headerOf_ContextWithHeader]
    exact Values_Add_keeps canon _ key value k v hv
  · rw [headerOf_ContextWithHeader, headerOf_ContextWithHeader]
    exact Values_Add_keeps canon _ key2 value2 key value (Values_Add_self canon _ key value)
  · rw [headerOf_ContextWithHeader]
    exact Values_Add_self canon _ key2 value2

end http

/-! ## Theorems: v0.4 clone and spec version -/

/-- C31: `Clone` and `AsV04` return a context equal to `ec` in every field
except `SpecVersion`, which is "0.4"; `AsV04` is idempotent; and on a context
whose `SpecVersion` is already "0.4" both return the context itself. The
receiver is passed by value, so `ec` is left as it was. -/
theorem Clone_AsV04_set_only_spec_version (ec : EventContextV04) :
    ec.Clone = { ec with SpecVersion := "0.4" } ∧
    ec.AsV04 = { ec with SpecVersion := "0.4" } ∧
    (ec.AsV04.SpecVersion = "0.4" ∧ ec.AsV04.Type_ = ec.Type_ ∧ ec.AsV04.Source = ec.Source ∧
      ec.AsV04.Subject = ec.Subject ∧ ec.AsV04.ID = ec.ID ∧ ec.AsV04.Time = ec.Time ∧
      ec.AsV04.DataSchema = ec.DataSchema ∧ ec.AsV04.DataContentType = ec.DataContentType ∧
      ec.AsV04.DataContentEncoding = ec.DataContentEncoding ∧
      ec.AsV04.Extensions = ec.Extensions) ∧
    ec.AsV04.AsV04 = ec.AsV04 ∧
    (ec.SpecVersion = "0.4" → ec.Clone = ec ∧ ec.AsV04 = ec) := by
  refine ⟨rfl, rfl, ⟨rfl, rfl, rfl, rfl, rfl, rfl, rfl, rfl, rfl, rfl⟩, rfl, fun h => ?_⟩
  obtain ⟨sv, ty, src, subj, id, time, schema, dct, dce, ext⟩ := ec
  simp only at h
  subst h
  exact ⟨rfl, rfl⟩

/-- C33: the v0.3 context returned by `AsV03` has the `SpecVersion` field
`CloudEventsVersionV02`, "0.2", for every v0.4 context, and so never
`CloudEventsVersionV03`, "0.3". -/
theorem AsV03_spec_version_is_v02 (ec : EventContextV04) :
    ec.AsV03.SpecVersion = CloudEventsVersionV02 ∧ ec.AsV03.SpecVersion = "0.2" ∧
    ec.AsV03.SpecVersion ≠ CloudEventsVersionV03 := by
  have h : ec.AsV03.SpecVersion = "0.2" := by
    unfold EventContextV04.AsV03
    cases ec.Extensions <;> simp only [] <;> split <;> rfl
  refine ⟨h, h, ?_⟩
  rw [h]
  decide

/-! ## Theorems: the spec-version attribute of the event builder -/

namespace binding

theorem SetAttribute_of_string {C P V : Type} (conv : EventContextConverter C)
    (ToString : V → String × Option String) (b : messageToEventBuilder C P)
    (attr : spec.Attribute C V) (value : V) (str : String)
    (hkind : attr.Kind = spec.Kind.SpecVersion) (hstr : ToString value = (str, none)) :
    b.SetAttribute conv ToString attr value =
      (if str = "0.1" then
          { b with event := { b.event with Context := conv.AsV01 b.event.Context } }
        else if str = "0.2" then
          { b with event := { b.event with Context := conv.AsV02 b.event.Context } }
        else if str = "0.3" then
          { b with event := { b.event with Context := conv.AsV03 b.event.Context } }
        else if str = "1.0" then
          { b with event := { b.event with Context := conv.AsV1 b.event.Context } }
        else b, none) := by
  unfold messageToEventBuilder.SetAttribute
  rw [if_pos hkind, hstr]
  rfl

/-- C32: for the spec-version attribute and a value that converts to "0.1",
"0.2", "0.3" or "1.0", `SetAttribute` returns nil and replaces the context by
its conversion to that version; for a value that converts to "0.4" it returns
nil and leaves the builder as it was; and every other attribute is handed to
`attribute.Set` on the current context, whose error is returned. -/
theorem SetAttribute_retypes_except_v04 {C P V : Type} (conv : EventContextConverter C)
    (ToString : V → String × Option String) (b : messageToEventBuilder C P)
    (attr : spec.Attribute C V) (value : V) :
    (attr.Kind = spec.Kind.SpecVersion →
      (ToString value = ("0.1", none) →
        b.SetAttribute conv ToString attr value =
          ({ b with event := { b.event with Context := conv.AsV01 b.event.Context } }, none)) ∧
      (ToString value = ("0.2", none) →
        b.SetAttribute conv ToString attr value =
          ({ b with event := { b.event with Context := conv.AsV02 b.event.Context } }, none)) ∧
      (ToString value = ("0.3", none) →
        b.SetAttribute conv ToString attr value =
          ({ b with event := { b.event with Context := conv.AsV03 b.event.Context } }, none)) ∧
      (ToString value = ("1.0", none) →
        b.SetAttribute conv ToString attr value =
          ({ b with event := { b.event with Context := conv.AsV1 b.event.Context } }, none)) ∧
      (ToString value = ("0.4", none) →
        b.SetAttribute conv ToString attr value = (b, none))) ∧
    (attr.Kind ≠ spec.Kind.SpecVersion →
      b.SetAttribute conv ToString attr value =
        ({ b with event := { b.event with Context := (attr.Set b.event.Context value).1 } },
          (attr.Set b.event.Context value).2)) := by
  refine ⟨fun hkind => ⟨fun h => ?_, fun h => ?_, fun h => ?_, fun h => ?_, fun h => ?_⟩,
    fun hkind => ?_⟩
  · rw [SetAttribute_of_string conv ToString b attr value _ hkind h]
    rfl
  · rw [SetAttribute_of_string conv ToString b attr value _ hkind h]
    rfl
  · rw [SetAttribute_of_string conv ToString b attr value _ hkind h]
    rfl
  · rw [SetAttribute_of_string conv ToString b attr value _ hkind h]
    rfl
  · rw [SetAttribute_of_string conv ToString b attr value _ hkind h]
    rfl
  · unfold messageToEventBuilder.SetAttribute
    rw [if_neg hkind]

theorem SetAttribute_retypes_except_v04_witness :
    (exampleBuilder.SetAttribute exampleConverter exampleToString exampleSpecVersionAttribute
        (.inl "0.4")).2 = none ∧
    (exampleBuilder.SetAttribute exampleConverter exampleToString exampleSpecVersionAttribute
        (.inl "0.4")).1.event.Context.GetSpecVersion = "0.3" := by
  have h := (SetAttribute_retypes_except_v04 exampleConverter exampleToString exampleBuilder
    exampleSpecVersionAttribute (.inl "0.4")).1 rfl
  rw [h.2.2.2.2 rfl]
  exact ⟨rfl, rfl⟩

/-- C37: for the spec-version attribute, a value that converts to a string
other than "0.1", "0.2", "0.3" and "1.0" makes `SetAttribute` return nil and
leave the builder, with its context, as it was; a value that converts to a
string never gives an error; and an error returned is the error of
`types.ToString` on the value. -/
theorem SetAttribute_accepts_unrecognized_version {C P V : Type}
    (conv : EventContextConverter C) (ToString : V → String × Option String)
    (b : messageToEventBuilder C P) (attr : spec.Attribute C V) (value : V)
    (hkind : attr.Kind = spec.Kind.SpecVersion) :
    (∀ str, ToString value = (str, none) →
      str ≠ "0.1" → str ≠ "0.2" → str ≠ "0.3" → str ≠ "1.0" →
      b.SetAttribute conv ToString attr value = (b, none)) ∧
    (∀ str, ToString value = (str, none) →
      (b.SetAttribute conv ToString attr value).2 = none) ∧
    (∀ err, (b.SetAttribute conv ToString attr value).2 = some err →
      (ToString value).2 = some err) ∧
    (∀ err, (ToString value).2 = some err →
      b.SetAttribute conv ToString attr value = (b, some err)) := by
  refine ⟨fun str hstr h1 h2 h3 h4 => ?_, fun str hstr => ?_, fun err herr => ?_,
    fun err herr => ?_⟩
  · rw [SetAttribute_of_string conv ToString b attr value str hkind hstr]
    simp [h1, h2, h3, h4]
  · rw [SetAttribute_of_string conv ToString b attr value str hkind hstr]
  · rcases hv : ToString value with ⟨str, e⟩
    cases e with
    | none =>
      rw [SetAttribute_of_string conv ToString b attr value str hkind hv] at herr
      cases herr
    | some e =>
      unfold messageToEventBuilder.SetAttribute at herr
      rw [if_pos hkind, hv] at herr
      exact herr
  · rcases hv : ToString value with ⟨str, e⟩
    rw [hv] at herr
    simp only at herr
    subst herr
    unfold messageToEventBuilder.SetAttribute
    rw [if_pos hkind, hv]

theorem SetAttribute_accepts_unrecognized_version_witness :
    exampleBuilder.SetAttribute exampleConverter exampleToString exampleSpecVersionAttribute
      (.inl "2.0") = (exampleBuilder, none) :=
  (SetAttribute_accepts_unrecognized_version exampleConverter exampleToString exampleBuilder
    exampleSpecVersionAttribute (.inl "2.0") rfl).1 "2.0" rfl (by decide) (by decide)
    (by decide) (by decide)

end binding

/-! ## Theorems: the batched preference and the encoding accessors -/

namespace http

/-- C34: for a context whose encoding preference is "batched",
`ContextBasedEncodingSelectionStrategy` returns `Default` for every event,
while `DefaultStructuredEncodingSelectionStrategy` returns `StructuredV03`
for spec version 0.3 and `StructuredV1` for 1.0: on those events the two
differ. -/
theorem ContextBasedEncodingSelectionStrategy_batched {Context Event : Type}
    (EncodingFrom : Context → String) (SpecVersion : Event → String) (ctx : Context)
    (e : Event) (hpref : EncodingFrom ctx = Batched) :
    ContextBasedEncodingSelectionStrategy EncodingFrom SpecVersion ctx e = Default ∧
    (SpecVersion e = "0.3" →
      DefaultStructuredEncodingSelectionStrategy SpecVersion ctx e = StructuredV03 ∧
      ContextBasedEncodingSelectionStrategy EncodingFrom SpecVersion ctx e ≠
        DefaultStructuredEncodingSelectionStrategy SpecVersion ctx e) ∧
    (SpecVersion e = "1.0" →
      DefaultStructuredEncodingSelectionStrategy SpecVersion ctx e = StructuredV1 ∧
      ContextBasedEncodingSelectionStrategy EncodingFrom SpecVersion ctx e ≠
        DefaultStructuredEncodingSelectionStrategy SpecVersion ctx e) := by
  have hd : ContextBasedEncodingSelectionStrategy EncodingFrom SpecVersion ctx e = Default := by
    simp [ContextBasedEncodingSelectionStrategy, hpref, Batched, Binary, Structured]
  refine ⟨hd, fun hv => ?_, fun hv => ?_⟩
  · have hs : DefaultStructuredEncodingSelectionStrategy SpecVersion ctx e = StructuredV03 := by
      simp [DefaultStructuredEncodingSelectionStrategy, hv, CloudEventsVersionV03]
    refine ⟨hs, ?_⟩
    rw [hd, hs]
    decide
  · have hs : DefaultStructuredEncodingSelectionStrategy SpecVersion ctx e = StructuredV1 := by
      simp [DefaultStructuredEncodingSelectionStrategy, hv, CloudEventsVersionV03,
        CloudEventsVersionV1]
    refine ⟨hs, ?_⟩
    rw [hd, hs]
    decide

theorem ContextBasedEncodingSelectionStrategy_batched_witness :
    ContextBasedEncodingSelectionStrategy (fun ctx : String => ctx)
        (fun e : String => e) "batched" "0.3" = Default ∧
    DefaultStructuredEncodingSelectionStrategy (fun e : String => e) "batched" "0.3" =
      StructuredV03 :=
  ⟨(ContextBasedEncodingSelectionStrategy_batched (fun ctx : String => ctx)
      (fun e : String => e) "batched" "0.3" rfl).1,
    ((ContextBasedEncodingSelectionStrategy_batched (fun ctx : String => ctx)
      (fun e : String => e) "batched" "0.3" rfl).2.1 rfl).1⟩

/-- C39: for the preference "binary" or "structured" and an event of spec
version 0.3 or 1.0, the encoding `ContextBasedEncodingSelectionStrategy`
returns has the preference as its `Name()` and "v0.3" or "v1.0", matching the
event, as its `Version()`; and for each of the six versioned encodings
`Codec()` is `Name()`, a slash, and `Version()`. -/
theorem Encoding_accessors_consistent {Context Event : Type}
    (EncodingFrom : Context → String) (SpecVersion : Event → String) (ctx : Context)
    (e : Event) :
    (EncodingFrom ctx = "binary" ∨ EncodingFrom ctx = "structured" →
      (SpecVersion e = "0.3" →
        Encoding.Name (ContextBasedEncodingSelectionStrategy EncodingFrom SpecVersion ctx e) =
          EncodingFrom ctx ∧
        Encoding.Version (ContextBasedEncodingSelectionStrategy EncodingFrom SpecVersion ctx e) =
          "v0.3") ∧
      (SpecVersion e = "1.0" →
        Encoding.Name (ContextBasedEncodingSelectionStrategy EncodingFrom SpecVersion ctx e) =
          EncodingFrom ctx ∧
        Encoding.Version (ContextBasedEncodingSelectionStrategy EncodingFrom SpecVersion ctx e) =
          "v1.0")) ∧
    (∀ enc ∈ [BinaryV03, StructuredV03, BatchedV03, BinaryV1, StructuredV1, BatchedV1],
      Encoding.Codec enc = Encoding.Name enc ++ "/" ++ Encoding.Version enc) := by
  refine ⟨fun hpref => ⟨fun hv => ?_, fun hv => ?_⟩, fun enc henc => ?_⟩
  · rcases hpref with hpref | hpref
    · have hsel : ContextBasedEncodingSelectionStrategy EncodingFrom SpecVersion ctx e =
          BinaryV03 := by
        simp [ContextBasedEncodingSelectionStrategy, DefaultBinaryEncodingSelectionStrategy,
          hpref, hv, CloudEventsVersionV03, Binary]
      rw [hsel, hpref]
      exact ⟨by decide, by decide⟩
    · have hsel : ContextBasedEncodingSelectionStrategy EncodingFrom SpecVersion ctx e =
          StructuredV03 := by
        simp [ContextBasedEncodingSelectionStrategy, DefaultStructuredEncodingSelectionStrategy,
          hpref, hv, CloudEventsVersionV03, Binary, Structured]
      rw [hsel, hpref]
      exact ⟨by decide, by decide⟩
  · rcases hpref with hpref | hpref
    · have hsel : ContextBasedEncodingSelectionStrategy EncodingFrom SpecVersion ctx e =
          BinaryV1 := by
        simp [ContextBasedEncodingSelectionStrategy, DefaultBinaryEncodingSelectionStrategy,
          hpref, hv, CloudEventsVersionV03, CloudEventsVersionV1, Binary]
      rw [hsel, hpref]
      exact ⟨by decide, by decide⟩
    · have hsel : ContextBasedEncodingSelectionStrategy EncodingFrom SpecVersion ctx e =
          StructuredV1 := by
        simp [ContextBasedEncodingSelectionStrategy, DefaultStructuredEncodingSelectionStrategy,
          hpref, hv, CloudEventsVersionV03, CloudEventsVersionV1, Binary, Structured]
      rw [hsel, hpref]
      exact ⟨by decide, by decide⟩
  · simp only [List.mem_cons, List.mem_singleton, List.not_mem_nil, or_false] at henc
    rcases henc with rfl | rfl | rfl | rfl | rfl | rfl <;> decide

end http

/-! ## Theorems: shutdown of the NATS receiver -/

namespace nats

/-- C35: for a call of `StartReceiver` that passes its checks and whose
context ends: when `Subscribe` succeeded without error the call returns nil,
whatever `Unsubscribe` returns, so an error of `Unsubscribe` is dropped; when
`Subscribe` returned a subscription together with an error the call returns
the result of `Unsubscribe` in place of that error; and in every such call
the field `sub` is nil afterwards. While the context does not end the call
does not return. -/
theorem StartReceiver_unsubscribe_error_dropped (k : Encodings) (env : ConnEnv)
    (t t1 : TransportState) (conn : Nat)
    (hconn : t.Conn = some conn) (hsub : t.sub = none)
    (hcodec : t.loadCodec k = (true, t1)) (hsubject : t1.Subject ≠ "") :
    (∀ sub, env.Subscribe conn t1.Subject = (some sub, none) →
      t.StartReceiver k env true = some (none, { t1 with sub := none })) ∧
    (∀ sub err, env.Subscribe conn t1.Subject = (some sub, some err) →
      t.StartReceiver k env true = some (env.Unsubscribe sub, { t1 with sub := none })) ∧
    (∀ err, env.Subscribe conn t1.Subject = (none, err) →
      t.StartReceiver k env true = some (err, { t1 with sub := none })) ∧
    (∀ out, t.StartReceiver k env true = some out → out.2.sub = none) ∧
    t.StartReceiver k env false = none := by
  obtain ⟨subscribe, unsubscribe⟩ := env
  simp only
  have hunfold : ∀ done, t.StartReceiver k ⟨subscribe, unsubscribe⟩ done =
      match subscribe conn t1.Subject with
      | (sub, err) =>
        if done = true then
          match sub with
          | some sub =>
            some (if err.isSome = true then unsubscribe sub else err, { t1 with sub := none })
          | none => some (err, { t1 with sub := none })
        else none := by
    intro done
    unfold TransportState.StartReceiver
    simp only [hconn, hsub, hcodec, Option.isSome_none, Bool.false_eq_true, if_false,
      if_neg hsubject]
    rcases hs : subscribe conn t1.Subject with ⟨sub, err⟩
    cases sub <;> cases done <;> simp
  refine ⟨fun sub h => ?_, fun sub err h => ?_, fun err h => ?_, fun out h => ?_, ?_⟩
  · rw [hunfold, h]
    rfl
  · rw [hunfold, h]
    rfl
  · rw [hunfold, h]
    rfl
  · rw [hunfold] at h
    rcases hs : subscribe conn t1.Subject with ⟨sub, err⟩
    rw [hs] at h
    cases sub with
    | none =>
      simp only [if_true, Option.some.injEq] at h
      subst h
      rfl
    | some sub =>
      simp only [if_true, Option.some.injEq] at h
      subst h
      rfl
  · rw [hunfold]
    rcases hs : subscribe conn t1.Subject with ⟨sub, err⟩
    simp

theorem StartReceiver_unsubscribe_error_dropped_witness :
    exampleConnEnv.Unsubscribe ⟨1⟩ = some "nats: connection closed" ∧
    exampleTransportState.StartReceiver exampleEncodings exampleConnEnv true =
      some (none, { exampleTransportState with codec := some CodecKind.Codec, sub := none }) :=
  ⟨rfl, (StartReceiver_unsubscribe_error_dropped exampleEncodings exampleConnEnv
    exampleTransportState { exampleTransportState with codec := some CodecKind.Codec } 7
    rfl rfl rfl (by decide)).1 ⟨1⟩ rfl⟩

end nats

/-! ## Theorems: the invariant of validated descriptors -/

namespace client

theorem validateIn_data_only_four (r0 r1 : receiverFn) (ins outs : List ReflectType)
    (h : validateInParamSignature r0 (funcType ins outs) = (r1, none))
    (hdata : r1.hasDataIn = true) : ins.length = 4 := by
  unfold validateInParamSignature at h
  simp only [funcType] at h
  match ins, h with
  | [], h =>
    simp only [Prod.mk.injEq, and_true] at h
    subst h
    simp at hdata
  | [a], h =>
    simp only [validateInParamSignature.case1, unconvertibleToContextType,
      unconvertibleToEventType, unconvertibleToEventResponseType] at h
    split_ifs at h <;> simp only [Prod.mk.injEq, and_true, reduceCtorEq, and_false] at h <;>
      (subst h; simp at hdata)
  | [a, b], h =>
    simp only [validateInParamSignature.case2, validateInParamSignature.case1,
      unconvertibleToContextType, unconvertibleToEventType,
      unconvertibleToEventResponseType] at h
    split_ifs at h <;> simp only [Prod.mk.injEq, and_true, reduceCtorEq, and_false] at h <;>
      (subst h; simp at hdata)
  | [a, b, c], h =>
    simp only [validateInParamSignature.case3, validateInParamSignature.case2,
      validateInParamSignature.case1, unconvertibleToContextType, unconvertibleToEventType,
      unconvertibleToEventResponseType] at h
    split_ifs at h <;> simp only [Prod.mk.injEq, and_true, reduceCtorEq, and_false] at h
    subst h
    simp at hdata
  | [a, b, c, d], _ => rfl
  | _ :: _ :: _ :: _ :: _ :: _, h => simp at h

theorem receiver_accepts_only_functions (fn : Iface) (r : receiverFn)
    (h : receiver fn = .returned (some r, none)) :
    ∃ ins outs addr, fn = goFunc ins outs addr := by
  cases fn with
  | none => simp [receiver, TypeOf] at h
  | some v =>
    obtain ⟨⟨kind, ins, outs⟩, addr⟩ := v
    by_cases hk : kind = Kind.Func
    · subst hk
      exact ⟨ins, outs, addr, rfl⟩
    · simp [receiver, TypeOf, hk] at h

/-- C36: for every `fn` accepted by `receiver`, with descriptor `r`: `fn` is
a function and `numIn` is the number of its parameters; the number of true
flags among `hasContextIn`, `hasEventIn`, `hasDataIn` and
`hasEventResponseIn` equals `numIn`; `hasDataIn` is true only when `numIn` is
4; and every argument list `invoke` builds has `numIn` entries. -/
theorem receiver_flags_match_numIn {Context Event Data Response : Type} (fn : Iface)
    (r : receiverFn) (h : receiver fn = .returned (some r, none)) :
    (∃ ins outs addr, fn = goFunc ins outs addr ∧ r.numIn = ins.length) ∧
    [r.hasContextIn, r.hasEventIn, r.hasDataIn, r.hasEventResponseIn].count true = r.numIn ∧
    (r.hasDataIn = true → r.numIn = 4) ∧
    (∀ (env : InvokeEnv Context Event Data Response) (ctx : Context) (event : Event)
      (resp : Response) (args : List (Arg Context Event Data Response)),
      receiverFn.invoke.args env r ctx event resp = .ok args → args.length = r.numIn) := by
  obtain ⟨ins, outs, addr, rfl⟩ := receiver_accepts_only_functions fn r h
  obtain ⟨h1, _, h3, _, _, _, _⟩ := receiver_accepted ins outs addr r h
  refine ⟨⟨ins, outs, addr, rfl, h1⟩, ?_, fun hdata => ?_,
    fun env ctx event resp args hargs => ?_⟩
  · rw [h1, ← h3]
    obtain ⟨numIn, fnValue, c, e, d, rr, dt, eo⟩ := r
    cases c <;> cases e <;> cases d <;> cases rr <;> simp [slotsOf]
  · rw [h1]
    rw [receiver_goFunc] at h
    unfold validate at h
    rcases hin : validateInParamSignature (initialReceiverFn ins outs addr) (funcType ins outs)
      with ⟨r1, e1⟩
    rw [hin] at h
    cases e1 with
    | some e => simp at h
    | none =>
      rcases hout : validateOutParamSignature r1 (funcType ins outs) with ⟨r2, e2⟩
      simp only [hout] at h
      cases e2 with
      | some e => simp at h
      | none =>
        simp only [GoResult.returned.injEq, Prod.mk.injEq, Option.some.injEq, and_true] at h
        subst h
        obtain ⟨h7, _⟩ := validateOut_accepted _ _ _ _ hout
        rw [h7] at hdata
        exact validateIn_data_only_four _ _ ins outs hin hdata
  · have hok := DataAs_ok_of_args_ok env ins outs addr r ctx event resp args h hargs
    obtain ⟨args2, hargs2, hlen, _⟩ :=
      (invoke_args_accepted env ins outs addr r ctx event resp h).2 hok
    rw [hargs] at hargs2
    cases hargs2
    rw [hlen, h1]

theorem receiver_flags_match_numIn_witness :
    [exampleReceiverFn.hasContextIn, exampleReceiverFn.hasEventIn, exampleReceiverFn.hasDataIn,
      exampleReceiverFn.hasEventResponseIn].count true = exampleReceiverFn.numIn ∧
    (exampleReceiverFn.hasDataIn = true → exampleReceiverFn.numIn = 4) :=
  ⟨(@receiver_flags_match_numIn Nat Nat Nat Nat (goFunc exampleIns [errorType.rtype] 7)
      exampleReceiverFn rfl).2.1,
    (@receiver_flags_match_numIn Nat Nat Nat Nat (goFunc exampleIns [errorType.rtype] 7)
      exampleReceiverFn rfl).2.2.1⟩

end client

/-! ## Theorems: receive errors in the poll loop of the client -/

namespace v2

theorem PollRun_error_is_invocation {Context Event : Type} (steps : List (Step Context Event))
    (result : Option String) (h : PollRun steps result) :
    result = none ∨ ∃ ctx msg respFn e, result = some e ∧
      Step.Invoke ctx msg respFn (some e) ∈ steps := by
  induction h with
  | receiveEOF ctx msg => exact Or.inl rfl
  | respondEOF ctx msg respFn => exact Or.inl rfl
  | receiveFailed ctx msg err invokeErr hne =>
    exact Or.inr ⟨ctx, msg, none, invokeErr, rfl, by simp⟩
  | respondFailed ctx msg respFn err invokeErr hne =>
    exact Or.inr ⟨ctx, msg, respFn, invokeErr, rfl, by simp⟩
  | receiveNext ctx msg err rest result hne hrest ih =>
    rcases ih with ih | ⟨ictx, imsg, irespFn, e, he, hmem⟩
    · exact Or.inl ih
    · exact Or.inr ⟨ictx, imsg, irespFn, e, he, by simp [hmem]⟩
  | respondNext ctx msg respFn err rest result hne hrest ih =>
    rcases ih with ih | ⟨ictx, imsg, irespFn, e, he, hmem⟩
    · exact Or.inl ih
    · exact Or.inr ⟨ictx, imsg, irespFn, e, he, by simp [hmem]⟩

/-- C38: in the poll loop of a call of `StartReceiver` that passed
registration, a `Receive` or `Respond` result with an error other than
`io.EOF` is followed by `Invoke` on the message of that result (nil or not),
and the loop stops there only with the error of that invocation and goes on
otherwise; so whenever the call returns, it returns nil or the error of an
invocation it made. -/
theorem StartReceiver_ignores_receive_errors {Context Event S Fn : Type}
    (env : ClientEnv Context Event S Fn) (fuel : Nat) (c : ceClient Context Event S) (s : S)
    (ctx : Context) (fn : Fn) (invoker : Invoker Context Event S)
    (hmu : c.receiverMu = false) (hslot : c.invoker = none)
    (hnew : env.newReceiveInvoker fn c.eventDefaulterFns = .ok invoker)
    (hrecv : ¬ (invoker.IsReceiver = true ∧ c.receiver.isNone = true))
    (hresp : ¬ (invoker.IsResponder = true ∧ c.responder.isNone = true))
    (hcap : c.responder ≠ none ∨ c.receiver ≠ none) :
    (∀ receiver msg text s2 p, c.responder = none → c.receiver = some receiver →
      receiver.Receive p ctx = ((msg, some (PollError.other text)), s2) →
      ceClient.StartReceiver.pass (registeredClient c invoker) invoker p ctx =
        match invoker.Invoke s2 ctx msg none with
        | (some e, s3) =>
          Pass.stop (some e) s3
            [Step.Receive ctx msg (some (PollError.other text)),
              Step.Invoke ctx msg none (some e)]
        | (none, s3) =>
          Pass.next s3
            [Step.Receive ctx msg (some (PollError.other text)), Step.Invoke ctx msg none none]) ∧
    (∀ responder msg respFn text s2 p, c.responder = some responder →
      responder.Respond p ctx = ((msg, respFn, some (PollError.other text)), s2) →
      ceClient.StartReceiver.pass (registeredClient c invoker) invoker p ctx =
        match invoker.Invoke s2 ctx msg respFn with
        | (some e, s3) =>
          Pass.stop (some e) s3
            [Step.Respond ctx msg respFn (some (PollError.other text)),
              Step.Invoke ctx msg respFn (some e)]
        | (none, s3) =>
          Pass.next s3
            [Step.Respond ctx msg respFn (some (PollError.other text)),
              Step.Invoke ctx msg respFn none]) ∧
    (∀ out, c.StartReceiver env fuel s ctx fn = Run.returned out →
      out.err = none ∨ ∃ ictx msg respFn e, out.err = some e ∧
        Step.Invoke ictx msg respFn (some e) ∈ out.steps) := by
  refine ⟨fun receiver msg text s2 p hnoresp hreceiver hpoll => ?_,
    fun responder msg respFn text s2 p hresponder hpoll => ?_, fun out hout => ?_⟩
  · have h1 : (registeredClient c invoker).responder = none := hnoresp
    have h2 : (registeredClient c invoker).receiver = some receiver := hreceiver
    unfold ceClient.StartReceiver.pass
    rw [h1, h2]
    simp only [hpoll, ceClient.StartReceiver.handle]
    rcases invoker.Invoke s2 ctx msg none with ⟨r, s3⟩
    cases r <;> simp
  · have h1 : (registeredClient c invoker).responder = some responder := hresponder
    unfold ceClient.StartReceiver.pass
    rw [h1]
    simp only [hpoll, ceClient.StartReceiver.handle]
    rcases invoker.Invoke s2 ctx msg respFn with ⟨r, s3⟩
    cases r <;> simp
  · rw [StartReceiver_registered env fuel c s ctx fn invoker hmu hslot hnew hrecv hresp] at hout
    cases hpoll : ceClient.StartReceiver.poll (registeredClient c invoker) invoker ctx fuel s with
    | blocked => simp [hpoll] at hout
    | outOfFuel => simp [hpoll] at hout
    | returned r =>
      obtain ⟨err, s2, rest⟩ := r
      simp only [hpoll, Run.returned.injEq] at hout
      subst hout
      rcases poll_run _ _ _ _ _ _ _ _ hpoll with ⟨h1, h2, _, _⟩ | hrun
      · rcases hcap with hcap | hcap
        · exact absurd h1 hcap
        · exact absurd h2 hcap
      · rcases PollRun_error_is_invocation rest err hrun with hnone | ⟨ictx, msg, respFn, e, he, hmem⟩
        · exact Or.inl hnone
        · exact Or.inr ⟨ictx, msg, respFn, e, he, List.mem_append_right _ hmem⟩

theorem StartReceiver_ignores_receive_errors_witness :
    ceClient.StartReceiver.pass (registeredClient exampleFailingReceiveClient (exampleInvoker 0))
        (exampleInvoker 0) 0 () =
      Pass.next 1
        [Step.Receive () none (some (PollError.other "connection reset")),
          Step.Invoke () none none none] :=
  (StartReceiver_ignores_receive_errors exampleClientEnv 5 exampleFailingReceiveClient 0 () 0
    (exampleInvoker 0) rfl rfl rfl (by decide) (by decide)
    (Or.inr (by simp [exampleFailingReceiveClient]))).1
    ⟨fun s _ =>
      ((none, if s = 0 then some (PollError.other "connection reset") else some PollError.EOF),
        s + 1)⟩
    none "connection reset" 1 0 rfl rfl rfl

end v2

/-! ## Theorems: the supported parameter shapes -/

namespace client

theorem supportedSelections_eq :
    supportedSelections =
      [[], [Slot.context], [Slot.event], [Slot.context, Slot.event], [Slot.response],
        [Slot.context, Slot.response], [Slot.event, Slot.response],
        [Slot.context, Slot.event, Slot.response],
        [Slot.context, Slot.event, Slot.data, Slot.response]] := by
  decide

theorem validateOut_none_iff (r : receiverFn) (ins outs : List ReflectType) :
    (validateOutParamSignature r (funcType ins outs)).2 = none ↔
      documentedResults outs = true := by
  unfold validateOutParamSignature
  match outs with
  | [] => simp [funcType, documentedResults]
  | [t] =>
    cases ht : t.ConvertibleTo errorType <;> simp [funcType, documentedResults, ht]
  | _ :: _ :: _ => simp [funcType, documentedResults]

theorem validateIn_none_iff (r : receiverFn) (ins outs : List ReflectType)
    (hgo : ∀ t ∈ ins, ¬ (t.ConvertibleTo eventType = true ∧
      t.ConvertibleTo eventResponsePtrType = true)) :
    (validateInParamSignature r (funcType ins outs)).2 = none ↔ supportedParams ins = true := by
  unfold validateInParamSignature
  simp only [funcType, supportedParams, supportedSelections_eq]
  match ins, hgo with
  | [], _ => simp [fills]
  | [a], _ =>
    simp only [validateInParamSignature.case1, unconvertibleToContextType,
      unconvertibleToEventType, unconvertibleToEventResponseType, List.any_cons, List.any_nil,
      fills, Slot.admits]
    cases h1 : a.ConvertibleTo contextType <;> cases h2 : a.ConvertibleTo eventType <;>
      cases h3 : a.ConvertibleTo eventResponsePtrType <;> simp
  | [a, b], hgo =>
    have ha := hgo a (by simp)
    have hb := hgo b (by simp)
    simp only [validateInParamSignature.case2, validateInParamSignature.case1,
      unconvertibleToContextType, unconvertibleToEventType, unconvertibleToEventResponseType,
      List.any_cons, List.any_nil, fills, Slot.admits]
    cases h1 : a.ConvertibleTo contextType <;> cases h2 : a.ConvertibleTo eventType <;>
      cases h3 : a.ConvertibleTo eventResponsePtrType <;>
      cases h4 : b.ConvertibleTo eventType <;>
      cases h5 : b.ConvertibleTo eventResponsePtrType <;> simp_all
  | [a, b, c], hgo =>
    have hb := hgo b (by simp)
    simp only [validateInParamSignature.case3, validateInParamSignature.case2,
      validateInParamSignature.case1, unconvertibleToContextType, unconvertibleToEventType,
      unconvertibleToEventResponseType, List.any_cons, List.any_nil, fills, Slot.admits]
    cases h1 : a.ConvertibleTo contextType <;> cases h2 : a.ConvertibleTo eventType <;>
      cases h3 : a.ConvertibleTo eventResponsePtrType <;>
      cases h4 : b.ConvertibleTo eventType <;>
      cases h5 : b.ConvertibleTo eventResponsePtrType <;>
      cases h6 : c.ConvertibleTo eventResponsePtrType <;> simp_all
  | [a, b, c, d], _ =>
    simp only [validateInParamSignature.case4, unconvertibleToContextType,
      unconvertibleToEventType, unconvertibleToEventResponseType, List.any_cons, List.any_nil,
      fills, Slot.admits]
    cases h1 : a.ConvertibleTo contextType <;> cases h2 : b.ConvertibleTo eventType <;>
      cases h3 : unconvertibleToAny c <;>
      cases h4 : d.ConvertibleTo eventResponsePtrType <;> simp
  | _ :: _ :: _ :: _ :: _ :: _, _ => simp [fills]

theorem supported_is_documented (ins : List ReflectType)
    (h : supportedParams ins = true) : documentedParams ins = true := by
  simp only [supportedParams, documentedParams, List.any_eq_true] at h ⊢
  obtain ⟨sel, hsel, hfill⟩ := h
  have hsub : ∀ sel ∈ supportedSelections, sel ∈ selections := by decide
  exact ⟨sel, hsub sel hsel, hfill⟩

/-- C1 (amended): `receiver(fn)` returns a descriptor and no error if and only
if `fn` is a function whose parameter list is an order-preserving,
duplicate-free selection of `context.Context`, `cloudevents.Event` and
`*cloudevents.EventResponse`, or is all four of context, event, typed data
and response, and whose result list is empty or a single value convertible to
`error`; a parameter fills a position when its type converts to the type of
the position. Each of these parameter lists is one of the documented shapes.
No Go type converts both to the struct type `cloudevents.Event` and to the
pointer type `*cloudevents.EventResponse`, which is the hypothesis. -/
theorem receiver_accepts_iff_supported_shape (fn : Iface)
    (hgo : ∀ v, fn = some v → ∀ t ∈ v.typ.ins,
      ¬ (t.ConvertibleTo eventType = true ∧ t.ConvertibleTo eventResponsePtrType = true)) :
    ((∃ r, receiver fn = .returned (some r, none)) ↔
      ∃ ins outs addr, fn = goFunc ins outs addr ∧ supportedParams ins = true ∧
        documentedResults outs = true) ∧
    (∀ ins, supportedParams ins = true → documentedParams ins = true) := by
  refine ⟨?_, supported_is_documented⟩
  have hkey : ∀ ins outs addr, fn = goFunc ins outs addr →
      ((∃ r, receiver fn = .returned (some r, none)) ↔
        supportedParams ins = true ∧ documentedResults outs = true) := by
    intro ins outs addr hfn
    subst hfn
    have hins := hgo ⟨funcType ins outs, addr⟩ rfl
    rw [receiver_goFunc]
    unfold validate
    rcases hin : validateInParamSignature (initialReceiverFn ins outs addr)
      (funcType ins outs) with ⟨r1, e1⟩
    have hiff := validateIn_none_iff (initialReceiverFn ins outs addr) ins outs hins
    rw [hin] at hiff
    cases e1 with
    | some e =>
      have hno : ¬ supportedParams ins = true := fun hs => by simpa using hiff.mpr hs
      simp [hno]
    | none =>
      have hyes : supportedParams ins = true := hiff.mp rfl
      rcases hout : validateOutParamSignature r1 (funcType ins outs) with ⟨r2, e2⟩
      have hiff2 := validateOut_none_iff r1 ins outs
      rw [hout] at hiff2
      cases e2 with
      | some e =>
        have hno : ¬ documentedResults outs = true := fun hs => by simpa using hiff2.mpr hs
        simp [hout, hno]
      | none =>
        have hres : documentedResults outs = true := hiff2.mp rfl
        simp [hout, hyes, hres]
  constructor
  · rintro ⟨r, hr⟩
    obtain ⟨ins, outs, addr, hfn⟩ := receiver_accepts_only_functions fn r hr
    exact ⟨ins, outs, addr, hfn, (hkey ins outs addr hfn).mp ⟨r, hr⟩⟩
  · rintro ⟨ins, outs, addr, hfn, hs, hd⟩
    exact (hkey ins outs addr hfn).mpr ⟨hs, hd⟩

theorem receiver_accepts_iff_supported_shape_witness :
    ∃ r, receiver (goFunc exampleIns [errorType.rtype] 7) = .returned (some r, none) :=
  (receiver_accepts_iff_supported_shape (goFunc exampleIns [errorType.rtype] 7)
    (fun v hv => by cases hv; decide)).1.mpr
    ⟨exampleIns, [errorType.rtype], 7, rfl, by decide, by decide⟩

end client

end CloudEvents
